import Mathlib

/-!
Simple Space Invaders: a shallow embedding of `main.cpp`

The C++ program keeps all of its state in a handful of plain structs and
updates them in a single-threaded main loop.  The embedding below follows the
source function by function.

* `size_t` values are natural numbers; every arithmetic operation of the
  source on them is reduced modulo `2^64` (`uadd`, `usub`, `umul`), and an
  `int` operand is converted first (`of_int`).
* `int` values are integers; the results of `int` arithmetic are reduced to
  32-bit two's complement (`to_int`).
* Heap and fixed-size arrays are lists.  A read or write outside an array is
  undefined behaviour in C++; it is reported as `Fault.out_of_bounds`, a
  division by zero as `Fault.division_by_zero`.
* Loops whose trip count is known on entry are folds over `List.range`; the
  bullet loop, whose bound changes while it runs, takes a fuel argument
  and reports `Fault.out_of_fuel` when the fuel does not suffice.
* The clock readings and key events of a pass of the main loop are explicit
  inputs (`FrameInput`); the OpenGL and GLFW calls are left out.
-/

namespace Invaders

/-! ## Machine arithmetic -/

/-- Number of values of a 64-bit `size_t`. -/
abbrev WORD : Nat := 18446744073709551616

/-- Addition of two `size_t` values. -/
def uadd (a b : Nat) : Nat := (a + b) % WORD

/-- Subtraction of two `size_t` values (wraps below zero). -/
def usub (a b : Nat) : Nat := (a % WORD + (WORD - b % WORD)) % WORD

/-- Multiplication of two `size_t` values. -/
def umul (a b : Nat) : Nat := (a * b) % WORD

/-- Conversion of a (signed) `int` to `size_t`. -/
def of_int (i : Int) : Nat := (i % (WORD : Int)).toNat

/-- Number of values of a 32-bit `int`. -/
abbrev INT_RANGE : Int := 4294967296

/-- Conversion of an integer value to a 32-bit `int` (two's complement). -/
def to_int (z : Int) : Int :=
  let r := z % INT_RANGE
  if r < 2147483648 then r else r - INT_RANGE

/-- Ways in which the embedded code can fail to produce a result. -/
inductive Fault where
  | out_of_bounds
  | division_by_zero
  | out_of_fuel
  deriving DecidableEq

/-- Equality of results is decidable, so that the embedding can be evaluated
inside statements. -/
instance {ε α : Type} [DecidableEq ε] [DecidableEq α] : DecidableEq (Except ε α) :=
  fun a b =>
    match a, b with
    | .ok x, .ok y =>
      if h : x = y then isTrue (by rw [h]) else isFalse (fun h2 => h (Except.ok.inj h2))
    | .error x, .error y =>
      if h : x = y then isTrue (by rw [h]) else isFalse (fun h2 => h (Except.error.inj h2))
    | .ok _, .error _ => isFalse (fun h => Except.noConfusion h)
    | .error _, .ok _ => isFalse (fun h => Except.noConfusion h)

/-- Read of `xs[i]`; outside the array the read is undefined behaviour. -/
def read {α : Type} (xs : List α) (i : Nat) : Except Fault α :=
  match xs[i]? with
  | some v => .ok v
  | none => .error .out_of_bounds

/-- Write `xs[i] = v`; outside the array the write is undefined behaviour. -/
def write {α : Type} (xs : List α) (i : Nat) (v : α) : Except Fault (List α) :=
  if i < xs.length then .ok (xs.set i v) else .error .out_of_bounds

/-! ## Data model -/

/-- The source's `struct Buffer`. -/
structure Buffer where
  width : Nat
  height : Nat
  data : List Nat
  deriving DecidableEq

/-- The source's `struct Sprite`. -/
structure Sprite where
  width : Nat
  height : Nat
  data : List Nat
  deriving DecidableEq

/-- The source's `struct Sprites`. -/
structure Sprites where
  alien_sprites : List Sprite
  alien_death_sprite : Sprite
  player_sprite : Sprite
  bullet_sprite : Sprite
  deriving DecidableEq

/-- The source's `struct Alien`; `type` is a `uint8_t`. -/
structure Alien where
  x : Nat
  y : Nat
  type : Nat
  deriving DecidableEq

/-- The source's `struct Bullet`. -/
structure Bullet where
  x : Nat
  y : Nat
  dir : Int
  deriving DecidableEq

/-- The source's `struct Player`. -/
structure Player where
  x : Nat
  y : Nat
  life : Nat
  deriving DecidableEq

/-- The source's `GAME_MAX_BULLETS`. -/
abbrev GAME_MAX_BULLETS : Nat := 128

/-- The source's `struct Game`; `bullets` is the fixed array of
`GAME_MAX_BULLETS` slots, `aliens` the heap array of `num_aliens` entries. -/
structure Game where
  width : Nat
  height : Nat
  num_aliens : Nat
  num_bullets : Nat
  aliens : List Alien
  player : Player
  bullets : List Bullet
  deriving DecidableEq

/-- The source's `struct SpriteAnimation`; `frames` holds the sprites the
frame pointers refer to. -/
structure SpriteAnimation where
  loop : Bool
  num_frames : Nat
  frame_duration : Nat
  time : Nat
  frames : List Sprite
  deriving DecidableEq

/-- The source's `ALIEN_DEAD`. -/
abbrev ALIEN_DEAD : Nat := 0
/-- The source's `ALIEN_TYPE_A`. -/
abbrev ALIEN_TYPE_A : Nat := 1
/-- The source's `ALIEN_TYPE_B`. -/
abbrev ALIEN_TYPE_B : Nat := 2
/-- The source's `ALIEN_TYPE_C`. -/
abbrev ALIEN_TYPE_C : Nat := 3

/-! ## Pixel compositor -/

/-- The source's `buffer_clear`: the loop `for i < width * height` storing
`color` at `data[i]`. -/
def buffer_clear (buffer : Buffer) (color : Nat) : Except Fault Buffer :=
  (List.range (umul buffer.width buffer.height)).foldlM
    (fun (b : Buffer) i => do
      let d ← write b.data i color
      pure { b with data := d })
    buffer

/-- The source's `sprite_overlap_check`. -/
def sprite_overlap_check (sp_a : Sprite) (x_a y_a : Nat)
    (sp_b : Sprite) (x_b y_b : Nat) : Bool :=
  if x_a < uadd x_b sp_b.width ∧ uadd x_a sp_a.width > x_b ∧
     y_a < uadd y_b sp_b.height ∧ uadd y_a sp_a.height > y_b
  then true
  else false

/-- Buffer row `sprite.height - 1 + y - yi` of mask cell row `yi`. -/
def target_row (sprite : Sprite) (y yi : Nat) : Nat :=
  usub (uadd (usub sprite.height 1) y) yi

/-- Buffer column `x + xi` of mask cell column `xi`. -/
def target_col (x xi : Nat) : Nat := uadd x xi

/-- The condition and the index expression of the innermost statement of
`buffer_draw_sprite` for the mask cell `(xi, yi)`: the index written to, or
`none` when the condition is false and nothing is written. -/
def draw_target (buffer : Buffer) (sprite : Sprite) (x y xi yi : Nat) :
    Except Fault (Option Nat) := do
  let cell ← read sprite.data (uadd (umul yi sprite.width) xi)
  if cell ≠ 0 ∧ target_row sprite y yi < buffer.height ∧
     target_col x xi < buffer.width
  then pure (some (uadd (umul (target_row sprite y yi) buffer.width) (target_col x xi)))
  else pure none

/-- One pass through the body of the inner loop of `buffer_draw_sprite`. -/
def draw_cell (sprite : Sprite) (x y color xi : Nat) (buffer : Buffer) (yi : Nat) :
    Except Fault Buffer := do
  match ← draw_target buffer sprite x y xi yi with
  | some idx =>
    let d ← write buffer.data idx color
    pure { buffer with data := d }
  | none => pure buffer

/-- The inner loop of `buffer_draw_sprite` (`yi` from `0` to `height - 1`). -/
def draw_column (sprite : Sprite) (x y color : Nat) (buffer : Buffer) (xi : Nat) :
    Except Fault Buffer :=
  (List.range sprite.height).foldlM (draw_cell sprite x y color xi) buffer

/-- The source's `buffer_draw_sprite`. -/
def buffer_draw_sprite (buffer : Buffer) (sprite : Sprite) (x y color : Nat) :
    Except Fault Buffer :=
  (List.range sprite.width).foldlM (draw_column sprite x y color) buffer

/-- The source's `rgb_to_uint32`, the result converted to `uint32_t`. -/
def rgb_to_uint32 (r g b : Nat) : Nat :=
  ((r <<< 24) ||| (g <<< 16) ||| (b <<< 8) ||| 255) % 4294967296

/-! ## Input adapter -/

/-- The keys `key_callback` distinguishes. -/
inductive Key where
  | escape | right | left | space | other
  deriving DecidableEq

/-- The key actions `key_callback` distinguishes (`other` is a repeat). -/
inductive Action where
  | press | release | other
  deriving DecidableEq

/-- The whole mutable state of the program: the locals of `main` that
survive an iteration of the main loop, the three globals and the static
local of `update_aliens_position`. -/
structure World where
  game : Game
  sprites : Sprites
  alien_animation : List SpriteAnimation
  death_counters : List Nat
  game_running : Bool
  move_dir : Int
  fire_pressed : Bool
  last_update_time : Int
  deriving DecidableEq

/-- The source's `key_callback`. -/
def key_callback (w : World) (key : Key) (action : Action) : World :=
  match key with
  | .escape =>
    if action = .press then { w with game_running := false } else w
  | .right =>
    if action = .press then { w with move_dir := to_int (w.move_dir + 1) }
    else if action = .release then { w with move_dir := to_int (w.move_dir - 1) }
    else w
  | .left =>
    if action = .press then { w with move_dir := to_int (w.move_dir - 1) }
    else if action = .release then { w with move_dir := to_int (w.move_dir + 1) }
    else w
  | .space =>
    if action = .release then { w with fire_pressed := true } else w
  | .other => w

/-! ## Simulation -/

/-- The body of the loop of `update_aliens_position`:
`game.aliens[ai].y -= pixels_to_drop`. -/
def drop_alien (aliens : List Alien) (ai : Nat) : Except Fault (List Alien) := do
  let alien ← read aliens ai
  write aliens ai { alien with y := usub alien.y (of_int 5) }

/-- The source's `update_aliens_position`; `t1`, `t2` and `t3` are the values
returned by its three calls of `time(NULL)`, in program order. -/
def update_aliens_position (w : World) (t1 t2 t3 : Int) : Except Fault World := do
  let last := if w.last_update_time = 0 then t1 else w.last_update_time
  let delta_time := t2 - last
  if delta_time > 3 then
    let aliens ← (List.range w.game.num_aliens).foldlM drop_alien w.game.aliens
    pure { w with last_update_time := t3, game := { w.game with aliens := aliens } }
  else
    pure { w with last_update_time := last }

/-- The body of the "update animations" loop of `main`. -/
def update_animation (anims : List SpriteAnimation) (i : Nat) :
    Except Fault (List SpriteAnimation) := do
  let a ← read anims i
  let t := uadd a.time 1
  if t = umul a.num_frames a.frame_duration then write anims i { a with time := 0 }
  else write anims i { a with time := t }

/-- The "update animations" loop of `main`. -/
def update_animations (anims : List SpriteAnimation) : Except Fault (List SpriteAnimation) :=
  (List.range 3).foldlM update_animation anims

/-- The body of the "simulate aliens" loop of `main`. -/
def simulate_alien (game : Game) (death_counters : List Nat) (ai : Nat) :
    Except Fault (List Nat) := do
  let alien ← read game.aliens ai
  if alien.type = ALIEN_DEAD then
    let c ← read death_counters ai
    if c ≠ 0 then write death_counters ai (c - 1) else pure death_counters
  else pure death_counters

/-- The "simulate aliens" loop of `main`. -/
def simulate_aliens (game : Game) (death_counters : List Nat) : Except Fault (List Nat) :=
  (List.range game.num_aliens).foldlM (simulate_alien game) death_counters

/-- The sprite `*animation.frames[animation.time / animation.frame_duration]`
of the animation `alien_animation[type - 1]`. -/
def current_sprite (anims : List SpriteAnimation) (type : Nat) : Except Fault Sprite := do
  let animation ← read anims (type - 1)
  if animation.frame_duration = 0 then throw Fault.division_by_zero
  else read animation.frames (animation.time / animation.frame_duration)

/-- The body of the "check hit" loop of `main` for the bullet slot `bi` and
the alien `ai`.  The `continue` that ends the hit branch belongs to the alien
loop, so the pass ends and the loop goes on with the next alien. -/
def check_hit (sprites : Sprites) (anims : List SpriteAnimation) (bi : Nat)
    (game : Game) (ai : Nat) : Except Fault Game := do
  let alien ← read game.aliens ai
  if alien.type = ALIEN_DEAD then pure game
  else
    let alien_sprite ← current_sprite anims alien.type
    let bullet ← read game.bullets bi
    let overlap := sprite_overlap_check sprites.bullet_sprite bullet.x bullet.y
      alien_sprite alien.x alien.y
    if overlap then
      let aliens ← write game.aliens ai
        { alien with
          type := ALIEN_DEAD
          x := usub alien.x (usub sprites.alien_death_sprite.width alien_sprite.width / 2) }
      let last ← read game.bullets (usub game.num_bullets 1)
      let bullets ← write game.bullets bi last
      pure { game with aliens := aliens, bullets := bullets,
                       num_bullets := usub game.num_bullets 1 }
    else pure game

/-- The "check hit" loop of `main` for the bullet slot `bi`. -/
def check_hits (sprites : Sprites) (anims : List SpriteAnimation) (bi : Nat)
    (game : Game) : Except Fault Game :=
  (List.range game.num_aliens).foldlM (check_hit sprites anims bi) game

/-- The statement `game.bullets[bi] = game.bullets[game.num_bullets - 1];
--game.num_bullets;`. -/
def remove_bullet (game : Game) (bi : Nat) : Except Fault Game := do
  let last ← read game.bullets (usub game.num_bullets 1)
  let bullets ← write game.bullets bi last
  pure { game with bullets := bullets, num_bullets := usub game.num_bullets 1 }

/-- The statement `game.bullets[bi].y += game.bullets[bi].dir`. -/
def advance_bullet (game : Game) (bi : Nat) : Except Fault Game := do
  let bullet ← read game.bullets bi
  let bullets ← write game.bullets bi { bullet with y := uadd bullet.y (of_int bullet.dir) }
  pure { game with bullets := bullets }

/-- One pass through the body of the "simulate bullets" loop of `main`; the
result is the game and the value of `bi` for the next pass. -/
def simulate_bullet (sprites : Sprites) (anims : List SpriteAnimation)
    (game : Game) (bi : Nat) : Except Fault (Game × Nat) := do
  let game1 ← advance_bullet game bi
  let bullet ← read game1.bullets bi
  if bullet.y ≥ game1.height ∨ bullet.y < sprites.bullet_sprite.height then
    let game2 ← remove_bullet game1 bi
    pure (game2, bi)
  else
    let game2 ← check_hits sprites anims bi game1
    pure (game2, uadd bi 1)

/-- The "simulate bullets" loop of `main`, from the slot `bi` on. -/
def simulate_bullets_from (sprites : Sprites) (anims : List SpriteAnimation) :
    Nat → Game → Nat → Except Fault Game
  | 0, game, bi =>
    if bi < game.num_bullets then throw Fault.out_of_fuel else pure game
  | fuel + 1, game, bi =>
    if bi < game.num_bullets then do
      let (game1, bi1) ← simulate_bullet sprites anims game bi
      simulate_bullets_from sprites anims fuel game1 bi1
    else pure game

/-- The "simulate bullets" loop of `main`.  Every pass lowers
`num_bullets - bi`, so `num_bullets` passes are enough. -/
def simulate_bullets (sprites : Sprites) (anims : List SpriteAnimation) (game : Game) :
    Except Fault Game :=
  simulate_bullets_from sprites anims game.num_bullets game 0

/-- The source's `simulate_player`; `move_dir` is the global of that name. -/
def simulate_player (game : Game) (sprites : Sprites) (move_dir : Int) : Game :=
  let player_move_dir := to_int (2 * move_dir)
  if player_move_dir ≠ 0 then
    if uadd (uadd game.player.x sprites.player_sprite.width) (of_int player_move_dir)
        ≥ game.width then
      { game with player := { game.player with
          x := usub game.width sprites.player_sprite.width } }
    else if to_int (to_int game.player.x + player_move_dir) ≤ 0 then
      { game with player := { game.player with x := 0 } }
    else
      { game with player := { game.player with
          x := uadd game.player.x (of_int player_move_dir) } }
  else game

/-- The source's `process_events`; the result is the game and the new value
of the global `fire_pressed`. -/
def process_events (game : Game) (sprites : Sprites) (fire_pressed : Bool) :
    Except Fault (Game × Bool) := do
  if fire_pressed ∧ game.num_bullets < GAME_MAX_BULLETS then
    let bullets ← write game.bullets game.num_bullets
      { x := uadd game.player.x (sprites.player_sprite.width / 2)
        y := uadd game.player.y sprites.player_sprite.height
        dir := 2 }
    pure ({ game with bullets := bullets, num_bullets := uadd game.num_bullets 1 }, false)
  else pure (game, false)

/-! ## Rendering and the main loop -/

/-- The body of the "draw" loop over the aliens in `main`. -/
def draw_alien (w : World) (buffer : Buffer) (ai : Nat) : Except Fault Buffer := do
  let c ← read w.death_counters ai
  if c = 0 then pure buffer
  else
    let alien ← read w.game.aliens ai
    if alien.type = ALIEN_DEAD then
      buffer_draw_sprite buffer w.sprites.alien_death_sprite alien.x alien.y
        (rgb_to_uint32 128 0 0)
    else
      let sprite ← current_sprite w.alien_animation alien.type
      buffer_draw_sprite buffer sprite alien.x alien.y (rgb_to_uint32 128 0 0)

/-- The body of the "draw" loop over the bullets in `main`. -/
def draw_bullet (w : World) (buffer : Buffer) (bi : Nat) : Except Fault Buffer := do
  let bullet ← read w.game.bullets bi
  buffer_draw_sprite buffer w.sprites.bullet_sprite bullet.x bullet.y (rgb_to_uint32 128 0 0)

/-- The drawing part of the main loop: aliens, bullets, player. -/
def draw_world (w : World) (buffer : Buffer) : Except Fault Buffer := do
  let b1 ← (List.range w.game.num_aliens).foldlM (draw_alien w) buffer
  let b2 ← (List.range w.game.num_bullets).foldlM (draw_bullet w) b1
  buffer_draw_sprite b2 w.sprites.player_sprite w.game.player.x w.game.player.y
    (rgb_to_uint32 128 0 0)

/-- What the outside world feeds into one pass of the main loop: the three
clock readings of `update_aliens_position` and the key events delivered by
`glfwPollEvents`. -/
structure FrameInput where
  t1 : Int
  t2 : Int
  t3 : Int
  events : List (Key × Action)
  deriving DecidableEq

/-- The part of the main loop body after the presentation of the buffer:
update animations, simulate aliens, simulate bullets, `simulate_player`,
`process_events`. -/
def update_state (w : World) : Except Fault World := do
  let anims ← update_animations w.alien_animation
  let counters ← simulate_aliens w.game w.death_counters
  let game1 ← simulate_bullets w.sprites anims w.game
  let game2 := simulate_player game1 w.sprites w.move_dir
  let (game3, fire) ← process_events game2 w.sprites w.fire_pressed
  pure { w with alien_animation := anims, death_counters := counters,
                game := game3, fire_pressed := fire }

/-- The call of `glfwPollEvents`: `key_callback` runs once per pending event. -/
def poll_events (w : World) (events : List (Key × Action)) : World :=
  events.foldl (fun w e => key_callback w e.1 e.2) w

/-- One pass through the body of the main loop of `main`: the new state and
the buffer handed to the presentation layer. -/
def main_loop_body (w : World) (buffer : Buffer) (clear_color : Nat) (inp : FrameInput) :
    Except Fault (World × Buffer) := do
  let b1 ← buffer_clear buffer clear_color
  let w1 ← update_aliens_position w inp.t1 inp.t2 inp.t3
  let b2 ← draw_world w1 b1
  let w2 ← update_state w1
  pure (poll_events w2 inp.events, b2)

/-- The main loop of `main`, fed one `FrameInput` per pass; the loop ends
when `game_running` is false or, the window being closed, no input is left. -/
def main_loop (clear_color : Nat) : List FrameInput → World → Buffer →
    Except Fault (World × Buffer)
  | [], w, buffer => pure (w, buffer)
  | inp :: rest, w, buffer =>
    if w.game_running then do
      let (w1, b1) ← main_loop_body w buffer clear_color inp
      main_loop clear_color rest w1 b1
    else pure (w, buffer)

/-! ## Initialisation -/

/-- The source's `buffer_width`. -/
abbrev buffer_width : Nat := 600
/-- The source's `buffer_height`. -/
abbrev buffer_height : Nat := 400
/-- The source's `NUM_OF_ALIEN_ROWS`. -/
abbrev NUM_OF_ALIEN_ROWS : Nat := 6
/-- The source's `NUM_OF_ALIEN_TYPES`. -/
abbrev NUM_OF_ALIEN_TYPES : Nat := 3

/-- The source's `init_sprites`. -/
def init_sprites : Sprites where
  alien_sprites := [
    { width := 20, height := 8, data := [
        0,0,0,1,1,0,0,0,
        0,0,1,1,1,1,0,0,
        0,1,1,1,1,1,1,0,
        1,1,0,1,1,0,1,1,
        1,1,1,1,1,1,1,1,
        0,1,0,1,1,0,1,0,
        1,0,0,0,0,0,0,1,
        0,1,0,0,0,0,1,0] },
    { width := 8, height := 8, data := [
        0,0,0,1,1,0,0,0,
        0,0,1,1,1,1,0,0,
        0,1,1,1,1,1,1,0,
        1,1,0,1,1,0,1,1,
        1,1,1,1,1,1,1,1,
        0,0,1,0,0,1,0,0,
        0,1,0,1,1,0,1,0,
        1,0,1,0,0,1,0,1] },
    { width := 11, height := 8, data := [
        0,0,1,0,0,0,0,0,1,0,0,
        0,0,0,1,0,0,0,1,0,0,0,
        0,0,1,1,1,1,1,1,1,0,0,
        0,1,1,0,1,1,1,0,1,1,0,
        1,1,1,1,1,1,1,1,1,1,1,
        1,0,1,1,1,1,1,1,1,0,1,
        1,0,1,0,0,0,0,0,1,0,1,
        0,0,0,1,1,0,1,1,0,0,0] },
    { width := 11, height := 8, data := [
        0,0,1,0,0,0,0,0,1,0,0,
        1,0,0,1,0,0,0,1,0,0,1,
        1,0,1,1,1,1,1,1,1,0,1,
        1,1,1,0,1,1,1,0,1,1,1,
        1,1,1,1,1,1,1,1,1,1,1,
        0,1,1,1,1,1,1,1,1,1,0,
        0,0,1,0,0,0,0,0,1,0,0,
        0,1,0,0,0,0,0,0,0,1,0] },
    { width := 12, height := 8, data := [
        0,0,0,0,1,1,1,1,0,0,0,0,
        0,1,1,1,1,1,1,1,1,1,1,0,
        1,1,1,1,1,1,1,1,1,1,1,1,
        1,1,1,0,0,1,1,0,0,1,1,1,
        1,1,1,1,1,1,1,1,1,1,1,1,
        0,0,0,1,1,0,0,1,1,0,0,0,
        0,0,1,1,0,1,1,0,1,1,0,0,
        1,1,0,0,0,0,0,0,0,0,1,1] },
    { width := 12, height := 8, data := [
        0,0,0,0,1,1,1,1,0,0,0,0,
        0,1,1,1,1,1,1,1,1,1,1,0,
        1,1,1,1,1,1,1,1,1,1,1,1,
        1,1,1,0,0,1,1,0,0,1,1,1,
        1,1,1,1,1,1,1,1,1,1,1,1,
        0,0,1,1,1,0,0,1,1,1,0,0,
        0,1,1,0,0,1,1,0,0,1,1,0,
        0,0,1,1,0,0,0,0,1,1,0,0] }]
  alien_death_sprite :=
    { width := 13, height := 7, data := [
        0,1,0,0,1,0,0,0,1,0,0,1,0,
        0,0,1,0,0,1,0,1,0,0,1,0,0,
        0,0,0,1,0,0,0,0,0,1,0,0,0,
        1,1,0,0,0,0,0,0,0,0,0,1,1,
        0,0,0,1,0,0,0,0,0,1,0,0,0,
        0,0,1,0,0,1,0,1,0,0,1,0,0,
        0,1,0,0,1,0,0,0,1,0,0,1,0] }
  player_sprite :=
    { width := 11, height := 7, data := [
        0,0,0,0,0,1,0,0,0,0,0,
        0,0,0,0,1,1,1,0,0,0,0,
        0,0,0,0,1,1,1,0,0,0,0,
        0,1,1,1,1,1,1,1,1,1,0,
        1,1,1,1,1,1,1,1,1,1,1,
        1,1,1,1,1,1,1,1,1,1,1,
        1,1,1,1,1,1,1,1,1,1,1] }
  bullet_sprite := { width := 1, height := 3, data := [1, 1, 1] }

/-- The source's `prepare_game`, applied to the zero-initialised `Game` of
`main`; the fresh alien array is filled by `init_aliens`. -/
def prepare_game : Game where
  width := buffer_width
  height := buffer_height
  num_bullets := 0
  num_aliens := umul NUM_OF_ALIEN_ROWS 11
  aliens := List.replicate (umul NUM_OF_ALIEN_ROWS 11) { x := 0, y := 0, type := 0 }
  player := { x := usub (buffer_width / 2) 5, y := 32, life := 3 }
  bullets := List.replicate GAME_MAX_BULLETS { x := 0, y := 0, dir := 0 }

/-- The first loop of `init_aliens`, which fills the first three entries of
the five-entry, zero-initialised array `alien_animation` of `main`. -/
def init_animations (sprites : Sprites) : Except Fault (List SpriteAnimation) :=
  (List.range 3).foldlM
    (fun (anims : List SpriteAnimation) i => do
      let f0 ← read sprites.alien_sprites (umul 2 i)
      let f1 ← read sprites.alien_sprites (uadd (umul 2 i) 1)
      write anims i
        { loop := true, num_frames := 2, frame_duration := 10, time := 0, frames := [f0, f1] })
    (List.replicate (NUM_OF_ALIEN_ROWS - 1)
      { loop := false, num_frames := 0, frame_duration := 0, time := 0, frames := [] })

/-- The body of the inner loop of `init_aliens` for row `yi`, column `xi`. -/
def init_alien (sprites : Sprites) (yi : Nat) (aliens : List Alien) (xi : Nat) :
    Except Fault (List Alien) := do
  let type := min (uadd (usub NUM_OF_ALIEN_ROWS yi / 2) 1) NUM_OF_ALIEN_TYPES % 256
  let sprite ← read sprites.alien_sprites (umul 2 (type - 1))
  write aliens (uadd (umul yi 11) xi)
    { type := type
      x := uadd (uadd (umul (buffer_width / 11) xi) 10)
             (usub sprites.alien_death_sprite.width sprite.width / 2)
      y := uadd (umul 17 yi) 128 }

/-- The second (nested) loop of `init_aliens`. -/
def init_aliens (game : Game) (sprites : Sprites) : Except Fault Game := do
  let aliens ← (List.range NUM_OF_ALIEN_ROWS).foldlM
    (fun (aliens : List Alien) yi => (List.range 11).foldlM (init_alien sprites yi) aliens)
    game.aliens
  pure { game with aliens := aliens }

/-- The state of the program when `main` enters its loop: `prepare_game`,
`init_sprites`, `init_aliens`, death counters set to `10`. -/
def initial_world : Except Fault World := do
  let sprites := init_sprites
  let anims ← init_animations sprites
  let game ← init_aliens prepare_game sprites
  pure
    { game := game, sprites := sprites, alien_animation := anims,
      death_counters := List.replicate game.num_aliens 10,
      game_running := true, move_dir := 0, fire_pressed := false, last_update_time := 0 }

/-! ## Specification-side predicates -/

/-- Spec side of the overlap test: some integer point lies in both of the
half-open rectangles `[xa, xa+wa) x [ya, ya+ha)` and `[xb, xb+wb) x [yb, yb+hb)`. -/
def rects_intersect (xa ya wa ha xb yb wb hb : Nat) : Prop :=
  ∃ px py : Nat, xa ≤ px ∧ px < xa + wa ∧ ya ≤ py ∧ py < ya + ha ∧
    xb ≤ px ∧ px < xb + wb ∧ yb ≤ py ∧ py < yb + hb

/-- A buffer is valid when its data array holds `width * height` pixels (a
count that is a `size_t` value). -/
def Buffer.valid (b : Buffer) : Prop :=
  b.data.length = b.width * b.height ∧ b.width * b.height < WORD

/-- A sprite is valid when its data array holds `width * height` cells. -/
def Sprite.valid (s : Sprite) : Prop :=
  s.data.length = s.width * s.height ∧ s.width * s.height < WORD

instance (b : Buffer) : Decidable b.valid := by
  unfold Buffer.valid; infer_instance

instance (s : Sprite) : Decidable s.valid := by
  unfold Sprite.valid; infer_instance

/-- The pixel of column `px` and row `py` of a buffer. -/
def Buffer.pixel (b : Buffer) (px py : Nat) : Option Nat :=
  b.data[py * b.width + px]?

/-- The mask cell of column `xi` and row `yi` is set. -/
def Sprite.cell_set (s : Sprite) (xi yi : Nat) : Prop :=
  ∃ v, s.data[yi * s.width + xi]? = some v ∧ v ≠ 0

/-- The buffer after storing `color` at the index `t`, if there is one. -/
def Buffer.paint (color : Nat) (b : Buffer) (t : Option Nat) : Buffer :=
  match t with
  | some i => { b with data := b.data.set i color }
  | none => b

/-- The index `draw_target` yields for a cell whose mask read is in range and
whose index expression does not wrap. -/
def target_index (bw bh : Nat) (sprite : Sprite) (x y xi yi : Nat) : Option Nat :=
  if sprite.data[yi * sprite.width + xi]?.getD 0 ≠ 0 ∧ target_row sprite y yi < bh ∧
     target_col x xi < bw
  then some (target_row sprite y yi * bw + target_col x xi)
  else none

/-- Loop invariant of the drawing loops: a valid buffer of fixed dimensions. -/
def Buffer.shaped (bw bh : Nat) (b : Buffer) : Prop :=
  b.valid ∧ b.width = bw ∧ b.height = bh

/-- Spec side of "DEAD is terminal", second sentence: the alien array keeps
its length and every alien either keeps its type or has become DEAD. -/
def only_deaths (old new : List Alien) : Prop :=
  new.length = old.length ∧
  ∀ (i : Nat) (a a' : Alien), old[i]? = some a → new[i]? = some a' →
    a'.type = a.type ∨ a'.type = ALIEN_DEAD

/-- Spec side of "DEAD is terminal", first sentence: every alien that is DEAD
in `old` is DEAD in `new`. -/
def dead_stays_dead (old new : List Alien) : Prop :=
  ∀ (ai : Nat) (a : Alien), old[ai]? = some a → a.type = ALIEN_DEAD →
    ∃ a', new[ai]? = some a' ∧ a'.type = ALIEN_DEAD

/-! ## Sample states -/

/-- The five-entry array `alien_animation` as `init_aliens` leaves it. -/
def start_animations : List SpriteAnimation :=
  match init_animations init_sprites with
  | .ok anims => anims
  | .error _ => []

/-- A game on the 600x400 field with the given aliens, bullet count and first
slots of the bullet pool (the other slots hold zeros). -/
def game_with (aliens : List Alien) (num_bullets : Nat) (slots : List Bullet) : Game where
  width := buffer_width
  height := buffer_height
  num_aliens := aliens.length
  num_bullets := num_bullets
  aliens := aliens
  player := { x := 295, y := 32, life := 3 }
  bullets := slots ++ List.replicate (GAME_MAX_BULLETS - slots.length) { x := 0, y := 0, dir := 0 }

/-- A world with the sprites and animations of the program, the given game
and death counters, and no pending input. -/
def world_with (game : Game) (death_counters : List Nat) : World where
  game := game
  sprites := init_sprites
  alien_animation := start_animations
  death_counters := death_counters
  game_running := true
  move_dir := 0
  fire_pressed := false
  last_update_time := 0

/-- The value of a result, for runs that are known to succeed. -/
def result_of (r : Except Fault (World × Buffer)) (w : World) (b : Buffer) : World × Buffer :=
  match r with
  | .ok p => p
  | .error _ => (w, b)

/-- A world in which one live bullet is about to hit the first of two aliens,
the second alien being DEAD already. -/
def demo_world : World :=
  world_with (game_with [⟨100, 50, ALIEN_TYPE_B⟩, ⟨1, 1, ALIEN_DEAD⟩] 1 [⟨102, 50, 2⟩]) [10, 3]

/-- A small pixel buffer. -/
def demo_buffer : Buffer := ⟨4, 4, List.replicate 16 0⟩

/-- A frame input: no alien drop is due, the fire key is released. -/
def demo_input : FrameInput := ⟨0, 0, 0, [(Key.space, Action.release)]⟩

/-- The outcome of one pass of the main loop from `demo_world`. -/
def demo_result : World × Buffer :=
  result_of (main_loop_body demo_world demo_buffer 9 demo_input) demo_world demo_buffer

/-- Two aliens on top of each other and a single live bullet that, once
advanced, overlaps both. -/
def stacked_aliens : Game :=
  game_with [⟨100, 50, ALIEN_TYPE_B⟩, ⟨100, 50, ALIEN_TYPE_B⟩] 1 [⟨102, 50, 2⟩]

/-- The first two aliens of the initial grid and two live bullets: the first
bullet overlaps the first alien once advanced, the second overlaps the second
alien where it stands. -/
def two_bullets : Game :=
  game_with [⟨10, 128, ALIEN_TYPE_C⟩, ⟨64, 128, ALIEN_TYPE_C⟩] 2 [⟨15, 126, 2⟩, ⟨70, 130, 2⟩]

/-- A game whose first bullet leaves the field through the top edge. -/
def leaving_bullet : Game :=
  game_with [⟨100, 50, ALIEN_TYPE_B⟩] 2 [⟨10, 399, 2⟩, ⟨20, 100, 2⟩]

/-! ## Definitions for the input adapter, the alien drop and the draw loop -/

/-- Spec side of the `move_dir` accumulator: (right presses - right releases)
- (left presses - left releases) of a sequence of key events. -/
def net_moves (events : List (Key × Action)) : Int :=
  ((events.count (Key.right, Action.press) : Int) - events.count (Key.right, Action.release)) -
  ((events.count (Key.left, Action.press) : Int) - events.count (Key.left, Action.release))

/-- The alien array after the loop of `update_aliens_position` has run:
every `y` lowered by `pixels_to_drop`. -/
def dropped (aliens : List Alien) : List Alien :=
  aliens.map (fun a => { a with y := usub a.y 5 })

/-- The sprite the "draw" loop of `main` passes to `buffer_draw_sprite` for
the alien `ai`, or `none` when the loop skips the alien. -/
def alien_mask (w : World) (ai : Nat) : Except Fault (Option Sprite) := do
  let c ← read w.death_counters ai
  if c = 0 then pure none
  else
    let alien ← read w.game.aliens ai
    if alien.type = ALIEN_DEAD then pure (some w.sprites.alien_death_sprite)
    else
      let sprite ← current_sprite w.alien_animation alien.type
      pure (some sprite)

/-- Consecutive passes through the body of the main loop, one per input. -/
def passes (clear_color : Nat) : List FrameInput → World → Buffer →
    Except Fault (World × Buffer)
  | [], w, buffer => pure (w, buffer)
  | inp :: rest, w, buffer => do
    let (w1, b1) ← main_loop_body w buffer clear_color inp
    passes clear_color rest w1 b1

/-- The arrays `aliens` and `death_counters` hold `num_aliens` entries each, as
`main` allocates them. -/
def World.arrays_ok (w : World) : Prop :=
  w.game.aliens.length = w.game.num_aliens ∧ w.death_counters.length = w.game.num_aliens

instance (w : World) : Decidable w.arrays_ok := by
  unfold World.arrays_ok; infer_instance

/-! ## More sample states -/

/-- One alien of the initial grid and two live bullets: the first hits the
alien once advanced, the second is far from every alien. -/
def bystander_bullet : Game :=
  game_with [⟨10, 128, ALIEN_TYPE_C⟩] 2 [⟨15, 126, 2⟩, ⟨300, 41, 2⟩]

/-- A game whose player stands at the left edge of the field. -/
def left_edge : Game :=
  { game_with [] 0 [] with player := { x := 0, y := 32, life := 3 } }

/-- A game whose bullet pool is full. -/
def full_pool : Game :=
  game_with [] 128 (List.replicate 128 { x := 300, y := 100, dir := 2 })

/-- An alive alien, a DEAD alien whose counter is 1 and a DEAD alien whose
counter is 0. -/
def three_aliens : Game :=
  game_with [⟨100, 50, ALIEN_TYPE_B⟩, ⟨1, 1, ALIEN_DEAD⟩, ⟨5, 5, ALIEN_DEAD⟩] 0 []

/-- A world whose last alien drop was recorded at second 10. -/
def dropped_at_ten : World :=
  { world_with (game_with [⟨10, 128, ALIEN_TYPE_C⟩, ⟨64, 128, ALIEN_DEAD⟩] 0 []) [10, 4] with
    last_update_time := 10 }

/-! ## Definitions for the initial state -/

/-- Spec side of "the alien lies entirely inside the buffer": for the first
frame of the animation of its type, `x + frame.width <= game.width` and
`y + frame.height <= game.height`. -/
def alien_inside (w : World) (a : Alien) : Prop :=
  match w.alien_animation[a.type - 1]? with
  | some animation =>
    match animation.frames[0]? with
    | some frame => a.x + frame.width ≤ w.game.width ∧ a.y + frame.height ≤ w.game.height
    | none => False
  | none => False

instance (w : World) (a : Alien) : Decidable (alien_inside w a) := by
  unfold alien_inside
  split
  · split <;> infer_instance
  · infer_instance

/-- The state of the program when `main` enters its loop (`initial_world`
returns it). -/
def start_world : World :=
  match initial_world with
  | .ok w => w
  | .error _ => world_with prepare_game []

/-- The first alien frame of `init_sprites`, `alien_sprites[0]`. -/
def first_alien_frame : Sprite := init_sprites.alien_sprites.headD ⟨0, 0, []⟩

/-- The sprites of `init_sprites` other than the first alien frame. -/
def later_sprites : List Sprite :=
  init_sprites.alien_sprites.tail ++
    [init_sprites.alien_death_sprite, init_sprites.player_sprite, init_sprites.bullet_sprite]

/-! ## Definitions for the bullet count -/

/-- The clock of an animation after the per-tick update of `main`. -/
def next_time (a : SpriteAnimation) : Nat :=
  if uadd a.time 1 = umul a.num_frames a.frame_duration then 0 else uadd a.time 1

/-- An animation whose clock selects one of its frames: it has frames, each
shown for a nonzero time, its clock is below `num_frames * frame_duration` and
the array `frames` holds `num_frames` sprites (or more). -/
def SpriteAnimation.ticking (a : SpriteAnimation) : Prop :=
  0 < a.num_frames ∧ 0 < a.frame_duration ∧ a.time < a.num_frames * a.frame_duration ∧
  a.num_frames ≤ a.frames.length

instance (a : SpriteAnimation) : Decidable a.ticking := by
  unfold SpriteAnimation.ticking; infer_instance

/-- The animation `alien_animation[type - 1]` of an alien type is there and
its clock selects one of its frames. -/
def type_ticking (anims : List SpriteAnimation) (type : Nat) : Prop :=
  match anims[type - 1]? with
  | some animation => animation.ticking
  | none => False

instance (anims : List SpriteAnimation) (type : Nat) : Decidable (type_ticking anims type) := by
  unfold type_ticking
  split <;> infer_instance

/-- Every alien that is not DEAD has an animation whose clock selects one of
its frames. -/
def animated (anims : List SpriteAnimation) (aliens : List Alien) : Prop :=
  ∀ a ∈ aliens, a.type ≠ ALIEN_DEAD → type_ticking anims a.type

instance (anims : List SpriteAnimation) (aliens : List Alien) :
    Decidable (animated anims aliens) := by
  unfold animated; infer_instance

/-- The frames an alien of the given type is tested with in the course of
time: those of `alien_animation[type - 1]`. -/
def frames_of (anims : List SpriteAnimation) (type : Nat) : List Sprite :=
  match anims[type - 1]? with
  | some animation => animation.frames
  | none => []

/-- Spec side of "no bullet position overlaps two aliens that are not DEAD":
whatever the position `(x, y)` of the bullet sprite and whatever frames of
their animations two aliens show, if `sprite_overlap_check` is true for both
they are the same alien. -/
def separated (sprites : Sprites) (anims : List SpriteAnimation) (aliens : List Alien) : Prop :=
  ∀ (x y i j : Nat) (a b : Alien) (sa sb : Sprite),
    aliens[i]? = some a → aliens[j]? = some b →
    a.type ≠ ALIEN_DEAD → b.type ≠ ALIEN_DEAD →
    sa ∈ frames_of anims a.type → sb ∈ frames_of anims b.type →
    sprite_overlap_check sprites.bullet_sprite x y sa a.x a.y = true →
    sprite_overlap_check sprites.bullet_sprite x y sb b.x b.y = true → i = j

/-- A test on two aliens, shown with the frames `sa` and `sb`, that can be
evaluated: no coordinate sum wraps around, the bullet sprite is not larger
than the distance of either alien from the axes, and the aliens are so far
from each other, in `x` or in `y`, that the bullet sprite does not reach from
one to the other. -/
def apart (bullet : Sprite) (a b : Alien) (sa sb : Sprite) : Prop :=
  a.x + sa.width < WORD ∧ a.y + sa.height < WORD ∧
  b.x + sb.width < WORD ∧ b.y + sb.height < WORD ∧
  bullet.width ≤ a.x + 1 ∧ bullet.width ≤ b.x + 1 ∧
  bullet.height ≤ a.y + 1 ∧ bullet.height ≤ b.y + 1 ∧
  (a.x + sa.width + bullet.width ≤ b.x + 1 ∨ b.x + sb.width + bullet.width ≤ a.x + 1 ∨
   a.y + sa.height + bullet.height ≤ b.y + 1 ∨ b.y + sb.height + bullet.height ≤ a.y + 1)

instance (bullet : Sprite) (a b : Alien) (sa sb : Sprite) : Decidable (apart bullet a b sa sb) := by
  unfold apart; infer_instance

/-- Any two aliens of the array that are not DEAD are `apart`, in all frames
of their animations. -/
def spaced (sprites : Sprites) (anims : List SpriteAnimation) (aliens : List Alien) : Prop :=
  aliens.Pairwise (fun a b => a.type ≠ ALIEN_DEAD → b.type ≠ ALIEN_DEAD →
    ∀ sa ∈ frames_of anims a.type, ∀ sb ∈ frames_of anims b.type,
      apart sprites.bullet_sprite a b sa sb)

instance (sprites : Sprites) (anims : List SpriteAnimation) (aliens : List Alien) :
    Decidable (spaced sprites anims aliens) := by
  unfold spaced; infer_instance

/-- The state in which the check-hit loop runs: with the frames now shown,
every alien that is not DEAD has a sprite and no bullet position overlaps two
aliens that are not DEAD. -/
def calm (sprites : Sprites) (anims : List SpriteAnimation) (aliens : List Alien) : Prop :=
  (∀ (i : Nat) (a : Alien), aliens[i]? = some a → a.type ≠ ALIEN_DEAD →
    ∃ s, current_sprite anims a.type = .ok s) ∧
  ∀ (x y i j : Nat) (a b : Alien) (sa sb : Sprite),
    aliens[i]? = some a → aliens[j]? = some b →
    a.type ≠ ALIEN_DEAD → b.type ≠ ALIEN_DEAD →
    current_sprite anims a.type = .ok sa → current_sprite anims b.type = .ok sb →
    sprite_overlap_check sprites.bullet_sprite x y sa a.x a.y = true →
    sprite_overlap_check sprites.bullet_sprite x y sb b.x b.y = true → i = j

/-- The game `main` starts with, two bullets in flight: one below alien 0 and
one inside alien 34. -/
def grid_two_bullets : World :=
  { start_world with
    game := { start_world.game with
      num_bullets := 2
      bullets := [⟨15, 126, 2⟩, ⟨70, 180, 2⟩] ++
        List.replicate (GAME_MAX_BULLETS - 2) { x := 0, y := 0, dir := 0 } } }

/-- Invariant of the bullet loop: the pool has 128 slots, the alien array
`num_aliens` entries, and the aliens are `calm`. -/
def pool_ok (sprites : Sprites) (anims : List SpriteAnimation) (g : Game) : Prop :=
  g.bullets.length = GAME_MAX_BULLETS ∧ g.aliens.length = g.num_aliens ∧
  calm sprites anims g.aliens

/-- Invariant of the check-hit loop for the slot `bi`: the slot is live, or it
is the first slot that is not and the bullet it holds overlaps no alien that is
not DEAD. -/
def hit_inv (sprites : Sprites) (anims : List SpriteAnimation) (bi n0 num : Nat)
    (g : Game) : Prop :=
  pool_ok sprites anims g ∧ g.num_aliens = num ∧ g.num_bullets ≤ n0 ∧
  (bi < g.num_bullets ∨ (g.num_bullets = bi ∧
    ∀ (b : Bullet) (j : Nat) (a : Alien) (s : Sprite),
      g.bullets[bi]? = some b → g.aliens[j]? = some a → a.type ≠ ALIEN_DEAD →
      current_sprite anims a.type = .ok s →
      sprite_overlap_check sprites.bullet_sprite b.x b.y s a.x a.y = false))

/-! ## Definitions for the rendering of the death mask -/

/-- Spec side of "drawn over": `b'` has the dimensions of `b` and every pixel
that holds `color` in `b` holds it in `b'`. -/
def Buffer.covers (color : Nat) (b b' : Buffer) : Prop :=
  b'.width = b.width ∧ b'.height = b.height ∧ b'.data.length = b.data.length ∧
  ∀ i : Nat, b.data[i]? = some color → b'.data[i]? = some color

/-- A world whose only alien, near the origin of the field, is about to be hit
by the only bullet. -/
def near_world : World :=
  world_with (game_with [⟨1, 8, ALIEN_TYPE_B⟩] 1 [⟨3, 6, 2⟩]) [10]

/-- An 8x8 pixel buffer. -/
def near_buffer : Buffer := ⟨8, 8, List.replicate 64 0⟩

/-- The outcome of the pass from `near_world` in which the alien is killed. -/
def near_killed : World × Buffer :=
  result_of (main_loop_body near_world near_buffer 9 demo_input) near_world near_buffer

/-- The outcome of two more passes. -/
def near_later : World × Buffer :=
  result_of (passes 9 [demo_input, demo_input] near_killed.1 near_killed.2)
    near_killed.1 near_killed.2

/-- A frame input at which an alien drop is due. -/
def drop_input : FrameInput := ⟨0, 4, 4, []⟩

/-- The outcome of the pass after those, in which the aliens drop. -/
def near_drawn : World × Buffer :=
  result_of (main_loop_body near_later.1 near_later.2 9 drop_input) near_later.1 near_later.2

/-! # Theorems -/

/-! ## Arithmetic, array access and sequencing -/

theorem uadd_eq {a b : Nat} (h : a + b < WORD) : uadd a b = a + b :=
  Nat.mod_eq_of_lt h

theorem umul_eq {a b : Nat} (h : a * b < WORD) : umul a b = a * b :=
  Nat.mod_eq_of_lt h

theorem usub_one {n : Nat} (h1 : 0 < n) (h2 : n < WORD) : usub n 1 = n - 1 := by
  simp only [usub, WORD] at h2 ⊢
  omega

theorem cell_index_lt {w h xi yi : Nat} (hx : xi < w) (hy : yi < h) : yi * w + xi < w * h := by
  have h1 : (yi + 1) * w ≤ h * w := Nat.mul_le_mul_right w hy
  have h2 : (yi + 1) * w = yi * w + w := by ring
  have h3 : h * w = w * h := Nat.mul_comm h w
  omega

theorem index_unique {n a b c d : Nat} (hb : b < n) (hd : d < n) (h : a * n + b = c * n + d) :
    a = c ∧ b = d := by
  have hn : 0 < n := by omega
  have h1 : (a * n + b) / n = a := by
    rw [Nat.add_comm, Nat.add_mul_div_right _ _ hn, Nat.div_eq_of_lt hb, Nat.zero_add]
  have h2 : (c * n + d) / n = c := by
    rw [Nat.add_comm, Nat.add_mul_div_right _ _ hn, Nat.div_eq_of_lt hd, Nat.zero_add]
  have hac : a = c := by rw [← h1, ← h2, h]
  subst hac
  exact ⟨rfl, by omega⟩

theorem read_eq_ok {α : Type} {xs : List α} {i : Nat} {v : α} (h : xs[i]? = some v) :
    read xs i = .ok v := by
  simp only [read, h]

theorem write_eq_ok {α : Type} {xs : List α} {i : Nat} (v : α) (h : i < xs.length) :
    write xs i v = .ok (xs.set i v) := by
  simp only [write, h, if_true]

theorem read_cons_zero {α : Type} (a : α) (l : List α) : read (a :: l) 0 = .ok a := by
  simp [read]

theorem write_cons_zero {α : Type} (a v : α) (l : List α) :
    write (a :: l) 0 v = .ok (v :: l) := by
  simp [write]

theorem read_ok {α : Type} {xs : List α} {i : Nat} {v : α} (h : read xs i = .ok v) :
    xs[i]? = some v := by
  unfold read at h
  split at h
  · cases h; assumption
  · cases h

theorem write_ok {α : Type} {xs ys : List α} {i : Nat} {v : α} (h : write xs i v = .ok ys) :
    i < xs.length ∧ ys = xs.set i v := by
  unfold write at h
  split at h
  · cases h; exact ⟨by assumption, rfl⟩
  · cases h

theorem ok_bind {α β : Type} (a : α) (f : α → Except Fault β) :
    (Except.ok a >>= f) = f a := rfl

theorem pure_eq_ok {α : Type} (a : α) : (pure a : Except Fault α) = Except.ok a := rfl

theorem bind_eq_ok {α β : Type} {x : Except Fault α} {f : α → Except Fault β} {r : β}
    (h : (x >>= f) = .ok r) : ∃ a, x = .ok a ∧ f a = .ok r := by
  cases x with
  | error e => cases h
  | ok a => exact ⟨a, rfl, h⟩

theorem foldlM_range_one {β : Type} (f : β → Nat → Except Fault β) (b : β) :
    (List.range 1).foldlM f b = f b 0 := by
  show (do let b1 ← f b 0; pure b1) = f b 0
  cases f b 0 <;> rfl

/-- A monadic fold whose every step succeeds, on states that satisfy `inv`,
with the value of the pure step `g` is the pure fold of `g`. -/
theorem foldlM_eq_foldl {β ι : Type} (f : β → ι → Except Fault β) (g : β → ι → β)
    (inv : β → Prop) (P : ι → Prop)
    (hstep : ∀ b i, inv b → P i → f b i = .ok (g b i) ∧ inv (g b i)) :
    ∀ (l : List ι) (b : β), inv b → (∀ i ∈ l, P i) →
      l.foldlM f b = .ok (l.foldl g b) ∧ inv (l.foldl g b) := by
  intro l
  induction l with
  | nil => intro b hb _; exact ⟨rfl, hb⟩
  | cons a l ih =>
    intro b hb hP
    obtain ⟨h1, h2⟩ := hstep b a hb (hP a (List.mem_cons_self a l))
    have h3 := ih (g b a) h2 (fun i hi => hP i (List.mem_cons_of_mem a hi))
    refine ⟨?_, h3.2⟩
    rw [List.foldlM_cons, h1]
    exact h3.1

/-- A property that every successful step preserves holds after a successful
monadic fold. -/
theorem foldlM_preserves {β ι : Type} (f : β → ι → Except Fault β) (I : β → Prop)
    (hstep : ∀ b i b', I b → f b i = .ok b' → I b') :
    ∀ (l : List ι) (b b' : β), I b → l.foldlM f b = .ok b' → I b' := by
  intro l
  induction l with
  | nil =>
    intro b b' hb h
    cases h
    exact hb
  | cons a l ih =>
    intro b b' hb h
    rw [List.foldlM_cons] at h
    obtain ⟨b1, h1, h2⟩ := bind_eq_ok h
    exact ih b1 b' (hstep b a b1 hb h1) h2

/-! ## `sprite_overlap_check` -/

theorem sprite_overlap_check_iff_no_wrap (da db : List Nat) (wa ha wb hb xa ya xb yb : Nat)
    (hxa : xa + wa < WORD) (hya : ya + ha < WORD)
    (hxb : xb + wb < WORD) (hyb : yb + hb < WORD) :
    sprite_overlap_check ⟨wa, ha, da⟩ xa ya ⟨wb, hb, db⟩ xb yb = true ↔
      (xa < xb + wb ∧ xa + wa > xb ∧ ya < yb + hb ∧ ya + ha > yb) := by
  simp only [sprite_overlap_check, uadd, Nat.mod_eq_of_lt hxa, Nat.mod_eq_of_lt hya,
    Nat.mod_eq_of_lt hxb, Nat.mod_eq_of_lt hyb]
  simp

/-- C8 (amended): for two masks of nonzero width and height, with any
contents, and positions whose coordinate sums do not wrap around,
`sprite_overlap_check` returns true if and only if the two half-open
rectangles share an integer point. -/
theorem overlap_iff_intersect (da db : List Nat) (wa ha wb hb xa ya xb yb : Nat)
    (hwa : 0 < wa) (hha : 0 < ha) (hwb : 0 < wb) (hhb : 0 < hb)
    (hxa : xa + wa < WORD) (hya : ya + ha < WORD)
    (hxb : xb + wb < WORD) (hyb : yb + hb < WORD) :
    sprite_overlap_check ⟨wa, ha, da⟩ xa ya ⟨wb, hb, db⟩ xb yb = true ↔
      rects_intersect xa ya wa ha xb yb wb hb := by
  rw [sprite_overlap_check_iff_no_wrap da db wa ha wb hb xa ya xb yb hxa hya hxb hyb]
  unfold rects_intersect
  constructor
  · rintro ⟨h1, h2, h3, h4⟩
    refine ⟨max xa xb, max ya yb, ?_, ?_, ?_, ?_, ?_, ?_, ?_, ?_⟩ <;> omega
  · rintro ⟨px, py, h⟩
    omega

/-- The amended C8 at the bullet and alien of Scenario C. -/
theorem overlap_iff_intersect_witness :
    sprite_overlap_check ⟨1, 3, [1, 1, 1]⟩ 102 52 ⟨11, 8, []⟩ 100 50 = true ↔
      rects_intersect 102 52 1 3 100 50 11 8 :=
  overlap_iff_intersect [1, 1, 1] [] 1 3 11 8 102 52 100 50 (by decide) (by decide) (by decide)
    (by decide) (by decide) (by decide) (by decide) (by decide)

/-- C8 as stated fails for a mask of width and height zero: placed strictly
inside a 2x2 mask it is reported to overlap, though its rectangle is empty. -/
theorem overlap_empty_mask :
    sprite_overlap_check ⟨0, 0, []⟩ 1 1 ⟨2, 2, [1, 1, 1, 1]⟩ 0 0 = true ∧
      ¬ rects_intersect 1 1 0 0 0 0 2 2 := by
  refine ⟨by decide, ?_⟩
  rintro ⟨px, py, h⟩
  omega

/-- C9: `sprite_overlap_check` is symmetric, for all masks and all positions
(wrapping coordinate sums included). -/
theorem sprite_overlap_check_symm (A B : Sprite) (xa ya xb yb : Nat) :
    sprite_overlap_check A xa ya B xb yb = sprite_overlap_check B xb yb A xa ya := by
  unfold sprite_overlap_check
  simp only [gt_iff_lt]
  congr 1
  apply propext
  constructor <;> (rintro ⟨h1, h2, h3, h4⟩; exact ⟨h2, h1, h4, h3⟩)

/-! ## `buffer_clear` and `buffer_draw_sprite` -/

theorem paint_width (color : Nat) (b : Buffer) (t : Option Nat) :
    (Buffer.paint color b t).width = b.width := by
  cases t <;> rfl

theorem paint_height (color : Nat) (b : Buffer) (t : Option Nat) :
    (Buffer.paint color b t).height = b.height := by
  cases t <;> rfl

theorem paint_length (color : Nat) (b : Buffer) (t : Option Nat) :
    (Buffer.paint color b t).data.length = b.data.length := by
  cases t <;> simp [Buffer.paint]

theorem paint_getElem? (color : Nat) (b : Buffer) (t : Option Nat) (j : Nat)
    (hj : j < b.data.length) :
    (Buffer.paint color b t).data[j]? = if t = some j then some color else b.data[j]? := by
  cases t with
  | none => simp [Buffer.paint]
  | some i =>
    simp only [Buffer.paint, Option.some.injEq]
    rw [List.getElem?_set]
    by_cases h : i = j
    · subst h; simp [hj]
    · simp [h]

/-- After a run of stores of `color`, a pixel holds `color` if one of the stores
hit it and its old value otherwise. -/
theorem foldl_paint {ι : Type} (color : Nat) (T : ι → Option Nat) (l : List ι) (b : Buffer) :
    (l.foldl (fun b i => Buffer.paint color b (T i)) b).width = b.width ∧
    (l.foldl (fun b i => Buffer.paint color b (T i)) b).height = b.height ∧
    (l.foldl (fun b i => Buffer.paint color b (T i)) b).data.length = b.data.length ∧
    ∀ j, j < b.data.length →
      (l.foldl (fun b i => Buffer.paint color b (T i)) b).data[j]? =
        if ∃ i ∈ l, T i = some j then some color else b.data[j]? := by
  induction l generalizing b with
  | nil => simp
  | cons a l ih =>
    obtain ⟨h1, h2, h3, h4⟩ := ih (Buffer.paint color b (T a))
    simp only [List.foldl_cons]
    refine ⟨by rw [h1, paint_width], by rw [h2, paint_height], by rw [h3, paint_length], ?_⟩
    intro j hj
    rw [h4 j (by rw [paint_length]; exact hj), paint_getElem? color b (T a) j hj]
    by_cases ha : T a = some j
    · simp [ha]
    · simp [ha]

/-- The same for two nested loops of stores. -/
theorem foldl_foldl_paint {α β : Type} (color : Nat) (T : α → β → Option Nat)
    (la : List α) (lb : List β) (b : Buffer) :
    (la.foldl (fun b a => lb.foldl (fun b i => Buffer.paint color b (T a i)) b) b).width
      = b.width ∧
    (la.foldl (fun b a => lb.foldl (fun b i => Buffer.paint color b (T a i)) b) b).height
      = b.height ∧
    (la.foldl (fun b a => lb.foldl (fun b i => Buffer.paint color b (T a i)) b) b).data.length
      = b.data.length ∧
    ∀ j, j < b.data.length →
      (la.foldl (fun b a => lb.foldl (fun b i => Buffer.paint color b (T a i)) b) b).data[j]? =
        if ∃ a ∈ la, ∃ i ∈ lb, T a i = some j then some color else b.data[j]? := by
  induction la generalizing b with
  | nil => simp
  | cons a la ih =>
    obtain ⟨h1, h2, h3, h4⟩ := ih (lb.foldl (fun b i => Buffer.paint color b (T a i)) b)
    obtain ⟨k1, k2, k3, k4⟩ := foldl_paint color (T a) lb b
    simp only [List.foldl_cons]
    refine ⟨by rw [h1, k1], by rw [h2, k2], by rw [h3, k3], ?_⟩
    intro j hj
    rw [h4 j (by rw [k3]; exact hj), k4 j hj]
    by_cases ha : ∃ i ∈ lb, T a i = some j
    · simp [ha]
    · simp [ha]

theorem paint_shaped {bw bh : Nat} (color : Nat) (b : Buffer) (t : Option Nat)
    (h : b.shaped bw bh) : (Buffer.paint color b t).shaped bw bh := by
  obtain ⟨⟨h1, h2⟩, h3, h4⟩ := h
  refine ⟨⟨?_, ?_⟩, ?_, ?_⟩
  · rw [paint_length, paint_width, paint_height]; exact h1
  · rw [paint_width, paint_height]; exact h2
  · rw [paint_width]; exact h3
  · rw [paint_height]; exact h4

theorem target_index_lt {bw bh : Nat} {sprite : Sprite} {x y xi yi idx : Nat}
    (h : target_index bw bh sprite x y xi yi = some idx) : idx < bw * bh := by
  unfold target_index at h
  split at h
  · rename_i hc
    obtain ⟨_, hr, hcol⟩ := hc
    simp only [Option.some.injEq] at h
    subst h
    have := cell_index_lt hcol hr
    exact this
  · cases h

/-- With a valid mask and buffer, `draw_target` makes no out-of-range read and
its index expression does not wrap. -/
theorem draw_target_eq (buffer : Buffer) (sprite : Sprite) (x y xi yi : Nat)
    (hs : sprite.valid) (hb : buffer.width * buffer.height < WORD)
    (hx : xi < sprite.width) (hy : yi < sprite.height) :
    draw_target buffer sprite x y xi yi =
      .ok (target_index buffer.width buffer.height sprite x y xi yi) := by
  have hlt := cell_index_lt hx hy
  have h2 := hs.2
  have hi : uadd (umul yi sprite.width) xi = yi * sprite.width + xi := by
    rw [umul_eq (by omega), uadd_eq (by omega)]
  have hr : yi * sprite.width + xi < sprite.data.length := by rw [hs.1]; exact hlt
  unfold draw_target target_index
  rw [hi]
  simp only [read, List.getElem?_eq_getElem hr, Option.getD_some, bind, Except.bind]
  by_cases hc : sprite.data[yi * sprite.width + xi] ≠ 0 ∧ target_row sprite y yi < buffer.height ∧
      target_col x xi < buffer.width
  · have hidx := cell_index_lt hc.2.2 hc.2.1
    have hu : uadd (umul (target_row sprite y yi) buffer.width) (target_col x xi) =
        target_row sprite y yi * buffer.width + target_col x xi := by
      rw [umul_eq (by omega), uadd_eq (by omega)]
    rw [if_pos hc, if_pos hc, hu]
    rfl
  · rw [if_neg hc, if_neg hc]
    rfl

theorem draw_cell_eq (sprite : Sprite) (x y color xi yi : Nat) (buffer : Buffer)
    (hs : sprite.valid) (hb : buffer.valid)
    (hx : xi < sprite.width) (hy : yi < sprite.height) :
    draw_cell sprite x y color xi buffer yi =
      .ok (Buffer.paint color buffer
        (target_index buffer.width buffer.height sprite x y xi yi)) := by
  unfold draw_cell
  rw [draw_target_eq buffer sprite x y xi yi hs hb.2 hx hy]
  cases ht : target_index buffer.width buffer.height sprite x y xi yi with
  | none => rfl
  | some idx =>
    have hlt := target_index_lt ht
    have : idx < buffer.data.length := by rw [hb.1]; exact hlt
    simp only [write, this, Buffer.paint, bind, Except.bind, if_true]
    rfl

theorem draw_column_eq (sprite : Sprite) (x y color xi bw bh : Nat) (buffer : Buffer)
    (hs : sprite.valid) (hb : buffer.shaped bw bh) (hx : xi < sprite.width) :
    draw_column sprite x y color buffer xi =
      .ok ((List.range sprite.height).foldl
        (fun b yi => Buffer.paint color b (target_index bw bh sprite x y xi yi)) buffer) ∧
    ((List.range sprite.height).foldl
        (fun b yi => Buffer.paint color b (target_index bw bh sprite x y xi yi)) buffer).shaped
      bw bh := by
  unfold draw_column
  apply foldlM_eq_foldl _ _ (Buffer.shaped bw bh) (fun yi => yi < sprite.height)
  · intro b yi hb1 hy
    refine ⟨?_, paint_shaped color b _ hb1⟩
    rw [draw_cell_eq sprite x y color xi yi b hs hb1.1 hx hy, hb1.2.1, hb1.2.2]
  · exact hb
  · intro i hi
    exact List.mem_range.mp hi

/-- With a valid mask and buffer, `buffer_draw_sprite` returns, and its result is
the nested pure fold of the stores. -/
theorem buffer_draw_sprite_eq (sprite : Sprite) (x y color bw bh : Nat) (buffer : Buffer)
    (hs : sprite.valid) (hb : buffer.shaped bw bh) :
    buffer_draw_sprite buffer sprite x y color =
      .ok ((List.range sprite.width).foldl (fun b xi => (List.range sprite.height).foldl
        (fun b yi => Buffer.paint color b (target_index bw bh sprite x y xi yi)) b) buffer) ∧
    ((List.range sprite.width).foldl (fun b xi => (List.range sprite.height).foldl
        (fun b yi => Buffer.paint color b (target_index bw bh sprite x y xi yi)) b)
      buffer).shaped bw bh := by
  unfold buffer_draw_sprite
  apply foldlM_eq_foldl _ _ (Buffer.shaped bw bh) (fun xi => xi < sprite.width)
  · intro b xi hb1 hx
    exact draw_column_eq sprite x y color xi bw bh b hs hb1 hx
  · exact hb
  · intro i hi
    exact List.mem_range.mp hi

theorem buffer_clear_eq (color : Nat) (buffer : Buffer) (hb : buffer.valid) :
    buffer_clear buffer color =
      .ok ((List.range (buffer.width * buffer.height)).foldl
        (fun b i => Buffer.paint color b (some i)) buffer) := by
  unfold buffer_clear
  rw [umul_eq hb.2]
  refine (foldlM_eq_foldl _ _ (Buffer.shaped buffer.width buffer.height)
    (fun i => i < buffer.width * buffer.height) ?_ _ buffer ⟨hb, rfl, rfl⟩
    (fun i hi => List.mem_range.mp hi)).1
  intro b i hb1 hi
  refine ⟨?_, paint_shaped color b _ hb1⟩
  have : i < b.data.length := by rw [hb1.1.1, hb1.2.1, hb1.2.2]; exact hi
  simp only [write, this, Buffer.paint, bind, Except.bind, if_true]
  rfl

/-- A mask cell targets the pixel `(px, py)` exactly when it is set and its
column and row, reduced modulo `2^64`, are `px` and `py`. -/
theorem target_index_eq_iff (bw bh : Nat) (sprite : Sprite) (x y xi yi px py : Nat)
    (hs : sprite.valid) (hx : xi < sprite.width) (hy : yi < sprite.height)
    (hpx : px < bw) (hpy : py < bh) :
    target_index bw bh sprite x y xi yi = some (py * bw + px) ↔
      (sprite.cell_set xi yi ∧ (x + xi) % WORD = px ∧
        (y + (sprite.height - 1 - yi)) % WORD = py) := by
  have hlt := cell_index_lt hx hy
  have hr : yi * sprite.width + xi < sprite.data.length := by rw [hs.1]; exact hlt
  have hh : sprite.height < WORD := by
    have h1 : 1 * sprite.height ≤ sprite.width * sprite.height :=
      Nat.mul_le_mul_right _ (by omega)
    have h2 := hs.2
    omega
  have hrow : target_row sprite y yi = (y + (sprite.height - 1 - yi)) % WORD := by
    simp only [target_row, usub, uadd, WORD] at hh ⊢
    omega
  have hcol : target_col x xi = (x + xi) % WORD := rfl
  unfold target_index Sprite.cell_set
  rw [List.getElem?_eq_getElem hr, hrow, hcol]
  simp only [Option.getD_some, Option.some.injEq, exists_eq_left']
  constructor
  · intro h
    split at h
    · rename_i hc
      simp only [Option.some.injEq] at h
      obtain ⟨h1, h2⟩ := index_unique hc.2.2 hpx h
      exact ⟨hc.1, h2, h1⟩
    · cases h
  · rintro ⟨h1, h2, h3⟩
    rw [h2, h3, if_pos ⟨h1, hpy, hpx⟩]

/-- Pixel-wise description of the buffer `buffer_draw_sprite` returns. -/
theorem blit_pixels (buffer : Buffer) (sprite : Sprite) (x y color : Nat)
    (hb : buffer.valid) (hs : sprite.valid) :
    ∃ b, buffer_draw_sprite buffer sprite x y color = .ok b ∧
      b.width = buffer.width ∧ b.height = buffer.height ∧
      b.data.length = buffer.data.length ∧
      ∀ px py, px < buffer.width → py < buffer.height →
        ((∃ xi yi, xi < sprite.width ∧ yi < sprite.height ∧ sprite.cell_set xi yi ∧
            (x + xi) % WORD = px ∧ (y + (sprite.height - 1 - yi)) % WORD = py) →
          b.pixel px py = some color) ∧
        ((¬ ∃ xi yi, xi < sprite.width ∧ yi < sprite.height ∧ sprite.cell_set xi yi ∧
            (x + xi) % WORD = px ∧ (y + (sprite.height - 1 - yi)) % WORD = py) →
          b.pixel px py = buffer.pixel px py) := by
  obtain ⟨h1, _⟩ := buffer_draw_sprite_eq sprite x y color buffer.width buffer.height buffer hs
    ⟨hb, rfl, rfl⟩
  obtain ⟨k1, k2, k3, k4⟩ := foldl_foldl_paint color
    (fun xi yi => target_index buffer.width buffer.height sprite x y xi yi)
    (List.range sprite.width) (List.range sprite.height) buffer
  refine ⟨_, h1, k1, k2, k3, ?_⟩
  intro px py hpx hpy
  have hj : py * buffer.width + px < buffer.data.length := by
    rw [hb.1]; exact cell_index_lt hpx hpy
  have hk := k4 _ hj
  have hiff : (∃ a ∈ List.range sprite.width, ∃ i ∈ List.range sprite.height,
      target_index buffer.width buffer.height sprite x y a i = some (py * buffer.width + px)) ↔
      (∃ xi yi, xi < sprite.width ∧ yi < sprite.height ∧ sprite.cell_set xi yi ∧
        (x + xi) % WORD = px ∧ (y + (sprite.height - 1 - yi)) % WORD = py) := by
    constructor
    · rintro ⟨xi, hxi, yi, hyi, ht⟩
      rw [List.mem_range] at hxi hyi
      exact ⟨xi, yi, hxi, hyi,
        (target_index_eq_iff _ _ sprite x y xi yi px py hs hxi hyi hpx hpy).mp ht⟩
    · rintro ⟨xi, yi, hxi, hyi, ht⟩
      exact ⟨xi, List.mem_range.mpr hxi, yi, List.mem_range.mpr hyi,
        (target_index_eq_iff _ _ sprite x y xi yi px py hs hxi hyi hpx hpy).mpr ht⟩
  unfold Buffer.pixel
  rw [k1]
  constructor
  · intro h
    rw [hk, if_pos (hiff.mpr h)]
  · intro h
    rw [hk, if_neg (fun h2 => h (hiff.mp h2))]

/-- With a valid buffer `buffer_clear` returns a valid buffer of the same
dimensions all of whose pixels hold `color`. -/
theorem buffer_clear_pixels (buffer : Buffer) (color : Nat) (hb : buffer.valid) :
    ∃ b, buffer_clear buffer color = .ok b ∧ b.valid ∧
      b.width = buffer.width ∧ b.height = buffer.height ∧
      ∀ px py, px < buffer.width → py < buffer.height → b.pixel px py = some color := by
  obtain ⟨k1, k2, k3, k4⟩ := foldl_paint color (fun i => some i)
    (List.range (buffer.width * buffer.height)) buffer
  refine ⟨_, buffer_clear_eq color buffer hb, ⟨?_, ?_⟩, k1, k2, ?_⟩
  · rw [k3, k1, k2]; exact hb.1
  · rw [k1, k2]; exact hb.2
  · intro px py hpx hpy
    have hlt := cell_index_lt hpx hpy
    have hj : py * buffer.width + px < buffer.data.length := by rw [hb.1]; exact hlt
    unfold Buffer.pixel
    rw [k1, k4 _ hj, if_pos]
    exact ⟨_, List.mem_range.mpr hlt, rfl⟩

/-- Pixel-wise description of a 600x400 buffer after `buffer_clear` and the draw
of a 1x3 all-opaque mask at `(10, 10)`. -/
theorem clear_then_blit_pixels (buffer : Buffer) (a b c C D : Nat)
    (hw : buffer.width = 600) (hh : buffer.height = 400) (hd : buffer.data.length = 240000)
    (ha : a ≠ 0) (hb : b ≠ 0) (hc : c ≠ 0) :
    ∃ b1 b2, buffer_clear buffer C = .ok b1 ∧
      buffer_draw_sprite b1 ⟨1, 3, [a, b, c]⟩ 10 10 D = .ok b2 ∧
      b2.width = 600 ∧ b2.height = 400 ∧
      ∀ px py, px < 600 → py < 400 →
        b2.pixel px py = some (if px = 10 ∧ 10 ≤ py ∧ py ≤ 12 then D else C) := by
  have hv : buffer.valid := by
    unfold Buffer.valid
    rw [hw, hh, hd]
    decide
  obtain ⟨b1, e1, v1, w1, h1, p1⟩ := buffer_clear_pixels buffer C hv
  have hs : Sprite.valid ⟨1, 3, [a, b, c]⟩ := by
    exact ⟨rfl, (by decide : 1 * 3 < WORD)⟩
  obtain ⟨b2, e2, w2, h2, _, p2⟩ := blit_pixels b1 ⟨1, 3, [a, b, c]⟩ 10 10 D v1 hs
  rw [hw] at w1
  rw [hh] at h1
  refine ⟨b1, b2, e1, e2, by rw [w2, w1], by rw [h2, h1], ?_⟩
  intro px py hpx hpy
  obtain ⟨q1, q2⟩ := p2 px py (by rw [w1]; exact hpx) (by rw [h1]; exact hpy)
  by_cases hin : px = 10 ∧ 10 ≤ py ∧ py ≤ 12
  · rw [if_pos hin]
    apply q1
    obtain ⟨hx, hy1, hy2⟩ := hin
    refine ⟨0, 12 - py, Nat.zero_lt_one, ?_, ?_, ?_, ?_⟩
    · show 12 - py < 3
      omega
    · unfold Sprite.cell_set
      have h3 : 12 - py = 0 ∨ 12 - py = 1 ∨ 12 - py = 2 := by omega
      rcases h3 with h3 | h3 | h3 <;> rw [h3]
      · exact ⟨a, rfl, ha⟩
      · exact ⟨b, rfl, hb⟩
      · exact ⟨c, rfl, hc⟩
    · rw [hx]; rfl
    · show (10 + (3 - 1 - (12 - py))) % 18446744073709551616 = py
      omega
  · rw [if_neg hin, q2, p1 px py (by rw [hw]; exact hpx) (by rw [hh]; exact hpy)]
    rintro ⟨xi, yi, hxi, hyi, _, hcx, hcy⟩
    apply hin
    have hxi1 : xi < 1 := hxi
    have hyi1 : yi < 3 := hyi
    have hcx1 : (10 + xi) % 18446744073709551616 = px := hcx
    have hcy1 : (10 + (3 - 1 - yi)) % 18446744073709551616 = py := hcy
    omega

/-- C5 (amended): for every valid buffer, valid mask, position `(x, y)` and
color, `buffer_draw_sprite` returns a buffer of the same dimensions in which
the pixel of column `px` and row `py` holds `color` if some set mask cell
`(xi, yi)` has `px = (x + xi) mod 2^64` and
`py = (y + mask.height - 1 - yi) mod 2^64`, and keeps its value otherwise.
The coordinates are those of `size_t` arithmetic; where the sums do not wrap
they are the sums themselves. -/
theorem buffer_draw_sprite_pixels (buffer : Buffer) (sprite : Sprite) (x y color : Nat)
    (hb : buffer.valid) (hs : sprite.valid) :
    ∃ b, buffer_draw_sprite buffer sprite x y color = .ok b ∧
      b.width = buffer.width ∧ b.height = buffer.height ∧
      b.data.length = buffer.data.length ∧
      ∀ px py, px < buffer.width → py < buffer.height →
        ((∃ xi yi, xi < sprite.width ∧ yi < sprite.height ∧ sprite.cell_set xi yi ∧
            (x + xi) % WORD = px ∧ (y + (sprite.height - 1 - yi)) % WORD = py) →
          b.pixel px py = some color) ∧
        ((¬ ∃ xi yi, xi < sprite.width ∧ yi < sprite.height ∧ sprite.cell_set xi yi ∧
            (x + xi) % WORD = px ∧ (y + (sprite.height - 1 - yi)) % WORD = py) →
          b.pixel px py = buffer.pixel px py) :=
  blit_pixels buffer sprite x y color hb hs

/-- The amended C5 for a 2x1 mask drawn at `(1, 1)` into a 3x2 buffer. -/
theorem buffer_draw_sprite_pixels_witness :
    Buffer.valid ⟨3, 2, [0, 0, 0, 0, 0, 0]⟩ ∧ Sprite.valid ⟨2, 1, [1, 0]⟩ ∧
    ∃ b, buffer_draw_sprite ⟨3, 2, [0, 0, 0, 0, 0, 0]⟩ ⟨2, 1, [1, 0]⟩ 1 1 7 = .ok b ∧
      b.width = 3 ∧ b.height = 2 ∧ b.data.length = 6 ∧
      ∀ px py, px < 3 → py < 2 →
        ((∃ xi yi, xi < 2 ∧ yi < 1 ∧ Sprite.cell_set ⟨2, 1, [1, 0]⟩ xi yi ∧
            (1 + xi) % WORD = px ∧ (1 + (1 - 1 - yi)) % WORD = py) →
          b.pixel px py = some 7) ∧
        ((¬ ∃ xi yi, xi < 2 ∧ yi < 1 ∧ Sprite.cell_set ⟨2, 1, [1, 0]⟩ xi yi ∧
            (1 + xi) % WORD = px ∧ (1 + (1 - 1 - yi)) % WORD = py) →
          b.pixel px py = Buffer.pixel ⟨3, 2, [0, 0, 0, 0, 0, 0]⟩ px py) :=
  ⟨by decide, by decide,
    buffer_draw_sprite_pixels ⟨3, 2, [0, 0, 0, 0, 0, 0]⟩ ⟨2, 1, [1, 0]⟩ 1 1 7
      (by decide) (by decide)⟩

/-- C5 as stated fails where `x + xi` wraps: a 2x1 mask drawn at
`x = 2^64 - 1` changes the pixel `(0, 0)`, although no mask cell has
`x + xi = 0`. -/
theorem blit_wraps_column :
    buffer_draw_sprite ⟨2, 1, [0, 0]⟩ ⟨2, 1, [1, 1]⟩ 18446744073709551615 0 7
      = .ok ⟨2, 1, [7, 0]⟩ ∧
    Buffer.pixel ⟨2, 1, [0, 0]⟩ 0 0 = some 0 ∧
    Buffer.pixel ⟨2, 1, [7, 0]⟩ 0 0 = some 7 ∧
    ¬ ∃ xi yi, xi < 2 ∧ yi < 1 ∧ Sprite.cell_set ⟨2, 1, [1, 1]⟩ xi yi ∧
        18446744073709551615 + xi = 0 ∧ 0 + 1 - 1 - yi = 0 := by
  refine ⟨rfl, rfl, rfl, ?_⟩
  rintro ⟨xi, yi, _, _, _, h, _⟩
  omega

/-- C6 (amended): Scenario A.  After `buffer_clear` of a 600x400 buffer to `C`
and `buffer_draw_sprite` of a 1-wide, 3-high all-opaque mask at `(10, 10)` with
color `D`, the pixels `(10, 10)`, `(10, 11)` and `(10, 12)` hold `D` and every
other pixel holds `C`: the mask occupies the rows `y` to `y + height - 1`. -/
theorem scenario_A (buffer : Buffer) (a b c C D : Nat)
    (hw : buffer.width = 600) (hh : buffer.height = 400) (hd : buffer.data.length = 240000)
    (ha : a ≠ 0) (hb : b ≠ 0) (hc : c ≠ 0) :
    ∃ b1 b2, buffer_clear buffer C = .ok b1 ∧
      buffer_draw_sprite b1 ⟨1, 3, [a, b, c]⟩ 10 10 D = .ok b2 ∧
      b2.width = 600 ∧ b2.height = 400 ∧
      ∀ px py, px < 600 → py < 400 →
        b2.pixel px py = some (if px = 10 ∧ 10 ≤ py ∧ py ≤ 12 then D else C) :=
  clear_then_blit_pixels buffer a b c C D hw hh hd ha hb hc

/-- The amended C6 for a buffer of zeros, `C = 5` and `D = 9`. -/
theorem scenario_A_witness :
    (⟨600, 400, List.replicate 240000 0⟩ : Buffer).width = 600 ∧
    (⟨600, 400, List.replicate 240000 0⟩ : Buffer).height = 400 ∧
    (⟨600, 400, List.replicate 240000 0⟩ : Buffer).data.length = 240000 ∧
    (1 : Nat) ≠ 0 ∧
    ∃ b1 b2, buffer_clear ⟨600, 400, List.replicate 240000 0⟩ 5 = .ok b1 ∧
      buffer_draw_sprite b1 ⟨1, 3, [1, 1, 1]⟩ 10 10 9 = .ok b2 ∧
      b2.width = 600 ∧ b2.height = 400 ∧
      ∀ px py, px < 600 → py < 400 →
        b2.pixel px py = some (if px = 10 ∧ 10 ≤ py ∧ py ≤ 12 then 9 else 5) :=
  ⟨rfl, rfl, List.length_replicate _ _, by decide,
    scenario_A ⟨600, 400, List.replicate 240000 0⟩ 1 1 1 5 9 rfl rfl
      (List.length_replicate _ _) (by decide) (by decide) (by decide)⟩

/-- C6 as stated fails for `C = 5`, `D = 9`: the pixels `(10, 8)` and `(10, 9)`
hold the clear color, the pixels `(10, 11)` and `(10, 12)` the draw color. -/
theorem blit_rows_above_y :
    ∃ b1 b2, buffer_clear ⟨600, 400, List.replicate 240000 0⟩ 5 = .ok b1 ∧
      buffer_draw_sprite b1 ⟨1, 3, [1, 1, 1]⟩ 10 10 9 = .ok b2 ∧
      b2.pixel 10 8 = some 5 ∧ b2.pixel 10 9 = some 5 ∧ b2.pixel 10 11 = some 9 ∧
      b2.pixel 10 12 = some 9 ∧ (5 : Nat) ≠ 9 := by
  obtain ⟨b1, b2, e1, e2, _, _, p⟩ := clear_then_blit_pixels ⟨600, 400, List.replicate 240000 0⟩
    1 1 1 5 9 rfl rfl (List.length_replicate _ _) (by decide) (by decide) (by decide)
  refine ⟨b1, b2, e1, e2, ?_, ?_, ?_, ?_, by decide⟩
  · rw [p 10 8 (by decide) (by decide)]; rfl
  · rw [p 10 9 (by decide) (by decide)]; rfl
  · rw [p 10 11 (by decide) (by decide)]; rfl
  · rw [p 10 12 (by decide) (by decide)]; rfl

/-- C7 (amended): for a valid buffer and mask and any position, the store
`buffer_draw_sprite` makes for the mask cell `(xi, yi)` is at an index
`< width * height`, that of the pixel of column `(x + xi) mod 2^64 < width`
and row `(y + mask.height - 1 - yi) mod 2^64 < height`; a cell whose column
or row, so reduced, lies outside the buffer causes no store; and where
`x + mask.width` and `y + mask.height` do not exceed `2^64` nothing is
reduced, so a cell whose true target lies outside the buffer is skipped. -/
theorem draw_target_in_bounds (buffer : Buffer) (sprite : Sprite) (x y xi yi : Nat)
    (hb : buffer.valid) (hs : sprite.valid)
    (hx : xi < sprite.width) (hy : yi < sprite.height) :
    ∃ t, draw_target buffer sprite x y xi yi = .ok t ∧
      (∀ idx, t = some idx →
        idx < buffer.width * buffer.height ∧ sprite.cell_set xi yi ∧
        (x + xi) % WORD < buffer.width ∧
        (y + (sprite.height - 1 - yi)) % WORD < buffer.height ∧
        idx = (y + (sprite.height - 1 - yi)) % WORD * buffer.width + (x + xi) % WORD) ∧
      (buffer.width ≤ (x + xi) % WORD ∨
        buffer.height ≤ (y + (sprite.height - 1 - yi)) % WORD → t = none) ∧
      (x + sprite.width ≤ WORD → y + sprite.height ≤ WORD →
        buffer.width ≤ x + xi ∨ buffer.height ≤ y + (sprite.height - 1 - yi) → t = none) := by
  have hlt := cell_index_lt hx hy
  have hr : yi * sprite.width + xi < sprite.data.length := by rw [hs.1]; exact hlt
  have hh : sprite.height < WORD := by
    have h1 : 1 * sprite.height ≤ sprite.width * sprite.height :=
      Nat.mul_le_mul_right _ (by omega)
    have h2 := hs.2
    omega
  have hrow : target_row sprite y yi = (y + (sprite.height - 1 - yi)) % WORD := by
    simp only [target_row, usub, uadd, WORD] at hh ⊢
    omega
  have hcol : target_col x xi = (x + xi) % WORD := rfl
  refine ⟨_, draw_target_eq buffer sprite x y xi yi hs hb.2 hx hy, ?_, ?_, ?_⟩
  · intro idx ht
    have hlt2 := target_index_lt ht
    unfold target_index at ht
    rw [hrow, hcol, List.getElem?_eq_getElem hr] at ht
    split at ht
    · rename_i hc
      simp only [Option.some.injEq] at ht
      refine ⟨hlt2, ⟨_, List.getElem?_eq_getElem hr, hc.1⟩,
        hc.2.2, hc.2.1, ht.symm⟩
    · cases ht
  · intro hout
    unfold target_index
    rw [hrow, hcol, if_neg]
    rintro ⟨_, h1, h2⟩
    omega
  · intro hxw hyh hout
    unfold target_index
    rw [hrow, hcol, if_neg]
    rintro ⟨_, h1, h2⟩
    have e1 : (x + xi) % WORD = x + xi := Nat.mod_eq_of_lt (by omega)
    have e2 : (y + (sprite.height - 1 - yi)) % WORD = y + (sprite.height - 1 - yi) :=
      Nat.mod_eq_of_lt (by omega)
    rw [e1] at h2
    rw [e2] at h1
    omega

/-- The amended C7 for the cell `(1, 0)` of a 2x1 mask at `(1, 1)` in a 3x2 buffer. -/
theorem draw_target_in_bounds_witness :
    Buffer.valid ⟨3, 2, [0, 0, 0, 0, 0, 0]⟩ ∧ Sprite.valid ⟨2, 1, [1, 1]⟩ ∧
    (1 : Nat) < 2 ∧ (0 : Nat) < 1 ∧
    ∃ t, draw_target ⟨3, 2, [0, 0, 0, 0, 0, 0]⟩ ⟨2, 1, [1, 1]⟩ 1 1 1 0 = .ok t ∧
      (∀ idx, t = some idx →
        idx < 3 * 2 ∧ Sprite.cell_set ⟨2, 1, [1, 1]⟩ 1 0 ∧
        (1 + 1) % WORD < 3 ∧ (1 + (1 - 1 - 0)) % WORD < 2 ∧
        idx = (1 + (1 - 1 - 0)) % WORD * 3 + (1 + 1) % WORD) ∧
      (3 ≤ (1 + 1) % WORD ∨ 2 ≤ (1 + (1 - 1 - 0)) % WORD → t = none) ∧
      (1 + 2 ≤ WORD → 1 + 1 ≤ WORD → 3 ≤ 1 + 1 ∨ 2 ≤ 1 + (1 - 1 - 0) → t = none) :=
  ⟨by decide, by decide, by decide, by decide,
    draw_target_in_bounds ⟨3, 2, [0, 0, 0, 0, 0, 0]⟩ ⟨2, 1, [1, 1]⟩ 1 1 1 0
      (by decide) (by decide) (by decide) (by decide)⟩

/-- C7 as stated fails where the row wraps: for a 1x3 mask at `y = 2^64 - 2`,
which is where an alien stands after it has dropped two units below row 0,
the cell `(0, 0)` has the true target row `2^64`, outside the 1x2 buffer, and
is stored at index 0. -/
theorem draw_target_wraps_row :
    Buffer.valid ⟨1, 2, [0, 0]⟩ ∧ Sprite.valid ⟨1, 3, [1, 1, 1]⟩ ∧
    draw_target ⟨1, 2, [0, 0]⟩ ⟨1, 3, [1, 1, 1]⟩ 0 18446744073709551614 0 0 = .ok (some 0) ∧
    ¬ (18446744073709551614 + 3 - 1 - 0 < 2) := by
  refine ⟨by decide, by decide, rfl, by decide⟩

/-! ## The fuel of the bullet loop -/

theorem advance_bullet_pool {game game' : Game} {bi : Nat}
    (h : advance_bullet game bi = .ok game') :
    game'.bullets.length = game.bullets.length ∧ game'.num_bullets = game.num_bullets := by
  unfold advance_bullet at h
  obtain ⟨b, _, h⟩ := bind_eq_ok h
  obtain ⟨bs, hw, h⟩ := bind_eq_ok h
  cases h
  obtain ⟨_, rfl⟩ := write_ok hw
  exact ⟨List.length_set _ _ _, rfl⟩

theorem remove_bullet_pool {game game' : Game} {bi : Nat}
    (h : remove_bullet game bi = .ok game')
    (hn : game.num_bullets < WORD) (hl : game.bullets.length < WORD) :
    game'.bullets.length = game.bullets.length ∧ game'.num_bullets + 1 = game.num_bullets := by
  unfold remove_bullet at h
  obtain ⟨b, hr, h⟩ := bind_eq_ok h
  obtain ⟨bs, hw, h⟩ := bind_eq_ok h
  cases h
  obtain ⟨_, rfl⟩ := write_ok hw
  have hlt := (List.getElem?_eq_some_iff.mp (read_ok hr)).1
  refine ⟨List.length_set _ _ _, ?_⟩
  show usub game.num_bullets 1 + 1 = game.num_bullets
  simp only [usub, WORD] at hn hl hlt ⊢
  omega

theorem check_hit_pool {sprites : Sprites} {anims : List SpriteAnimation} {bi ai : Nat}
    {game game' : Game} (h : check_hit sprites anims bi game ai = .ok game')
    (hn : game.num_bullets < WORD) (hl : game.bullets.length < WORD) :
    game'.bullets.length = game.bullets.length ∧ game'.num_bullets ≤ game.num_bullets := by
  unfold check_hit at h
  obtain ⟨alien, ha, h⟩ := bind_eq_ok h
  split at h
  · cases h
    exact ⟨rfl, Nat.le_refl _⟩
  · obtain ⟨sp, _, h⟩ := bind_eq_ok h
    obtain ⟨bullet, _, h⟩ := bind_eq_ok h
    simp only at h
    split at h
    · obtain ⟨aliens, _, h⟩ := bind_eq_ok h
      obtain ⟨last, hr, h⟩ := bind_eq_ok h
      obtain ⟨bullets, hw, h⟩ := bind_eq_ok h
      cases h
      obtain ⟨_, rfl⟩ := write_ok hw
      have hlt := (List.getElem?_eq_some_iff.mp (read_ok hr)).1
      refine ⟨List.length_set _ _ _, ?_⟩
      show usub game.num_bullets 1 ≤ game.num_bullets
      simp only [usub, WORD] at hn hl hlt ⊢
      omega
    · cases h
      exact ⟨rfl, Nat.le_refl _⟩

theorem check_hits_pool {sprites : Sprites} {anims : List SpriteAnimation} {bi : Nat}
    {game game' : Game} (h : check_hits sprites anims bi game = .ok game')
    (hn : game.num_bullets < WORD) (hl : game.bullets.length < WORD) :
    game'.bullets.length = game.bullets.length ∧ game'.num_bullets ≤ game.num_bullets := by
  unfold check_hits at h
  refine foldlM_preserves (check_hit sprites anims bi)
    (fun g => g.bullets.length = game.bullets.length ∧ g.num_bullets ≤ game.num_bullets)
    ?_ _ _ _ ⟨rfl, Nat.le_refl _⟩ h
  intro b i b' hb hs
  obtain ⟨h1, h2⟩ := check_hit_pool hs (Nat.lt_of_le_of_lt hb.2 hn) (by rw [hb.1]; exact hl)
  exact ⟨h1.trans hb.1, Nat.le_trans h2 hb.2⟩

/-- A pass of the bullet loop keeps the pool and lowers `num_bullets - bi`. -/
theorem simulate_bullet_measure {sprites : Sprites} {anims : List SpriteAnimation}
    {game game' : Game} {bi bi' : Nat}
    (h : simulate_bullet sprites anims game bi = .ok (game', bi'))
    (hbi : bi < game.num_bullets)
    (hn : game.num_bullets < WORD) (hl : game.bullets.length < WORD) :
    game'.bullets.length = game.bullets.length ∧ game'.num_bullets < WORD ∧
      game'.num_bullets - bi' < game.num_bullets - bi := by
  unfold simulate_bullet at h
  obtain ⟨g1, h1, h⟩ := bind_eq_ok h
  obtain ⟨b, _, h⟩ := bind_eq_ok h
  obtain ⟨a1, a2⟩ := advance_bullet_pool h1
  split at h
  · obtain ⟨g2, h2, h⟩ := bind_eq_ok h
    cases h
    obtain ⟨r1, r2⟩ := remove_bullet_pool h2 (by rw [a2]; exact hn) (by rw [a1]; exact hl)
    refine ⟨r1.trans a1, ?_, ?_⟩ <;> omega
  · obtain ⟨g2, h2, h⟩ := bind_eq_ok h
    cases h
    obtain ⟨r1, r2⟩ := check_hits_pool h2 (by rw [a2]; exact hn) (by rw [a1]; exact hl)
    have hu : uadd bi 1 = bi + 1 := uadd_eq (by omega)
    refine ⟨r1.trans a1, ?_, ?_⟩
    · omega
    · rw [hu]; omega

/-- Once the fuel covers `num_bullets - bi`, more fuel does not change the
result of the bullet loop. -/
theorem simulate_bullets_from_fuel (sprites : Sprites) (anims : List SpriteAnimation) :
    ∀ (fuel : Nat) (game : Game) (bi : Nat), game.num_bullets - bi ≤ fuel →
      game.num_bullets < WORD → game.bullets.length < WORD →
      simulate_bullets_from sprites anims (fuel + 1) game bi =
        simulate_bullets_from sprites anims fuel game bi := by
  intro fuel
  induction fuel with
  | zero =>
    intro game bi hm _ _
    have hbi : ¬ bi < game.num_bullets := by omega
    simp only [simulate_bullets_from, hbi, if_false]
  | succ n ih =>
    intro game bi hm hn hl
    by_cases hbi : bi < game.num_bullets
    · rw [simulate_bullets_from, simulate_bullets_from.eq_def _ _ (n + 1)]
      simp only [hbi, if_true]
      cases hs : simulate_bullet sprites anims game bi with
      | error e => rfl
      | ok p =>
        obtain ⟨g1, b1⟩ := p
        obtain ⟨m1, m2, m3⟩ := simulate_bullet_measure hs hbi hn hl
        simp only [ok_bind]
        exact ih g1 b1 (by omega) m2 (by rw [m1]; exact hl)
    · rw [simulate_bullets_from, simulate_bullets_from.eq_def _ _ (n + 1)]
      simp only [hbi, if_false]

/-- The fuel `simulate_bullets` passes to the bullet loop is enough: any
larger amount gives the same result. -/
theorem simulate_bullets_enough_fuel (sprites : Sprites) (anims : List SpriteAnimation)
    (game : Game) (hn : game.num_bullets < WORD) (hl : game.bullets.length < WORD) (k : Nat) :
    simulate_bullets_from sprites anims (game.num_bullets + k) game 0 =
      simulate_bullets sprites anims game := by
  induction k with
  | zero => rfl
  | succ k ih =>
    rw [← ih, ← Nat.add_assoc]
    exact simulate_bullets_from_fuel sprites anims _ game 0 (by omega) hn hl


theorem bind_ne_fuel {α β : Type} {x : Except Fault α} {f : α → Except Fault β}
    (hx : x ≠ .error .out_of_fuel) (hf : ∀ a, x = .ok a → f a ≠ .error .out_of_fuel) :
    (x >>= f) ≠ .error .out_of_fuel := by
  cases x with
  | error e => exact fun h => hx (by cases h; rfl)
  | ok a => exact hf a rfl

theorem read_ne_fuel {α : Type} (xs : List α) (i : Nat) : read xs i ≠ .error .out_of_fuel := by
  unfold read
  split
  · intro h; cases h
  · intro h; cases h

theorem write_ne_fuel {α : Type} (xs : List α) (i : Nat) (v : α) :
    write xs i v ≠ .error .out_of_fuel := by
  unfold write
  split
  · intro h; cases h
  · intro h; cases h

theorem ok_ne_fuel {α : Type} (a : α) : (Except.ok a : Except Fault α) ≠ .error .out_of_fuel :=
  fun h => by cases h

theorem foldlM_ne_fuel {β ι : Type} (f : β → ι → Except Fault β)
    (hstep : ∀ b i, f b i ≠ .error .out_of_fuel) :
    ∀ (l : List ι) (b : β), l.foldlM f b ≠ .error .out_of_fuel := by
  intro l
  induction l with
  | nil => intro b; exact ok_ne_fuel b
  | cons a l ih =>
    intro b
    rw [List.foldlM_cons]
    exact bind_ne_fuel (hstep b a) (fun b1 _ => ih b1)

theorem current_sprite_ne_fuel (anims : List SpriteAnimation) (type : Nat) :
    current_sprite anims type ≠ .error .out_of_fuel := by
  unfold current_sprite
  refine bind_ne_fuel (read_ne_fuel _ _) (fun a _ => ?_)
  split
  · intro h; cases h
  · exact read_ne_fuel _ _

theorem check_hit_ne_fuel (sprites : Sprites) (anims : List SpriteAnimation) (bi : Nat)
    (game : Game) (ai : Nat) : check_hit sprites anims bi game ai ≠ .error .out_of_fuel := by
  unfold check_hit
  refine bind_ne_fuel (read_ne_fuel _ _) (fun alien _ => ?_)
  split
  · exact ok_ne_fuel _
  · refine bind_ne_fuel (current_sprite_ne_fuel _ _) (fun sp _ => ?_)
    refine bind_ne_fuel (read_ne_fuel _ _) (fun bullet _ => ?_)
    simp only
    split
    · refine bind_ne_fuel (write_ne_fuel _ _ _) (fun aliens _ => ?_)
      refine bind_ne_fuel (read_ne_fuel _ _) (fun last _ => ?_)
      exact bind_ne_fuel (write_ne_fuel _ _ _) (fun bullets _ => ok_ne_fuel _)
    · exact ok_ne_fuel _

theorem simulate_bullet_ne_fuel (sprites : Sprites) (anims : List SpriteAnimation)
    (game : Game) (bi : Nat) : simulate_bullet sprites anims game bi ≠ .error .out_of_fuel := by
  unfold simulate_bullet
  refine bind_ne_fuel ?_ (fun g1 _ => ?_)
  · unfold advance_bullet
    refine bind_ne_fuel (read_ne_fuel _ _) (fun b _ => ?_)
    exact bind_ne_fuel (write_ne_fuel _ _ _) (fun bs _ => ok_ne_fuel _)
  · refine bind_ne_fuel (read_ne_fuel _ _) (fun b _ => ?_)
    split
    · refine bind_ne_fuel ?_ (fun g2 _ => ok_ne_fuel _)
      unfold remove_bullet
      refine bind_ne_fuel (read_ne_fuel _ _) (fun b _ => ?_)
      exact bind_ne_fuel (write_ne_fuel _ _ _) (fun bs _ => ok_ne_fuel _)
    · refine bind_ne_fuel ?_ (fun g2 _ => ok_ne_fuel _)
      unfold check_hits
      exact foldlM_ne_fuel _ (check_hit_ne_fuel sprites anims bi) _ _

theorem simulate_bullets_from_ne_fuel (sprites : Sprites) (anims : List SpriteAnimation) :
    ∀ (fuel : Nat) (game : Game) (bi : Nat), game.num_bullets - bi ≤ fuel →
      game.num_bullets < WORD → game.bullets.length < WORD →
      simulate_bullets_from sprites anims fuel game bi ≠ .error .out_of_fuel := by
  intro fuel
  induction fuel with
  | zero =>
    intro game bi hm _ _
    have hbi : ¬ bi < game.num_bullets := by omega
    simp only [simulate_bullets_from, hbi, if_false]
    exact ok_ne_fuel _
  | succ n ih =>
    intro game bi hm hn hl
    rw [simulate_bullets_from]
    split
    · rename_i hbi
      refine bind_ne_fuel (simulate_bullet_ne_fuel _ _ _ _) (fun p hp => ?_)
      obtain ⟨g1, b1⟩ := p
      obtain ⟨m1, m2, m3⟩ := simulate_bullet_measure hp hbi hn hl
      exact ih g1 b1 (by omega) m2 (by rw [m1]; exact hl)
    · exact ok_ne_fuel _

/-- The bullet loop never runs out of the fuel `simulate_bullets` gives it:
it returns a game or faults on an access the source makes. -/
theorem simulate_bullets_ne_fuel (sprites : Sprites) (anims : List SpriteAnimation)
    (game : Game) (hn : game.num_bullets < WORD) (hl : game.bullets.length < WORD) :
    simulate_bullets sprites anims game ≠ .error .out_of_fuel :=
  simulate_bullets_from_ne_fuel sprites anims _ game 0 (by omega) hn hl

/-! ## The bullet loop -/

/-- C3: in a pass of the bullet loop for the slot `bi` of a pool of at most 128
live bullets, a bullet whose `y` after adding `dir` is `>= game.height` (400) or
`< bullet_sprite.height` (3) is removed by swap-with-last: the pass returns with
the same `bi`, `num_bullets` is one less, the slot `bi` holds what the last
live slot held (the advanced bullet itself when `bi` is the last live slot),
no other slot changes, and the aliens are untouched, the pass ending before
the "check hit" loop. -/
theorem expired_bullet_removed (sprites : Sprites) (anims : List SpriteAnimation)
    (game : Game) (bi : Nat) (b : Bullet)
    (hlen : game.bullets.length = GAME_MAX_BULLETS)
    (hbi : bi < game.num_bullets) (hn : game.num_bullets ≤ GAME_MAX_BULLETS)
    (hb : game.bullets[bi]? = some b)
    (hy : uadd b.y (of_int b.dir) ≥ game.height ∨
      uadd b.y (of_int b.dir) < sprites.bullet_sprite.height) :
    ∃ g, simulate_bullet sprites anims game bi = .ok (g, bi) ∧
      g.num_bullets = game.num_bullets - 1 ∧
      g.aliens = game.aliens ∧
      g.bullets[bi]? =
        (if bi = game.num_bullets - 1 then some { b with y := uadd b.y (of_int b.dir) }
         else game.bullets[game.num_bullets - 1]?) ∧
      (∀ j, j ≠ bi → g.bullets[j]? = game.bullets[j]?) ∧
      g.num_aliens = game.num_aliens ∧ g.player = game.player ∧
      g.width = game.width ∧ g.height = game.height := by
  have hbl : bi < game.bullets.length := by rw [hlen]; omega
  have hu : usub game.num_bullets 1 = game.num_bullets - 1 :=
    usub_one (by omega) (by simp only [WORD, GAME_MAX_BULLETS] at hn ⊢; omega)
  have hl : game.num_bullets - 1 < (game.bullets.set bi
      { b with y := uadd b.y (of_int b.dir) }).length := by
    rw [List.length_set, hlen]; omega
  have hbl2 : bi < (game.bullets.set bi { b with y := uadd b.y (of_int b.dir) }).length := by
    rw [List.length_set]; exact hbl
  refine ⟨{ game with
      bullets := (game.bullets.set bi { b with y := uadd b.y (of_int b.dir) }).set bi
        ((game.bullets.set bi { b with y := uadd b.y (of_int b.dir) })[game.num_bullets - 1])
      num_bullets := game.num_bullets - 1 }, ?_, rfl, rfl, ?_, ?_, rfl, rfl, rfl, rfl⟩
  · simp only [simulate_bullet, advance_bullet, remove_bullet, read_eq_ok hb,
      write_eq_ok _ hbl, bind, Except.bind, pure, Except.pure, hu,
      read_eq_ok (List.getElem?_eq_getElem hl), write_eq_ok _ hbl2,
      read_eq_ok (List.getElem?_eq_getElem hbl2), List.getElem_set_self, hy, if_true]
  · show ((game.bullets.set bi _).set bi _)[bi]? = _
    rw [List.getElem?_set_self hbl2]
    by_cases h : bi = game.num_bullets - 1
    · rw [if_pos h]
      simp only [← h, List.getElem_set_self]
    · rw [if_neg h, List.getElem_set_ne h, List.getElem?_eq_getElem]
  · intro j hj
    show ((game.bullets.set bi _).set bi _)[j]? = _
    rw [List.getElem?_set_ne (Ne.symm hj), List.getElem?_set_ne (Ne.symm hj)]

set_option maxRecDepth 100000 in
/-- C3 for a bullet that leaves the 600x400 field through the top edge. -/
theorem expired_bullet_removed_witness :
    ∃ g, simulate_bullet init_sprites start_animations leaving_bullet 0 = .ok (g, 0) ∧
      g.num_bullets = leaving_bullet.num_bullets - 1 ∧
      g.aliens = leaving_bullet.aliens ∧
      g.bullets[0]? =
        (if 0 = leaving_bullet.num_bullets - 1
         then some { (⟨10, 399, 2⟩ : Bullet) with y := uadd 399 (of_int 2) }
         else leaving_bullet.bullets[leaving_bullet.num_bullets - 1]?) ∧
      (∀ j, j ≠ 0 → g.bullets[j]? = leaving_bullet.bullets[j]?) ∧
      g.num_aliens = leaving_bullet.num_aliens ∧ g.player = leaving_bullet.player ∧
      g.width = leaving_bullet.width ∧ g.height = leaving_bullet.height :=
  expired_bullet_removed init_sprites start_animations leaving_bullet 0 ⟨10, 399, 2⟩
    (by decide) (by decide) (by decide) (by decide) (by decide)

/-- C4: Scenario C.  With a single non-DEAD alien at `(100, 50)` whose current
frame is an 11x8 mask, death counter 10, and a single live bullet (1x3 mask)
that stands at `(102, 52)` after its advance, `sprite_overlap_check` returns
true, the death-counter loop of the tick leaves the counter at 10, and the
bullet loop returns a game in which the alien is DEAD at `x = 99`, `y = 50`
and `num_bullets` is 0. -/
theorem scenario_C (sprites : Sprites) (anims : List SpriteAnimation) (game : Game)
    (frame : Sprite) (t y0 : Nat) (dir : Int) (rest : List Bullet)
    (hbw : sprites.bullet_sprite.width = 1) (hbh : sprites.bullet_sprite.height = 3)
    (hdw : sprites.alien_death_sprite.width = 13)
    (ht : t ≠ ALIEN_DEAD) (hf : current_sprite anims t = .ok frame)
    (hfw : frame.width = 11) (hfh : frame.height = 8)
    (hgh : game.height = 400) (hna : game.num_aliens = 1)
    (hal : game.aliens = [⟨100, 50, t⟩]) (hnb : game.num_bullets = 1)
    (hb : game.bullets = ⟨102, y0, dir⟩ :: rest) (hy : uadd y0 (of_int dir) = 52) :
    sprite_overlap_check sprites.bullet_sprite 102 52 frame 100 50 = true ∧
    simulate_aliens game [10] = .ok [10] ∧
    ∃ g, simulate_bullets sprites anims game = .ok g ∧
      g.aliens = [⟨99, 50, ALIEN_DEAD⟩] ∧ g.num_bullets = 0 ∧
      g.bullets = ⟨102, 52, dir⟩ :: rest := by
  obtain ⟨gw, gh, na, nb, al, pl, bl⟩ := game
  simp only at hgh hna hal hnb hb
  subst hgh hna hal hnb hb
  have hov : sprite_overlap_check sprites.bullet_sprite 102 52 frame 100 50 = true := by
    simp only [sprite_overlap_check, uadd, hbw, hbh, hfw, hfh, WORD]
    decide
  refine ⟨hov, ?_, ?_⟩
  · simp only [simulate_aliens, foldlM_range_one, simulate_alien, read_cons_zero,
      ok_bind, ht, if_false, pure_eq_ok]
  · refine ⟨⟨gw, 400, 1, 0, [⟨99, 50, ALIEN_DEAD⟩], pl, ⟨102, 52, dir⟩ :: rest⟩,
      ?_, rfl, rfl, rfl⟩
    have hx : usub 100 (usub 13 11 / 2) = 99 := by decide
    have h01 : usub 1 1 = 0 := by decide
    have h11 : uadd 0 1 = 1 := by decide
    have hin : ¬ ((52 : Nat) ≥ 400 ∨ (52 : Nat) < 3) := by decide
    unfold simulate_bullets
    simp only [simulate_bullets_from, Nat.zero_lt_one, if_true]
    unfold simulate_bullet advance_bullet
    simp only [read_cons_zero, write_cons_zero, ok_bind, pure_eq_ok, hy, hbh, hin, if_false]
    unfold check_hits
    simp only [foldlM_range_one]
    unfold check_hit
    simp only [h01]
    simp only [read_cons_zero, write_cons_zero, ok_bind, ht, if_false, hf, hov, if_true, hdw,
      hfw, hx, pure_eq_ok, h11]
    rfl

/-- C4 with the sprites and animations of the program and an alien of type B. -/
theorem scenario_C_witness :
    sprite_overlap_check init_sprites.bullet_sprite 102 52
      ⟨11, 8, [0,0,1,0,0,0,0,0,1,0,0,
               0,0,0,1,0,0,0,1,0,0,0,
               0,0,1,1,1,1,1,1,1,0,0,
               0,1,1,0,1,1,1,0,1,1,0,
               1,1,1,1,1,1,1,1,1,1,1,
               1,0,1,1,1,1,1,1,1,0,1,
               1,0,1,0,0,0,0,0,1,0,1,
               0,0,0,1,1,0,1,1,0,0,0]⟩ 100 50 = true ∧
    simulate_aliens (game_with [⟨100, 50, ALIEN_TYPE_B⟩] 1 [⟨102, 50, 2⟩]) [10] = .ok [10] ∧
    ∃ g, simulate_bullets init_sprites start_animations
        (game_with [⟨100, 50, ALIEN_TYPE_B⟩] 1 [⟨102, 50, 2⟩]) = .ok g ∧
      g.aliens = [⟨99, 50, ALIEN_DEAD⟩] ∧ g.num_bullets = 0 ∧
      g.bullets = ⟨102, 52, 2⟩ :: List.replicate 127 ⟨0, 0, 0⟩ :=
  scenario_C init_sprites start_animations
    (game_with [⟨100, 50, ALIEN_TYPE_B⟩] 1 [⟨102, 50, 2⟩]) _ ALIEN_TYPE_B 50 2
    (List.replicate 127 ⟨0, 0, 0⟩) rfl rfl rfl (by decide) (by decide) rfl rfl rfl rfl rfl rfl
    (by decide) (by decide)

set_option maxRecDepth 100000 in
/-- C2, the code at a failing input.  Two live bullets, two aliens of the
initial grid: the pass for slot 0 advances the first bullet, which hits alien
0; the `continue` of the hit branch goes on with alien 1, now tested against
the bullet swapped into slot 0, which hits it.  Both aliens are DEAD after the
pass and `num_bullets` has gone from 2 to 0. -/
theorem swapped_bullet_kills_again :
    simulate_bullet init_sprites start_animations two_bullets 0 =
    .ok (game_with [⟨10, 128, ALIEN_DEAD⟩, ⟨64, 128, ALIEN_DEAD⟩] 0
        [⟨70, 130, 2⟩, ⟨70, 130, 2⟩], 1) := by
  decide

theorem only_deaths_refl (l : List Alien) : only_deaths l l :=
  ⟨rfl, fun i a a' h1 h2 => by rw [h1] at h2; cases h2; exact Or.inl rfl⟩

theorem only_deaths_trans {l1 l2 l3 : List Alien} (h12 : only_deaths l1 l2)
    (h23 : only_deaths l2 l3) : only_deaths l1 l3 := by
  refine ⟨h23.1.trans h12.1, ?_⟩
  intro i a a3 h1 h3
  have hi : i < l2.length := by
    rw [h12.1]
    exact (List.getElem?_eq_some_iff.mp h1).1
  have h2 : l2[i]? = some l2[i] := List.getElem?_eq_getElem hi
  rcases h12.2 i a _ h1 h2 with h | h
  · rcases h23.2 i _ a3 h2 h3 with k | k
    · exact Or.inl (k.trans h)
    · exact Or.inr k
  · rcases h23.2 i _ a3 h2 h3 with k | k
    · exact Or.inr (k.trans h)
    · exact Or.inr k

theorem only_deaths_write {aliens aliens' : List Alien} {ai : Nat} {a a' : Alien}
    (hr : aliens[ai]? = some a) (hw : write aliens ai a' = .ok aliens')
    (ht : a'.type = a.type ∨ a'.type = ALIEN_DEAD) : only_deaths aliens aliens' := by
  obtain ⟨hlt, rfl⟩ := write_ok hw
  refine ⟨List.length_set _ _ _, ?_⟩
  intro i b b' h1 h2
  by_cases hi : ai = i
  · subst hi
    rw [List.getElem?_set_self hlt] at h2
    rw [hr] at h1
    cases h1; cases h2
    exact ht
  · rw [List.getElem?_set_ne hi, h1] at h2
    cases h2
    exact Or.inl rfl

theorem only_deaths_dead {old new : List Alien} (h : only_deaths old new) :
    dead_stays_dead old new := by
  intro ai a ha hd
  have hi : ai < new.length := by
    rw [h.1]
    exact (List.getElem?_eq_some_iff.mp ha).1
  have h2 : new[ai]? = some new[ai] := List.getElem?_eq_getElem hi
  refine ⟨_, h2, ?_⟩
  rcases h.2 ai a _ ha h2 with k | k
  · rw [k, hd]
  · exact k

theorem drop_alien_only_deaths {aliens aliens' : List Alien} {ai : Nat}
    (h : drop_alien aliens ai = .ok aliens') : only_deaths aliens aliens' := by
  unfold drop_alien at h
  obtain ⟨a, ha, h⟩ := bind_eq_ok h
  exact only_deaths_write (read_ok ha) h (Or.inl rfl)

theorem update_aliens_position_only_deaths {w w' : World} {t1 t2 t3 : Int}
    (h : update_aliens_position w t1 t2 t3 = .ok w') :
    only_deaths w.game.aliens w'.game.aliens := by
  have key : ∀ (last : Int) (v : World),
      (if t2 - last > 3 then do
          let aliens ← (List.range w.game.num_aliens).foldlM drop_alien w.game.aliens
          pure { w with last_update_time := t3, game := { w.game with aliens := aliens } }
        else pure { w with last_update_time := last }) = Except.ok v →
      only_deaths w.game.aliens v.game.aliens := by
    intro last v hv
    split at hv
    · obtain ⟨aliens, ha, hv⟩ := bind_eq_ok hv
      cases hv
      exact foldlM_preserves drop_alien (only_deaths w.game.aliens)
        (fun b i b' hb hs => only_deaths_trans hb (drop_alien_only_deaths hs)) _ _ _
        (only_deaths_refl _) ha
    · cases hv
      exact only_deaths_refl _
  exact key _ w' h

theorem check_hit_only_deaths {sprites : Sprites} {anims : List SpriteAnimation} {bi ai : Nat}
    {game game' : Game} (h : check_hit sprites anims bi game ai = .ok game') :
    only_deaths game.aliens game'.aliens ∧ game'.num_aliens = game.num_aliens := by
  unfold check_hit at h
  obtain ⟨alien, ha, h⟩ := bind_eq_ok h
  split at h
  · cases h
    exact ⟨only_deaths_refl _, rfl⟩
  · obtain ⟨sp, _, h⟩ := bind_eq_ok h
    obtain ⟨bullet, _, h⟩ := bind_eq_ok h
    simp only at h
    split at h
    · obtain ⟨aliens, hw, h⟩ := bind_eq_ok h
      obtain ⟨last, _, h⟩ := bind_eq_ok h
      obtain ⟨bullets, _, h⟩ := bind_eq_ok h
      cases h
      exact ⟨only_deaths_write (read_ok ha) hw (Or.inr rfl), rfl⟩
    · cases h
      exact ⟨only_deaths_refl _, rfl⟩

theorem check_hits_only_deaths {sprites : Sprites} {anims : List SpriteAnimation} {bi : Nat}
    {game game' : Game} (h : check_hits sprites anims bi game = .ok game') :
    only_deaths game.aliens game'.aliens := by
  unfold check_hits at h
  exact foldlM_preserves (check_hit sprites anims bi)
    (fun g => only_deaths game.aliens g.aliens)
    (fun b i b' hb hs => only_deaths_trans hb (check_hit_only_deaths hs).1) _ _ _
    (only_deaths_refl _) h

theorem advance_bullet_aliens {game game' : Game} {bi : Nat}
    (h : advance_bullet game bi = .ok game') : game'.aliens = game.aliens := by
  unfold advance_bullet at h
  obtain ⟨b, _, h⟩ := bind_eq_ok h
  obtain ⟨bs, _, h⟩ := bind_eq_ok h
  cases h
  rfl

theorem remove_bullet_aliens {game game' : Game} {bi : Nat}
    (h : remove_bullet game bi = .ok game') : game'.aliens = game.aliens := by
  unfold remove_bullet at h
  obtain ⟨b, _, h⟩ := bind_eq_ok h
  obtain ⟨bs, _, h⟩ := bind_eq_ok h
  cases h
  rfl

theorem simulate_bullet_only_deaths {sprites : Sprites} {anims : List SpriteAnimation}
    {game game' : Game} {bi bi' : Nat}
    (h : simulate_bullet sprites anims game bi = .ok (game', bi')) :
    only_deaths game.aliens game'.aliens := by
  unfold simulate_bullet at h
  obtain ⟨g1, h1, h⟩ := bind_eq_ok h
  obtain ⟨b, _, h⟩ := bind_eq_ok h
  rw [← advance_bullet_aliens h1]
  split at h
  · obtain ⟨g2, h2, h⟩ := bind_eq_ok h
    cases h
    rw [remove_bullet_aliens h2]
    exact only_deaths_refl _
  · obtain ⟨g2, h2, h⟩ := bind_eq_ok h
    cases h
    exact check_hits_only_deaths h2

theorem simulate_bullets_from_only_deaths {sprites : Sprites} {anims : List SpriteAnimation} :
    ∀ (fuel : Nat) (game game' : Game) (bi : Nat),
      simulate_bullets_from sprites anims fuel game bi = .ok game' →
      only_deaths game.aliens game'.aliens := by
  intro fuel
  induction fuel with
  | zero =>
    intro game game' bi h
    unfold simulate_bullets_from at h
    split at h
    · cases h
    · cases h
      exact only_deaths_refl _
  | succ n ih =>
    intro game game' bi h
    unfold simulate_bullets_from at h
    split at h
    · obtain ⟨p, hp, h⟩ := bind_eq_ok h
      obtain ⟨g1, b1⟩ := p
      exact only_deaths_trans (simulate_bullet_only_deaths hp) (ih g1 game' b1 h)
    · cases h
      exact only_deaths_refl _

theorem simulate_player_aliens (game : Game) (sprites : Sprites) (move_dir : Int) :
    (simulate_player game sprites move_dir).aliens = game.aliens := by
  unfold simulate_player
  simp only
  split
  · split
    · rfl
    · split <;> rfl
  · rfl

theorem process_events_aliens {game game' : Game} {sprites : Sprites} {fire fire' : Bool}
    (h : process_events game sprites fire = .ok (game', fire')) :
    game'.aliens = game.aliens := by
  unfold process_events at h
  split at h
  · obtain ⟨bs, _, h⟩ := bind_eq_ok h
    cases h
    rfl
  · cases h
    rfl

theorem update_state_only_deaths {w w' : World} (h : update_state w = .ok w') :
    only_deaths w.game.aliens w'.game.aliens := by
  unfold update_state at h
  obtain ⟨anims, _, h⟩ := bind_eq_ok h
  obtain ⟨counters, _, h⟩ := bind_eq_ok h
  obtain ⟨g1, h1, h⟩ := bind_eq_ok h
  obtain ⟨p, hp, h⟩ := bind_eq_ok h
  obtain ⟨g3, fire⟩ := p
  cases h
  show only_deaths w.game.aliens g3.aliens
  rw [process_events_aliens hp, simulate_player_aliens]
  exact simulate_bullets_from_only_deaths _ _ _ _ h1

theorem key_callback_game (w : World) (key : Key) (action : Action) :
    (key_callback w key action).game = w.game := by
  unfold key_callback
  cases key <;> simp only <;> (repeat' split) <;> rfl

theorem poll_events_game (events : List (Key × Action)) (w : World) :
    (poll_events w events).game = w.game := by
  unfold poll_events
  induction events generalizing w with
  | nil => rfl
  | cons e es ih =>
    rw [List.foldl_cons, ih, key_callback_game]

theorem main_loop_body_only_deaths {w w' : World} {buffer buffer' : Buffer}
    {clear_color : Nat} {inp : FrameInput}
    (h : main_loop_body w buffer clear_color inp = .ok (w', buffer')) :
    only_deaths w.game.aliens w'.game.aliens := by
  unfold main_loop_body at h
  obtain ⟨b1, _, h⟩ := bind_eq_ok h
  obtain ⟨w1, h1, h⟩ := bind_eq_ok h
  obtain ⟨b2, _, h⟩ := bind_eq_ok h
  obtain ⟨w2, h2, h⟩ := bind_eq_ok h
  cases h
  rw [poll_events_game]
  exact only_deaths_trans (update_aliens_position_only_deaths h1) (update_state_only_deaths h2)

theorem main_loop_only_deaths (clear_color : Nat) :
    ∀ (inputs : List FrameInput) (w w' : World) (buffer buffer' : Buffer),
      main_loop clear_color inputs w buffer = .ok (w', buffer') →
      only_deaths w.game.aliens w'.game.aliens := by
  intro inputs
  induction inputs with
  | nil =>
    intro w w' buffer buffer' h
    cases h
    exact only_deaths_refl _
  | cons inp rest ih =>
    intro w w' buffer buffer' h
    unfold main_loop at h
    split at h
    · obtain ⟨p, hp, h⟩ := bind_eq_ok h
      obtain ⟨w1, b1⟩ := p
      exact only_deaths_trans (main_loop_body_only_deaths hp) (ih w1 w' b1 buffer' h)
    · cases h
      exact only_deaths_refl _

/-- C10: DEAD is terminal.  Whenever one pass of the main loop (alien drop,
drawing, animation and death-counter update, bullet loop, player move, event
processing, key callbacks) returns, every alien that was DEAD before it is
DEAD after it, and every alien has either kept its type or become DEAD; the
same holds from the start to the end of every run of the main loop, whatever
its length and inputs, so an alien changes type at most once and never
returns to an alive type. -/
theorem dead_is_terminal (clear_color : Nat) (inputs : List FrameInput) (inp : FrameInput)
    (w w' : World) (buffer buffer' : Buffer) :
    (main_loop_body w buffer clear_color inp = .ok (w', buffer') →
      dead_stays_dead w.game.aliens w'.game.aliens ∧ only_deaths w.game.aliens w'.game.aliens) ∧
    (main_loop clear_color inputs w buffer = .ok (w', buffer') →
      dead_stays_dead w.game.aliens w'.game.aliens ∧ only_deaths w.game.aliens w'.game.aliens) :=
  ⟨fun h => ⟨only_deaths_dead (main_loop_body_only_deaths h), main_loop_body_only_deaths h⟩,
   fun h => ⟨only_deaths_dead (main_loop_only_deaths clear_color inputs w w' buffer buffer' h),
     main_loop_only_deaths clear_color inputs w w' buffer buffer' h⟩⟩

set_option maxRecDepth 100000 in
/-- C10 for a pass in which a bullet kills the first of two aliens, the second
being DEAD already, and for the run that consists of this pass. -/
theorem dead_is_terminal_witness :
    main_loop_body demo_world demo_buffer 9 demo_input = .ok demo_result ∧
    main_loop 9 [demo_input] demo_world demo_buffer = .ok demo_result ∧
    demo_world.game.aliens = [⟨100, 50, ALIEN_TYPE_B⟩, ⟨1, 1, ALIEN_DEAD⟩] ∧
    demo_result.1.game.aliens = [⟨99, 50, ALIEN_DEAD⟩, ⟨1, 1, ALIEN_DEAD⟩] ∧
    (dead_stays_dead demo_world.game.aliens demo_result.1.game.aliens ∧
      only_deaths demo_world.game.aliens demo_result.1.game.aliens) ∧
    (dead_stays_dead demo_world.game.aliens demo_result.1.game.aliens ∧
      only_deaths demo_world.game.aliens demo_result.1.game.aliens) :=
  ⟨by decide, by decide, by decide, by decide,
    (dead_is_terminal 9 [demo_input] demo_input demo_world demo_result.1 demo_buffer
      demo_result.2).1 (by decide),
    (dead_is_terminal 9 [demo_input] demo_input demo_world demo_result.1 demo_buffer
      demo_result.2).2 (by decide)⟩

/-! ## Loops that update an array in place -/

/-- A loop over the indices `0 .. n-1` each of whose passes stores `g i a` in
the slot `i`, `a` being what the slot held, returns when the array has at
least `n` slots: the first `n` slots then hold the values `g` gives and the
others are untouched. -/
theorem foldlM_range_set_ok {α : Type} (step : List α → Nat → Except Fault (List α))
    (g : Nat → α → α) (N : Nat)
    (hstep : ∀ cur i a, i < N → cur[i]? = some a → step cur i = .ok (cur.set i (g i a))) :
    ∀ (n : Nat) (l : List α), n ≤ N → n ≤ l.length →
      ∃ r, (List.range n).foldlM step l = .ok r ∧ r.length = l.length ∧
        ∀ j, r[j]? = if j < n then (l[j]?).map (g j) else l[j]? := by
  intro n
  induction n with
  | zero => intro l _ _; exact ⟨l, rfl, rfl, fun j => by simp⟩
  | succ n ih =>
    intro l hN hn
    obtain ⟨m, hm, hl, hp⟩ := ih l (by omega) (by omega)
    have hnm : n < m.length := by omega
    have ha : m[n]? = some m[n] := List.getElem?_eq_getElem hnm
    refine ⟨m.set n (g n m[n]), ?_, by rw [List.length_set, hl], ?_⟩
    · rw [List.range_succ, List.foldlM_append, hm, ok_bind, List.foldlM_cons,
        hstep m n _ (by omega) ha, ok_bind]
      rfl
    · intro j
      by_cases hj : n = j
      · subst hj
        rw [List.getElem?_set_self hnm, if_pos (Nat.lt_succ_self _)]
        have := hp n
        rw [if_neg (Nat.lt_irrefl _), ha] at this
        rw [← this]
        rfl
      · rw [List.getElem?_set_ne hj, hp j]
        by_cases hjn : j < n
        · rw [if_pos hjn, if_pos (by omega)]
        · rw [if_neg hjn, if_neg (by omega)]

theorem set_same {α : Type} {l : List α} {i : Nat} {a : α} (h : l[i]? = some a) :
    l.set i a = l := by
  apply List.ext_getElem?
  intro j
  by_cases hj : i = j
  · subst hj
    rw [List.getElem?_set_self (List.getElem?_eq_some_iff.mp h).1, h]
  · rw [List.getElem?_set_ne hj]

/-! ## The death counters -/

theorem simulate_alien_eq (game : Game) (dc : List Nat) (ai : Nat) (a : Alien) (c : Nat)
    (ha : game.aliens[ai]? = some a) (hc : dc[ai]? = some c) :
    simulate_alien game dc ai =
      .ok (dc.set ai (if a.type = ALIEN_DEAD then c - 1 else c)) := by
  have hlt : ai < dc.length := (List.getElem?_eq_some_iff.mp hc).1
  have hself : dc.set ai c = dc := set_same hc
  unfold simulate_alien
  rw [read_eq_ok ha, ok_bind]
  by_cases hd : a.type = ALIEN_DEAD
  · rw [if_pos hd, if_pos hd, read_eq_ok hc, ok_bind]
    by_cases h0 : c = 0
    · subst h0
      simp only [ne_eq, not_true_eq_false, if_false, pure_eq_ok, Nat.zero_sub, hself]
    · rw [if_pos h0, write_eq_ok _ hlt]
  · rw [if_neg hd, if_neg hd, pure_eq_ok, hself]

/-- The "simulate aliens" loop returns, and lowers by one the counter of every
DEAD alien whose counter is not 0 (`c - 1` is 0 for `c = 0`). -/
theorem simulate_aliens_eq (game : Game) (dc : List Nat)
    (hal : game.aliens.length = game.num_aliens) (hdc : dc.length = game.num_aliens) :
    ∃ dc', simulate_aliens game dc = .ok dc' ∧ dc'.length = dc.length ∧
      ∀ (ai : Nat) (a : Alien) (c : Nat), game.aliens[ai]? = some a → dc[ai]? = some c →
        dc'[ai]? = some (if a.type = ALIEN_DEAD then c - 1 else c) := by
  obtain ⟨r, hr, hl, hp⟩ := foldlM_range_set_ok (simulate_alien game)
    (fun ai c => if (game.aliens[ai]?.map Alien.type) = some ALIEN_DEAD then c - 1 else c)
    game.num_aliens
    (fun cur i c hi hc => by
      have hia : i < game.aliens.length := by omega
      rw [simulate_alien_eq game cur i _ c (List.getElem?_eq_getElem hia) hc]
      simp [List.getElem?_eq_getElem hia])
    game.num_aliens dc (Nat.le_refl _) (by omega)
  refine ⟨r, hr, hl, ?_⟩
  intro ai a c ha hc
  have hai : ai < game.num_aliens := by
    rw [← hal]
    exact (List.getElem?_eq_some_iff.mp ha).1
  have hv := hp ai
  rw [if_pos hai, hc, ha] at hv
  simp only [Option.map_some', Option.some.injEq] at hv
  exact hv

/-- C11: the "simulate aliens" step of a tick, run on arrays of `num_aliens`
entries, returns; for every alien, if it is DEAD and its death counter `c` is
`> 0` the counter becomes `c - 1`, if it is DEAD with counter 0 the counter
stays 0, and if it is not DEAD the counter is unchanged.  So a DEAD alien with
counter 1 has counter 0 afterwards, and the counter of a DEAD alien never
increases. -/
theorem simulate_aliens_counters (game : Game) (dc : List Nat)
    (hal : game.aliens.length = game.num_aliens) (hdc : dc.length = game.num_aliens) :
    ∃ dc', simulate_aliens game dc = .ok dc' ∧ dc'.length = dc.length ∧
      ∀ (ai : Nat) (a : Alien) (c : Nat), game.aliens[ai]? = some a → dc[ai]? = some c →
        (a.type = ALIEN_DEAD → 0 < c → dc'[ai]? = some (c - 1)) ∧
        (a.type = ALIEN_DEAD → c = 0 → dc'[ai]? = some 0) ∧
        (a.type ≠ ALIEN_DEAD → dc'[ai]? = some c) ∧
        (a.type = ALIEN_DEAD → c = 1 → dc'[ai]? = some 0) ∧
        (a.type = ALIEN_DEAD → ∃ c', dc'[ai]? = some c' ∧ c' ≤ c) := by
  obtain ⟨r, hr, hl, hv⟩ := simulate_aliens_eq game dc hal hdc
  refine ⟨r, hr, hl, ?_⟩
  intro ai a c ha hc
  have h := hv ai a c ha hc
  refine ⟨?_, ?_, ?_, ?_, ?_⟩
  · intro hd _
    rw [h, if_pos hd]
  · intro hd h0
    rw [h, if_pos hd, h0]
  · intro hd
    rw [h, if_neg hd]
  · intro hd h1
    rw [h, if_pos hd, h1]
  · intro hd
    rw [h, if_pos hd]
    exact ⟨_, rfl, Nat.sub_le _ _⟩

/-- C11 for an alive alien with counter 10 and two DEAD aliens with the
counters 1 and 0: the counters become 10, 0 and 0. -/
theorem simulate_aliens_counters_witness :
    simulate_aliens three_aliens [10, 1, 0] = .ok [10, 0, 0] ∧
    ∃ dc', simulate_aliens three_aliens [10, 1, 0] = .ok dc' ∧ dc'.length = 3 ∧
      ∀ (ai : Nat) (a : Alien) (c : Nat), three_aliens.aliens[ai]? = some a →
        [10, 1, 0][ai]? = some c →
        (a.type = ALIEN_DEAD → 0 < c → dc'[ai]? = some (c - 1)) ∧
        (a.type = ALIEN_DEAD → c = 0 → dc'[ai]? = some 0) ∧
        (a.type ≠ ALIEN_DEAD → dc'[ai]? = some c) ∧
        (a.type = ALIEN_DEAD → c = 1 → dc'[ai]? = some 0) ∧
        (a.type = ALIEN_DEAD → ∃ c', dc'[ai]? = some c' ∧ c' ≤ c) :=
  ⟨by decide, simulate_aliens_counters three_aliens [10, 1, 0] (by decide) (by decide)⟩

/-! ## `process_events` -/

/-- C13: Scenario B.  With `num_bullets = 128` and `fire_pressed` true,
`process_events` returns the game it was given, so `num_bullets` is still 128
and the 128 stored bullets, the player and the aliens are what they were; the
only change is that `fire_pressed` is false. -/
theorem process_events_full (game : Game) (sprites : Sprites)
    (hn : game.num_bullets = GAME_MAX_BULLETS) :
    process_events game sprites true = .ok (game, false) := by
  unfold process_events
  rw [if_neg]
  · rfl
  · rw [hn]
    intro h
    exact Nat.lt_irrefl _ h.2

/-- C13 for a pool of 128 bullets at `(300, 100)`. -/
theorem process_events_full_witness :
    full_pool.num_bullets = GAME_MAX_BULLETS ∧
    process_events full_pool init_sprites true = .ok (full_pool, false) :=
  ⟨by decide, process_events_full full_pool init_sprites (by decide)⟩

/-- C14: for a pool of 128 slots with `num_bullets < 128`: with
`fire_pressed` true `process_events` stores one bullet at index `num_bullets`
with `x = player.x + player_sprite.width / 2`,
`y = player.y + player_sprite.height` (both `size_t` sums) and `dir = 2`,
raises `num_bullets` by 1 and changes no other slot and nothing else of the
game; with `fire_pressed` false it returns the game unchanged.  In both cases
`fire_pressed` is false afterwards, and a second `process_events` on the
result, `fire_pressed` being false, returns it unchanged. -/
theorem process_events_spawn (game : Game) (sprites : Sprites)
    (hlen : game.bullets.length = GAME_MAX_BULLETS)
    (hn : game.num_bullets < GAME_MAX_BULLETS) :
    (∃ g, process_events game sprites true = .ok (g, false) ∧
      g.num_bullets = game.num_bullets + 1 ∧
      g.bullets[game.num_bullets]? = some
        { x := uadd game.player.x (sprites.player_sprite.width / 2)
          y := uadd game.player.y sprites.player_sprite.height
          dir := 2 } ∧
      (game.player.x + sprites.player_sprite.width / 2 < WORD →
        game.player.y + sprites.player_sprite.height < WORD →
        g.bullets[game.num_bullets]? = some
          { x := game.player.x + sprites.player_sprite.width / 2
            y := game.player.y + sprites.player_sprite.height
            dir := 2 }) ∧
      g.bullets.length = game.bullets.length ∧
      (∀ j, j ≠ game.num_bullets → g.bullets[j]? = game.bullets[j]?) ∧
      g.aliens = game.aliens ∧ g.player = game.player ∧ g.num_aliens = game.num_aliens ∧
      g.width = game.width ∧ g.height = game.height ∧
      process_events g sprites false = .ok (g, false)) ∧
    process_events game sprites false = .ok (game, false) := by
  have hw : game.num_bullets < game.bullets.length := by rw [hlen]; exact hn
  have hu : uadd game.num_bullets 1 = game.num_bullets + 1 :=
    uadd_eq (by simp only [WORD, GAME_MAX_BULLETS] at hn ⊢; omega)
  have hfalse : ∀ g : Game, process_events g sprites false = .ok (g, false) := by
    intro g
    unfold process_events
    rw [if_neg]
    · rfl
    · intro h
      exact Bool.noConfusion h.1
  refine ⟨⟨{ game with
      bullets := game.bullets.set game.num_bullets
        { x := uadd game.player.x (sprites.player_sprite.width / 2)
          y := uadd game.player.y sprites.player_sprite.height
          dir := 2 }
      num_bullets := game.num_bullets + 1 }, ?_, rfl, ?_, ?_, ?_, ?_, rfl, rfl, rfl, rfl, rfl,
      hfalse _⟩, hfalse game⟩
  · unfold process_events
    rw [if_pos ⟨rfl, hn⟩, write_eq_ok _ hw, ok_bind, hu]
    rfl
  · exact List.getElem?_set_self hw
  · intro hx hy
    show (game.bullets.set _ _)[game.num_bullets]? = _
    rw [List.getElem?_set_self hw, uadd_eq hx, uadd_eq hy]
  · exact List.length_set _ _ _
  · intro j hj
    exact List.getElem?_set_ne (Ne.symm hj)

set_option maxRecDepth 100000 in
/-- C14 for an empty pool and the player at `(295, 32)`: the bullet appears at
`(300, 39)`. -/
theorem process_events_spawn_witness :
    (∃ g, process_events (game_with [] 0 []) init_sprites true = .ok (g, false) ∧
      g.num_bullets = 0 + 1 ∧
      g.bullets[0]? = some { x := uadd 295 (11 / 2), y := uadd 32 7, dir := 2 } ∧
      ((295 : Nat) + 11 / 2 < WORD → (32 : Nat) + 7 < WORD →
        g.bullets[0]? = some { x := 295 + 11 / 2, y := 32 + 7, dir := 2 }) ∧
      g.bullets.length = (game_with [] 0 []).bullets.length ∧
      (∀ j, j ≠ 0 → g.bullets[j]? = (game_with [] 0 []).bullets[j]?) ∧
      g.aliens = [] ∧ g.player = ⟨295, 32, 3⟩ ∧ g.num_aliens = 0 ∧
      g.width = 600 ∧ g.height = 400 ∧
      process_events g init_sprites false = .ok (g, false)) ∧
    process_events (game_with [] 0 []) init_sprites false = .ok (game_with [] 0 [], false) :=
  process_events_spawn (game_with [] 0 []) init_sprites (by decide) (by decide)

/-! ## The animation clock -/

/-- C17: for an animation with `num_frames > 0`, `frame_duration > 0` and
`time < num_frames * frame_duration`, the frame index `time / frame_duration`
is `< num_frames`; the per-tick update returns, changes only `time`, to
`time + 1` or to 0 when that equals `num_frames * frame_duration`, and keeps
`time < num_frames * frame_duration`; the frame index the code then uses
(`current_sprite` reads `frames[time / frame_duration]`) is `< num_frames`
and equals `(time / frame_duration) mod num_frames`. -/
theorem update_animation_clock (anims : List SpriteAnimation) (i : Nat) (a : SpriteAnimation)
    (ha : anims[i]? = some a) (hnf : 0 < a.num_frames) (hfd : 0 < a.frame_duration)
    (ht : a.time < a.num_frames * a.frame_duration) :
    a.time / a.frame_duration < a.num_frames ∧
    ∃ t, update_animation anims i = .ok (anims.set i { a with time := t }) ∧
      t = (if uadd a.time 1 = umul a.num_frames a.frame_duration then 0 else uadd a.time 1) ∧
      (a.num_frames * a.frame_duration < WORD →
        t = if a.time + 1 = a.num_frames * a.frame_duration then 0 else a.time + 1) ∧
      t < a.num_frames * a.frame_duration ∧
      t / a.frame_duration < a.num_frames ∧
      t / a.frame_duration = (t / a.frame_duration) % a.num_frames ∧
      current_sprite (anims.set i { a with time := t }) (i + 1) =
        read a.frames (t / a.frame_duration) := by
  have hlt : i < anims.length := (List.getElem?_eq_some_iff.mp ha).1
  have hdiv : ∀ t, t < a.num_frames * a.frame_duration → t / a.frame_duration < a.num_frames :=
    fun t h => (Nat.div_lt_iff_lt_mul hfd).mpr h
  have hbound : (if uadd a.time 1 = umul a.num_frames a.frame_duration then 0 else uadd a.time 1)
      < a.num_frames * a.frame_duration := by
    split
    · exact Nat.mul_pos hnf hfd
    · rename_i hne
      by_cases hw : a.num_frames * a.frame_duration < WORD
      · rw [umul_eq hw] at hne
        have h1 : a.time + 1 < WORD := by omega
        rw [uadd_eq h1] at hne ⊢
        omega
      · have : uadd a.time 1 < WORD := Nat.mod_lt _ (by decide)
        omega
  refine ⟨hdiv _ ht, _, ?_, rfl, ?_, hbound, hdiv _ hbound,
    (Nat.mod_eq_of_lt (hdiv _ hbound)).symm, ?_⟩
  · unfold update_animation
    rw [read_eq_ok ha, ok_bind]
    simp only
    split
    · rw [write_eq_ok _ hlt]
    · rw [write_eq_ok _ hlt]
  · intro hw
    have h1 : a.time + 1 < WORD := by omega
    rw [umul_eq hw, uadd_eq h1]
  · unfold current_sprite
    rw [Nat.add_sub_cancel, read_eq_ok (List.getElem?_set_self hlt), ok_bind]
    rw [if_neg (by show ¬ a.frame_duration = 0; omega)]

/-- C17 for a two-frame animation of duration 10 at `time = 19`, the last
tick of its second frame: the update resets `time` to 0 and the frame index
goes back to 0. -/
theorem update_animation_clock_witness :
    (19 : Nat) / 10 < 2 ∧
    ∃ t, update_animation [⟨true, 2, 10, 19, [⟨1, 1, [1]⟩, ⟨1, 1, [0]⟩]⟩] 0 =
        .ok [⟨true, 2, 10, t, [⟨1, 1, [1]⟩, ⟨1, 1, [0]⟩]⟩] ∧
      t = (if uadd 19 1 = umul 2 10 then 0 else uadd 19 1) ∧
      (2 * 10 < WORD → t = if 19 + 1 = 2 * 10 then 0 else 19 + 1) ∧
      t < 2 * 10 ∧ t / 10 < 2 ∧ t / 10 = (t / 10) % 2 ∧
      current_sprite [⟨true, 2, 10, t, [⟨1, 1, [1]⟩, ⟨1, 1, [0]⟩]⟩] (0 + 1) =
        read [(⟨1, 1, [1]⟩ : Sprite), ⟨1, 1, [0]⟩] (t / 10) :=
  update_animation_clock [⟨true, 2, 10, 19, [⟨1, 1, [1]⟩, ⟨1, 1, [0]⟩]⟩] 0
    ⟨true, 2, 10, 19, [⟨1, 1, [1]⟩, ⟨1, 1, [0]⟩]⟩ rfl (by decide) (by decide) (by decide)

/-! ## `simulate_player` and `key_callback` -/

theorem to_int_range (z : Int) : -2147483648 ≤ to_int z ∧ to_int z < 2147483648 := by
  unfold to_int
  simp only [INT_RANGE]
  split <;> omega

theorem to_int_of_range {z : Int} (h1 : -2147483648 ≤ z) (h2 : z < 2147483648) :
    to_int z = z := by
  unfold to_int
  simp only [INT_RANGE]
  split <;> omega

theorem to_int_add (a b : Int) : to_int (to_int a + b) = to_int (a + b) := by
  unfold to_int
  simp only [INT_RANGE]
  split <;> split <;> split <;> omega

theorem of_int_nonneg {z : Int} (h1 : 0 ≤ z) (h2 : z < 2147483648) :
    of_int z = z.toNat := by
  unfold of_int
  simp only [WORD]
  congr 1
  omega

theorem of_int_neg {z : Int} (h1 : z < 0) (h2 : -2147483648 ≤ z) :
    (of_int z : Int) = 18446744073709551616 + z := by
  unfold of_int
  simp only [WORD]
  omega

/-- The player stays inside the field: for a field narrower than `2^31` and a
player inside it, `simulate_player` leaves `x` within `[0, width - sprite width]`
and touches nothing else, whatever `move_dir` is. -/
theorem simulate_player_range (game : Game) (sprites : Sprites) (move_dir : Int)
    (hw : game.width < 2147483648) (hs : sprites.player_sprite.width ≤ game.width)
    (hx : game.player.x ≤ game.width - sprites.player_sprite.width) :
    (simulate_player game sprites move_dir).player.x ≤
        game.width - sprites.player_sprite.width ∧
    (simulate_player game sprites move_dir).player.y = game.player.y ∧
    (simulate_player game sprites move_dir).player.life = game.player.life := by
  obtain ⟨p1, p2⟩ := to_int_range (2 * move_dir)
  unfold simulate_player
  simp only
  generalize to_int (2 * move_dir) = pmd at p1 p2
  split
  · split
    · refine ⟨?_, rfl, rfl⟩
      show usub game.width sprites.player_sprite.width ≤ _
      simp only [usub, WORD]
      omega
    · split
      · exact ⟨Nat.zero_le _, rfl, rfl⟩
      · rename_i h1 h2
        refine ⟨?_, rfl, rfl⟩
        show uadd game.player.x (of_int pmd) ≤ _
        have hti : to_int (game.player.x : Int) = game.player.x :=
          to_int_of_range (by omega) (by omega)
        rw [hti] at h2
        by_cases hp : 0 ≤ pmd
        · have e := of_int_nonneg hp p2
          rw [e] at h1 ⊢
          simp only [uadd, WORD] at h1 ⊢
          omega
        · have e := of_int_neg (by omega) p1
          have h3 := to_int_of_range (z := (game.player.x : Int) + pmd) (by omega) (by omega)
          rw [h3] at h2
          simp only [uadd, WORD] at h1 ⊢
          omega
  · exact ⟨hx, rfl, rfl⟩

theorem net_moves_cons (e : Key × Action) (es : List (Key × Action)) :
    net_moves (e :: es) = net_moves [e] + net_moves es := by
  obtain ⟨k, a⟩ := e
  cases k <;> cases a <;> simp [net_moves, List.count_cons] <;> omega

theorem key_callback_move_dir (w : World) (k : Key) (a : Action)
    (h1 : -2147483648 ≤ w.move_dir) (h2 : w.move_dir < 2147483648) :
    (key_callback w k a).move_dir = to_int (w.move_dir + net_moves [(k, a)]) := by
  have h0 : to_int w.move_dir = w.move_dir := to_int_of_range h1 h2
  cases k <;> cases a <;> simp [key_callback, net_moves, List.count_cons, h0] <;> rfl

theorem poll_events_move_dir (events : List (Key × Action)) :
    ∀ w : World, -2147483648 ≤ w.move_dir → w.move_dir < 2147483648 →
      (poll_events w events).move_dir = to_int (w.move_dir + net_moves events) := by
  induction events with
  | nil =>
    intro w h1 h2
    show w.move_dir = to_int (w.move_dir + net_moves [])
    have : net_moves [] = 0 := by simp [net_moves]
    rw [this, Int.add_zero, to_int_of_range h1 h2]
  | cons e es ih =>
    intro w h1 h2
    have hk := key_callback_move_dir w e.1 e.2 h1 h2
    have hr := to_int_range (w.move_dir + net_moves [(e.1, e.2)])
    show (poll_events (key_callback w e.1 e.2) es).move_dir = _
    rw [ih _ (by rw [hk]; exact hr.1) (by rw [hk]; exact hr.2), hk, to_int_add,
      net_moves_cons e es, Int.add_assoc]

theorem key_callback_sprites (w : World) (key : Key) (action : Action) :
    (key_callback w key action).sprites = w.sprites := by
  cases key <;> cases action <;> rfl

/-- C12, the code at a failing input.  The player stands at the left edge
(`x = 0`) of the 600-wide field and `move_dir` is -6, a move to the left by 12:
the first test of `simulate_player` adds the step to `x + width = 11` in
`size_t`, the sum wraps to `2^64 - 1 >= 600`, and the player is put at the right
bound 589.  With `move_dir = -5` the same player stays at 0. -/
theorem left_move_jumps_right :
    left_edge.player.x = 0 ∧ left_edge.width = 600 ∧
    init_sprites.player_sprite.width = 11 ∧
    uadd (uadd 0 11) (of_int (to_int (2 * -6))) = 18446744073709551615 ∧
    (simulate_player left_edge init_sprites (-6)).player.x = 589 ∧
    (simulate_player left_edge init_sprites (-5)).player.x = 0 := by
  decide

/-- C15: Scenario E.  From `move_dir = 0`, left-press then right-press leave
`move_dir` at 0 and `simulate_player` returns the game unchanged; a following
left-release makes `move_dir` 1, and `simulate_player` then moves a player
that is inside a field narrower than `2^31` to the right only: `x` becomes
`x + 2`, or the right bound `width - sprite width` when `x + 2` would pass it,
`y` and `life` keeping their values.  After any sequence of key events
`move_dir` is the 32-bit `int` value of (right presses - right releases) -
(left presses - left releases), which is that number itself whenever it fits
an `int`. -/
theorem scenario_E (w : World) (events : List (Key × Action))
    (hm : w.move_dir = 0)
    (hw : w.game.width < 2147483648) (hs : w.sprites.player_sprite.width ≤ w.game.width)
    (hx : w.game.player.x ≤ w.game.width - w.sprites.player_sprite.width) :
    (key_callback (key_callback w .left .press) .right .press).move_dir = 0 ∧
    simulate_player (key_callback (key_callback w .left .press) .right .press).game
      (key_callback (key_callback w .left .press) .right .press).sprites
      (key_callback (key_callback w .left .press) .right .press).move_dir = w.game ∧
    (key_callback (key_callback (key_callback w .left .press) .right .press)
      .left .release).move_dir = 1 ∧
    (simulate_player w.game w.sprites 1).player.x =
      (if w.game.player.x + w.sprites.player_sprite.width + 2 ≥ w.game.width
       then w.game.width - w.sprites.player_sprite.width else w.game.player.x + 2) ∧
    w.game.player.x ≤ (simulate_player w.game w.sprites 1).player.x ∧
    (simulate_player w.game w.sprites 1).player.y = w.game.player.y ∧
    (simulate_player w.game w.sprites 1).player.life = w.game.player.life ∧
    (poll_events w events).move_dir = to_int (net_moves events) ∧
    (-2147483648 ≤ net_moves events → net_moves events < 2147483648 →
      (poll_events w events).move_dir = net_moves events) := by
  have hx2 : (simulate_player w.game w.sprites 1).player.x =
      (if w.game.player.x + w.sprites.player_sprite.width + 2 ≥ w.game.width
       then w.game.width - w.sprites.player_sprite.width else w.game.player.x + 2) := by
    have e1 : to_int (2 * 1) = 2 := by decide
    have e2 : of_int 2 = 2 := by decide
    unfold simulate_player
    simp only [e1, e2]
    rw [if_pos (by decide)]
    have hti : to_int (w.game.player.x : Int) = w.game.player.x :=
      to_int_of_range (by omega) (by omega)
    rw [hti]
    by_cases hc : w.game.player.x + w.sprites.player_sprite.width + 2 ≥ w.game.width
    · have hc' : uadd (uadd w.game.player.x w.sprites.player_sprite.width) 2 ≥ w.game.width := by
        simp only [uadd, WORD]
        omega
      rw [if_pos hc', if_pos hc]
      show usub w.game.width w.sprites.player_sprite.width = _
      simp only [usub, WORD]
      omega
    · have hc' : ¬ uadd (uadd w.game.player.x w.sprites.player_sprite.width) 2 ≥ w.game.width := by
        simp only [uadd, WORD]
        omega
      have h3 := to_int_of_range (z := (w.game.player.x : Int) + 2) (by omega) (by omega)
      rw [if_neg hc', if_neg hc, h3, if_neg (by omega)]
      show uadd w.game.player.x 2 = _
      simp only [uadd, WORD]
      omega
  have hmono : w.game.player.x ≤ (simulate_player w.game w.sprites 1).player.x := by
    rw [hx2]
    split <;> omega
  have hp := poll_events_move_dir events w (by rw [hm]; decide) (by rw [hm]; decide)
  rw [hm, Int.zero_add] at hp
  have h1 : (key_callback (key_callback w .left .press) .right .press).move_dir = 0 := by
    show to_int (to_int (w.move_dir - 1) + 1) = 0
    rw [hm]
    decide
  have h2 : (key_callback (key_callback (key_callback w .left .press) .right .press)
      .left .release).move_dir = 1 := by
    show to_int (to_int (to_int (w.move_dir - 1) + 1) + 1) = 1
    rw [hm]
    decide
  refine ⟨h1, ?_, h2, hx2, hmono, (simulate_player_range w.game w.sprites 1 hw hs hx).2.1,
    (simulate_player_range w.game w.sprites 1 hw hs hx).2.2, hp, ?_⟩
  · rw [h1, key_callback_game, key_callback_game, key_callback_sprites, key_callback_sprites]
    unfold simulate_player
    have e0 : to_int (2 * 0) = 0 := by decide
    simp only [e0]
    rw [if_neg (by decide)]
  · intro a b
    rw [hp, to_int_of_range a b]

/-- C15 for the player of the program at `x = 295` and the events left-press,
right-press, left-release. -/
theorem scenario_E_witness :
    (key_callback (key_callback demo_world .left .press) .right .press).move_dir = 0 ∧
    simulate_player (key_callback (key_callback demo_world .left .press) .right .press).game
      (key_callback (key_callback demo_world .left .press) .right .press).sprites
      (key_callback (key_callback demo_world .left .press) .right .press).move_dir
      = demo_world.game ∧
    (key_callback (key_callback (key_callback demo_world .left .press) .right .press)
      .left .release).move_dir = 1 ∧
    (simulate_player demo_world.game demo_world.sprites 1).player.x =
      (if 295 + 11 + 2 ≥ 600 then 600 - 11 else 295 + 2) ∧
    295 ≤ (simulate_player demo_world.game demo_world.sprites 1).player.x ∧
    (simulate_player demo_world.game demo_world.sprites 1).player.y = 32 ∧
    (simulate_player demo_world.game demo_world.sprites 1).player.life = 3 ∧
    (poll_events demo_world
      [(.left, .press), (.right, .press), (.left, .release)]).move_dir =
      to_int (net_moves [(.left, .press), (.right, .press), (.left, .release)]) ∧
    (-2147483648 ≤ net_moves [(.left, .press), (.right, .press), (.left, .release)] →
      net_moves [(.left, .press), (.right, .press), (.left, .release)] < 2147483648 →
      (poll_events demo_world [(.left, .press), (.right, .press), (.left, .release)]).move_dir =
        net_moves [(.left, .press), (.right, .press), (.left, .release)]) :=
  scenario_E demo_world [(.left, .press), (.right, .press), (.left, .release)]
    (by decide) (by decide) (by decide) (by decide)

/-! ## The alien drop -/

/-- On an array of `n` aliens the loop of `update_aliens_position` returns the
array with every `y` lowered by 5. -/
theorem drop_aliens_eq (aliens : List Alien) (n : Nat) (hn : aliens.length = n) :
    (List.range n).foldlM drop_alien aliens = .ok (dropped aliens) := by
  obtain ⟨r, hr, hl, hp⟩ := foldlM_range_set_ok drop_alien
    (fun _ a => { a with y := usub a.y 5 }) n
    (fun cur i a _ ha => by
      unfold drop_alien
      rw [read_eq_ok ha, ok_bind, write_eq_ok _ (List.getElem?_eq_some_iff.mp ha).1]
      rfl)
    n aliens (Nat.le_refl _) (by omega)
  rw [hr]
  congr 1
  apply List.ext_getElem?
  intro j
  rw [hp j]
  unfold dropped
  rw [List.getElem?_map]
  split
  · rfl
  · rename_i hj
    have : aliens.length ≤ j := by omega
    rw [List.getElem?_eq_none this]
    rfl

theorem dropped_getElem? (aliens : List Alien) (ai : Nat) (a : Alien)
    (h : aliens[ai]? = some a) :
    (dropped aliens)[ai]? = some { a with y := usub a.y 5 } := by
  unfold dropped
  rw [List.getElem?_map, h]
  rfl

/-- C18 (amended): when `update_aliens_position` applies a drop, on an array
of `num_aliens` aliens, it returns, and every alien, whether DEAD or not, has
moved down by exactly 5 units, toward the player: its `y` has decreased by 5
(in `size_t` arithmetic; by 5 exactly when `y >= 5`), while every alien's `x`
and type, every bullet, `num_bullets`, the player and everything else but the
recorded time of the drop are unchanged. -/
theorem drop_moves_down (w : World) (t1 t2 t3 : Int)
    (hlen : w.game.aliens.length = w.game.num_aliens)
    (hdue : t2 - (if w.last_update_time = 0 then t1 else w.last_update_time) > 3) :
    update_aliens_position w t1 t2 t3 =
      .ok { w with last_update_time := t3
                   game := { w.game with aliens := dropped w.game.aliens } } ∧
    (dropped w.game.aliens).length = w.game.aliens.length ∧
    ∀ (ai : Nat) (a : Alien), w.game.aliens[ai]? = some a →
      ∃ a', (dropped w.game.aliens)[ai]? = some a' ∧
        a'.x = a.x ∧ a'.type = a.type ∧ a'.y = usub a.y 5 ∧
        (5 ≤ a.y → a.y < WORD → a'.y + 5 = a.y) := by
  refine ⟨?_, by unfold dropped; exact List.length_map _ _, ?_⟩
  · unfold update_aliens_position
    simp only
    rw [if_pos hdue, drop_aliens_eq _ _ hlen, ok_bind]
    rfl
  · intro ai a ha
    refine ⟨{ a with y := usub a.y 5 }, dropped_getElem? _ ai a ha, rfl, rfl, rfl, ?_⟩
    · intro h5 hw
      show usub a.y 5 + 5 = a.y
      simp only [usub, WORD] at hw ⊢
      omega

/-- The amended C18 for a first call at second 0 followed by a reading of
second 4: the alien at `y = 128` is moved to `y = 123`. -/
theorem drop_moves_down_witness :
    update_aliens_position (world_with (game_with [⟨10, 128, ALIEN_TYPE_C⟩] 0 []) [10]) 0 4 4 =
      .ok { world_with (game_with [⟨10, 128, ALIEN_TYPE_C⟩] 0 []) [10] with
            last_update_time := 4
            game := { game_with [⟨10, 128, ALIEN_TYPE_C⟩] 0 [] with
                      aliens := dropped [⟨10, 128, ALIEN_TYPE_C⟩] } } ∧
    (dropped [⟨10, 128, ALIEN_TYPE_C⟩]).length = 1 ∧
    ∀ (ai : Nat) (a : Alien), [(⟨10, 128, ALIEN_TYPE_C⟩ : Alien)][ai]? = some a →
      ∃ a', (dropped [⟨10, 128, ALIEN_TYPE_C⟩])[ai]? = some a' ∧
        a'.x = a.x ∧ a'.type = a.type ∧ a'.y = usub a.y 5 ∧
        (5 ≤ a.y → a.y < WORD → a'.y + 5 = a.y) :=
  drop_moves_down (world_with (game_with [⟨10, 128, ALIEN_TYPE_C⟩] 0 []) [10]) 0 4 4
    (by decide) (by decide)

set_option maxRecDepth 100000 in
/-- C18 as stated fails: a drop takes the alien at `y = 128` to `y = 123`,
not to `y = 133`. -/
theorem drop_lowers_y :
    update_aliens_position (world_with (game_with [⟨10, 128, ALIEN_TYPE_C⟩] 0 []) [10]) 0 4 4 =
      .ok { world_with (game_with [⟨10, 123, ALIEN_TYPE_C⟩] 0 []) [10] with
            last_update_time := 4 } ∧
    (123 : Nat) ≠ 128 + 5 := by
  decide

/-- C19 (amended): the clock reading being an explicit input `t` of
`update_aliens_position` (whole seconds, the same for the three readings of a
call): once a last-drop time `t0` has been recorded, a call at time `t` applies
the alien drop and records `t` as the new last-drop time if `t - t0 > 3`,
that is after at least 4 whole seconds; otherwise it returns the world
unchanged, stored time included.  The decision depends on `t` and `t0`
only. -/
theorem drop_decision (w : World) (t0 t : Int)
    (hlen : w.game.aliens.length = w.game.num_aliens)
    (h0 : w.last_update_time = t0) (hrec : t0 ≠ 0) :
    (t - t0 > 3 →
      update_aliens_position w t t t =
        .ok { w with last_update_time := t
                     game := { w.game with aliens := dropped w.game.aliens } }) ∧
    (¬ t - t0 > 3 → update_aliens_position w t t t = .ok w) := by
  constructor
  · intro h
    refine (drop_moves_down w t t t hlen ?_).1
    rw [h0, if_neg hrec]
    exact h
  · intro h
    unfold update_aliens_position
    simp only
    rw [h0, if_neg hrec, if_neg h, ← h0]
    rfl

set_option maxRecDepth 100000 in
/-- The amended C19 for `t0 = 10` and `t = 14`. -/
theorem drop_decision_witness :
    ((14 : Int) - 10 > 3 →
      update_aliens_position dropped_at_ten 14 14 14 =
        .ok { dropped_at_ten with
              last_update_time := 14
              game := { dropped_at_ten.game with aliens := dropped dropped_at_ten.game.aliens } }) ∧
    (¬ (14 : Int) - 10 > 3 → update_aliens_position dropped_at_ten 14 14 14 = .ok dropped_at_ten) :=
  drop_decision dropped_at_ten 10 14 (by decide) (by decide) (by decide)

set_option maxRecDepth 100000 in
/-- C19 as stated fails at `t - t0 = 3`: with the last drop recorded at second
10, the call at second 13 moves no alien and keeps the stored time, and the
call at second 14 is the first to drop. -/
theorem no_drop_after_three_seconds :
    dropped_at_ten.last_update_time = 10 ∧ (13 : Int) - 10 ≥ 3 ∧
    update_aliens_position dropped_at_ten 13 13 13 = .ok dropped_at_ten ∧
    (∃ w, update_aliens_position dropped_at_ten 14 14 14 = .ok w ∧
      w.last_update_time = 14 ∧
      w.game.aliens = [⟨10, 123, ALIEN_TYPE_C⟩, ⟨64, 123, ALIEN_DEAD⟩]) := by
  refine ⟨by decide, by decide, by decide, _, rfl, by decide, by decide⟩

/-! ## The advance of the bullets -/

set_option maxRecDepth 100000 in
/-- C16, the code at a failing input.  Two live bullets and one alien: the
first bullet is advanced and hits the alien, the second is swapped into slot 0
and `bi` moves on to 1, past the new `num_bullets`.  The second bullet is live
after the loop and stands at `y = 41`, where it stood before the tick, not at
`y = 43`. -/
theorem swapped_bullet_not_advanced :
    bystander_bullet.num_bullets = 2 ∧
    bystander_bullet.bullets[1]? = some ⟨300, 41, 2⟩ ∧
    simulate_bullets init_sprites start_animations bystander_bullet =
      .ok (game_with [⟨10, 128, ALIEN_DEAD⟩] 1 [⟨300, 41, 2⟩, ⟨300, 41, 2⟩]) ∧
    uadd 41 (of_int 2) = 43 := by
  decide

/-! ## The death mask of a killed alien -/

/-- With `alien_mask`, the body of the "draw" loop reads as: skip, or draw the
mask at the alien's position. -/
theorem draw_alien_eq (w : World) (buffer : Buffer) (ai : Nat) :
    draw_alien w buffer ai =
      (do
        let m ← alien_mask w ai
        match m with
        | none => pure buffer
        | some sprite =>
          let alien ← read w.game.aliens ai
          buffer_draw_sprite buffer sprite alien.x alien.y (rgb_to_uint32 128 0 0)) := by
  unfold draw_alien alien_mask
  cases hc : read w.death_counters ai with
  | error e => rfl
  | ok c =>
    simp only [ok_bind]
    by_cases h0 : c = 0
    · simp only [h0, if_true, pure_eq_ok, ok_bind]
    · simp only [h0, if_false]
      cases ha : read w.game.aliens ai with
      | error e => rfl
      | ok alien =>
        simp only [ok_bind]
        by_cases hd : alien.type = ALIEN_DEAD
        · simp only [hd, if_true, pure_eq_ok, ok_bind, ha]
        · simp only [hd, if_false]
          cases hs : current_sprite w.alien_animation alien.type with
          | error e => rfl
          | ok sprite => simp only [ok_bind, pure_eq_ok, ha]

/-- What `update_aliens_position` leaves alone. -/
theorem update_aliens_position_frame {w w' : World} {t1 t2 t3 : Int}
    (hok : w.arrays_ok) (h : update_aliens_position w t1 t2 t3 = .ok w') :
    w'.arrays_ok ∧ w'.sprites = w.sprites ∧ w'.death_counters = w.death_counters ∧
    w'.alien_animation = w.alien_animation ∧
    w'.game.num_aliens = w.game.num_aliens ∧
    ∀ (ai : Nat) (a : Alien), w.game.aliens[ai]? = some a →
      ∃ a', w'.game.aliens[ai]? = some a' ∧ a'.type = a.type ∧ a'.x = a.x := by
  have key : ∀ (last : Int) (v : World),
      (if t2 - last > 3 then do
          let aliens ← (List.range w.game.num_aliens).foldlM drop_alien w.game.aliens
          pure { w with last_update_time := t3, game := { w.game with aliens := aliens } }
        else pure { w with last_update_time := last }) = Except.ok v →
      v.arrays_ok ∧ v.sprites = w.sprites ∧ v.death_counters = w.death_counters ∧
      v.alien_animation = w.alien_animation ∧
      v.game.num_aliens = w.game.num_aliens ∧
      ∀ (ai : Nat) (a : Alien), w.game.aliens[ai]? = some a →
        ∃ a', v.game.aliens[ai]? = some a' ∧ a'.type = a.type ∧ a'.x = a.x := by
    intro last v hv
    split at hv
    · rw [drop_aliens_eq _ _ hok.1, ok_bind] at hv
      cases hv
      refine ⟨⟨?_, hok.2⟩, rfl, rfl, rfl, rfl, ?_⟩
      · show (dropped w.game.aliens).length = _
        unfold dropped
        rw [List.length_map]
        exact hok.1
      · intro ai a ha
        exact ⟨_, dropped_getElem? _ ai a ha, rfl, rfl⟩
    · cases hv
      exact ⟨hok, rfl, rfl, rfl, rfl, fun ai a ha => ⟨a, ha, rfl, rfl⟩⟩
  exact key _ w' h


theorem advance_bullet_num_aliens {game game' : Game} {bi : Nat}
    (h : advance_bullet game bi = .ok game') : game'.num_aliens = game.num_aliens := by
  unfold advance_bullet at h
  obtain ⟨b, _, h⟩ := bind_eq_ok h
  obtain ⟨bs, _, h⟩ := bind_eq_ok h
  cases h
  rfl

theorem remove_bullet_num_aliens {game game' : Game} {bi : Nat}
    (h : remove_bullet game bi = .ok game') : game'.num_aliens = game.num_aliens := by
  unfold remove_bullet at h
  obtain ⟨b, _, h⟩ := bind_eq_ok h
  obtain ⟨bs, _, h⟩ := bind_eq_ok h
  cases h
  rfl

theorem check_hits_num_aliens {sprites : Sprites} {anims : List SpriteAnimation} {bi : Nat}
    {game game' : Game} (h : check_hits sprites anims bi game = .ok game') :
    game'.num_aliens = game.num_aliens := by
  unfold check_hits at h
  exact foldlM_preserves (check_hit sprites anims bi)
    (fun g => g.num_aliens = game.num_aliens)
    (fun b i b' hb hs => (check_hit_only_deaths hs).2.trans hb) _ _ _ rfl h

theorem simulate_bullet_num_aliens {sprites : Sprites} {anims : List SpriteAnimation}
    {game game' : Game} {bi bi' : Nat}
    (h : simulate_bullet sprites anims game bi = .ok (game', bi')) :
    game'.num_aliens = game.num_aliens := by
  unfold simulate_bullet at h
  obtain ⟨g1, h1, h⟩ := bind_eq_ok h
  obtain ⟨b, _, h⟩ := bind_eq_ok h
  rw [← advance_bullet_num_aliens h1]
  split at h
  · obtain ⟨g2, h2, h⟩ := bind_eq_ok h
    cases h
    exact remove_bullet_num_aliens h2
  · obtain ⟨g2, h2, h⟩ := bind_eq_ok h
    cases h
    exact check_hits_num_aliens h2

theorem simulate_bullets_from_num_aliens {sprites : Sprites} {anims : List SpriteAnimation} :
    ∀ (fuel : Nat) (game game' : Game) (bi : Nat),
      simulate_bullets_from sprites anims fuel game bi = .ok game' →
      game'.num_aliens = game.num_aliens := by
  intro fuel
  induction fuel with
  | zero =>
    intro game game' bi h
    unfold simulate_bullets_from at h
    split at h
    · cases h
    · cases h
      rfl
  | succ n ih =>
    intro game game' bi h
    unfold simulate_bullets_from at h
    split at h
    · obtain ⟨p, hp, h⟩ := bind_eq_ok h
      obtain ⟨g1, b1⟩ := p
      exact (ih g1 game' b1 h).trans (simulate_bullet_num_aliens hp)
    · cases h
      rfl

theorem simulate_player_num_aliens (game : Game) (sprites : Sprites) (move_dir : Int) :
    (simulate_player game sprites move_dir).num_aliens = game.num_aliens := by
  unfold simulate_player
  simp only
  split
  · split
    · rfl
    · split <;> rfl
  · rfl

theorem process_events_num_aliens {game game' : Game} {sprites : Sprites} {fire fire' : Bool}
    (h : process_events game sprites fire = .ok (game', fire')) :
    game'.num_aliens = game.num_aliens := by
  unfold process_events at h
  split at h
  · obtain ⟨bs, _, h⟩ := bind_eq_ok h
    cases h
    rfl
  · cases h
    rfl

/-- What the state update of a pass does to the aliens and their counters. -/
theorem update_state_frame {w w' : World} (hok : w.arrays_ok) (h : update_state w = .ok w') :
    w'.arrays_ok ∧ w'.sprites = w.sprites ∧ w'.game.num_aliens = w.game.num_aliens ∧
    only_deaths w.game.aliens w'.game.aliens ∧
    ∀ (ai : Nat) (a : Alien) (c : Nat), w.game.aliens[ai]? = some a →
      w.death_counters[ai]? = some c →
      w'.death_counters[ai]? = some (if a.type = ALIEN_DEAD then c - 1 else c) := by
  have hod := update_state_only_deaths h
  unfold update_state at h
  obtain ⟨anims, _, h⟩ := bind_eq_ok h
  obtain ⟨counters, hc, h⟩ := bind_eq_ok h
  obtain ⟨g1, h1, h⟩ := bind_eq_ok h
  obtain ⟨p, hp, h⟩ := bind_eq_ok h
  obtain ⟨g3, fire⟩ := p
  cases h
  obtain ⟨dc', hdc, hl, hv⟩ := simulate_aliens_eq w.game w.death_counters hok.1 hok.2
  rw [hdc] at hc
  have e : counters = dc' := (Except.ok.inj hc).symm
  subst e
  have hn : g3.num_aliens = w.game.num_aliens := by
    rw [process_events_num_aliens hp, simulate_player_num_aliens]
    exact simulate_bullets_from_num_aliens _ _ _ _ h1
  refine ⟨⟨?_, ?_⟩, rfl, hn, hod, hv⟩
  · show g3.aliens.length = g3.num_aliens
    rw [hn, ← hok.1]
    exact hod.1
  · show counters.length = g3.num_aliens
    rw [hl, hn]
    exact hok.2

theorem key_callback_frame (w : World) (key : Key) (action : Action) :
    (key_callback w key action).sprites = w.sprites ∧
    (key_callback w key action).death_counters = w.death_counters ∧
    (key_callback w key action).alien_animation = w.alien_animation := by
  cases key <;> cases action <;> exact ⟨rfl, rfl, rfl⟩

theorem poll_events_frame (events : List (Key × Action)) (w : World) :
    (poll_events w events).sprites = w.sprites ∧
    (poll_events w events).death_counters = w.death_counters ∧
    (poll_events w events).alien_animation = w.alien_animation := by
  unfold poll_events
  induction events generalizing w with
  | nil => exact ⟨rfl, rfl, rfl⟩
  | cons e es ih =>
    rw [List.foldl_cons]
    obtain ⟨h1, h2, h3⟩ := ih (key_callback w e.1 e.2)
    obtain ⟨k1, k2, k3⟩ := key_callback_frame w e.1 e.2
    exact ⟨h1.trans k1, h2.trans k2, h3.trans k3⟩

/-- What one pass of the main loop does to an alien and its death counter. -/
theorem main_loop_body_frame {w w' : World} {buffer buffer' : Buffer}
    {clear_color : Nat} {inp : FrameInput} (hok : w.arrays_ok)
    (h : main_loop_body w buffer clear_color inp = .ok (w', buffer')) :
    w'.arrays_ok ∧ w'.sprites = w.sprites ∧ w'.game.num_aliens = w.game.num_aliens ∧
    ∀ (ai : Nat) (a : Alien) (c : Nat), w.game.aliens[ai]? = some a →
      w.death_counters[ai]? = some c →
      w'.death_counters[ai]? = some (if a.type = ALIEN_DEAD then c - 1 else c) ∧
      (a.type = ALIEN_DEAD → ∃ a', w'.game.aliens[ai]? = some a' ∧ a'.type = ALIEN_DEAD) := by
  have hod := main_loop_body_only_deaths h
  unfold main_loop_body at h
  obtain ⟨b1, _, h⟩ := bind_eq_ok h
  obtain ⟨w1, h1, h⟩ := bind_eq_ok h
  obtain ⟨b2, _, h⟩ := bind_eq_ok h
  obtain ⟨w2, h2, h⟩ := bind_eq_ok h
  cases h
  obtain ⟨ok1, s1, d1, _, n1, t1⟩ := update_aliens_position_frame hok h1
  obtain ⟨ok2, s2, n2, _, v2⟩ := update_state_frame ok1 h2
  obtain ⟨ps, pd, _⟩ := poll_events_frame inp.events w2
  have pg := poll_events_game inp.events w2
  refine ⟨⟨?_, ?_⟩, ?_, ?_, ?_⟩
  · rw [pg]; exact ok2.1
  · rw [pg, pd]; exact ok2.2
  · rw [ps, s2, s1]
  · rw [pg, n2, n1]
  · intro ai a c ha hc
    obtain ⟨a1, ha1, ht1, _⟩ := t1 ai a ha
    refine ⟨?_, fun hd => only_deaths_dead hod ai a ha hd⟩
    rw [pd, v2 ai a1 c ha1 (by rw [d1]; exact hc), ht1]


/-- A DEAD alien stays DEAD through any number of passes and its death counter
goes down by one per pass until it is 0. -/
theorem passes_dead_counter (clear_color ai : Nat) :
    ∀ (inputs : List FrameInput) (w0 w : World) (b0 b : Buffer) (a0 : Alien) (c : Nat),
      w0.arrays_ok → w0.game.aliens[ai]? = some a0 → a0.type = ALIEN_DEAD →
      w0.death_counters[ai]? = some c →
      passes clear_color inputs w0 b0 = .ok (w, b) →
      w.arrays_ok ∧ w.sprites = w0.sprites ∧ w.game.num_aliens = w0.game.num_aliens ∧
      (∃ a, w.game.aliens[ai]? = some a ∧ a.type = ALIEN_DEAD) ∧
      w.death_counters[ai]? = some (c - inputs.length) := by
  intro inputs
  induction inputs with
  | nil =>
    intro w0 w b0 b a0 c hok ha hd hc h
    cases h
    exact ⟨hok, rfl, rfl, ⟨a0, ha, hd⟩, hc⟩
  | cons inp rest ih =>
    intro w0 w b0 b a0 c hok ha hd hc h
    unfold passes at h
    obtain ⟨p, hp, h⟩ := bind_eq_ok h
    obtain ⟨w1, b1⟩ := p
    obtain ⟨ok1, s1, n1, v1⟩ := main_loop_body_frame hok hp
    obtain ⟨c1, ⟨a1, ha1, hd1⟩⟩ := (fun x => (⟨x.1, x.2 hd⟩ : _ ∧ _)) (v1 ai a0 c ha hc)
    rw [if_pos hd] at c1
    obtain ⟨ok2, s2, n2, d2, c2⟩ := ih w1 w b1 b a1 (c - 1) ok1 ha1 hd1 c1 h
    refine ⟨ok2, s2.trans s1, n2.trans n1, d2, ?_⟩
    rw [c2, List.length_cons]
    congr 1
    omega

/-! ## The buffer the draw loop returns -/

theorem covers_refl (color : Nat) (b : Buffer) : Buffer.covers color b b :=
  ⟨rfl, rfl, rfl, fun _ h => h⟩

theorem covers_trans {color : Nat} {b1 b2 b3 : Buffer} (h12 : Buffer.covers color b1 b2)
    (h23 : Buffer.covers color b2 b3) : Buffer.covers color b1 b3 :=
  ⟨h23.1.trans h12.1, h23.2.1.trans h12.2.1, h23.2.2.1.trans h12.2.2.1,
    fun i h => h23.2.2.2 i (h12.2.2.2 i h)⟩

theorem covers_valid {color : Nat} {b b' : Buffer} (h : Buffer.covers color b b')
    (hb : b.valid) : b'.valid := by
  unfold Buffer.valid at hb ⊢
  rw [h.1, h.2.1, h.2.2.1]
  exact hb

theorem draw_cell_covers {sprite : Sprite} {x y color xi yi : Nat} {b b' : Buffer}
    (h : draw_cell sprite x y color xi b yi = .ok b') : Buffer.covers color b b' := by
  unfold draw_cell at h
  obtain ⟨t, _, h⟩ := bind_eq_ok h
  cases t with
  | none => cases h; exact covers_refl _ _
  | some idx =>
    obtain ⟨d, hw, h⟩ := bind_eq_ok h
    cases h
    obtain ⟨hlt, rfl⟩ := write_ok hw
    refine ⟨rfl, rfl, List.length_set _ _ _, ?_⟩
    intro i hi
    show (b.data.set idx color)[i]? = some color
    by_cases hii : idx = i
    · subst hii
      rw [List.getElem?_set_self hlt]
    · rw [List.getElem?_set_ne hii]
      exact hi

/-- The buffer `buffer_draw_sprite` returns has the dimensions of the one it
was given, and every pixel that held `color` still holds it. -/
theorem buffer_draw_sprite_covers {sprite : Sprite} {x y color : Nat} {b b' : Buffer}
    (h : buffer_draw_sprite b sprite x y color = .ok b') : Buffer.covers color b b' := by
  unfold buffer_draw_sprite at h
  refine foldlM_preserves (draw_column sprite x y color) (Buffer.covers color b) ?_ _ _ _
    (covers_refl _ _) h
  intro b1 xi b2 hb1 hs
  unfold draw_column at hs
  refine foldlM_preserves (draw_cell sprite x y color xi) (Buffer.covers color b) ?_ _ _ _ hb1 hs
  intro b3 yi b4 hb3 hc
  exact covers_trans hb3 (draw_cell_covers hc)

theorem draw_alien_covers {w : World} {ai : Nat} {b b' : Buffer}
    (h : draw_alien w b ai = .ok b') : Buffer.covers (rgb_to_uint32 128 0 0) b b' := by
  unfold draw_alien at h
  obtain ⟨c, _, h⟩ := bind_eq_ok h
  split at h
  · cases h; exact covers_refl _ _
  · obtain ⟨alien, _, h⟩ := bind_eq_ok h
    split at h
    · exact buffer_draw_sprite_covers h
    · obtain ⟨sprite, _, h⟩ := bind_eq_ok h
      exact buffer_draw_sprite_covers h

theorem draw_aliens_covers {w : World} (l : List Nat) {b b' : Buffer}
    (h : l.foldlM (draw_alien w) b = .ok b') : Buffer.covers (rgb_to_uint32 128 0 0) b b' :=
  foldlM_preserves (draw_alien w) (Buffer.covers (rgb_to_uint32 128 0 0) b)
    (fun _ _ _ h1 h2 => covers_trans h1 (draw_alien_covers h2)) l b b' (covers_refl _ _) h

theorem draw_bullets_covers {w : World} (l : List Nat) {b b' : Buffer}
    (h : l.foldlM (draw_bullet w) b = .ok b') : Buffer.covers (rgb_to_uint32 128 0 0) b b' := by
  refine foldlM_preserves (draw_bullet w) (Buffer.covers (rgb_to_uint32 128 0 0) b)
    ?_ l b b' (covers_refl _ _) h
  intro b1 bi b2 h1 h2
  unfold draw_bullet at h2
  obtain ⟨bullet, _, h2⟩ := bind_eq_ok h2
  exact covers_trans h1 (buffer_draw_sprite_covers h2)

/-- The draw loop of a pass, written out at the alien `ai`: the aliens before
it, the alien, the aliens after it, the bullets, the player. -/
theorem draw_world_split (w : World) (buffer : Buffer) (ai : Nat)
    (hai : ai < w.game.num_aliens) :
    draw_world w buffer =
      (do
        let b1 ← (List.range ai).foldlM (draw_alien w) buffer
        let b2 ← draw_alien w b1 ai
        let b3 ← (List.range' (ai + 1) (w.game.num_aliens - (ai + 1))).foldlM (draw_alien w) b2
        let b4 ← (List.range w.game.num_bullets).foldlM (draw_bullet w) b3
        buffer_draw_sprite b4 w.sprites.player_sprite w.game.player.x w.game.player.y
          (rgb_to_uint32 128 0 0)) := by
  have hr : List.range w.game.num_aliens =
      List.range ai ++ ai :: List.range' (ai + 1) (w.game.num_aliens - (ai + 1)) := by
    have h1 : w.game.num_aliens = (w.game.num_aliens - ai) + ai := by omega
    have h2 : w.game.num_aliens - ai = (w.game.num_aliens - (ai + 1)) + 1 := by omega
    have h3 := List.range'_append_1 0 ai (w.game.num_aliens - ai)
    rw [← h1, Nat.zero_add] at h3
    rw [List.range_eq_range', List.range_eq_range', ← h3, h2, List.range'_succ]
  unfold draw_world
  rw [hr]
  simp only [List.foldlM_append, List.foldlM_cons, bind_assoc]

/-- The draw loop keeps the dimensions of the buffer and every pixel that
holds the color of the sprites. -/
theorem draw_world_covers {w : World} {b b' : Buffer} (h : draw_world w b = .ok b') :
    Buffer.covers (rgb_to_uint32 128 0 0) b b' := by
  unfold draw_world at h
  obtain ⟨b1, h1, h⟩ := bind_eq_ok h
  obtain ⟨b2, h2, h⟩ := bind_eq_ok h
  exact covers_trans (covers_trans (draw_aliens_covers _ h1) (draw_bullets_covers _ h2))
    (buffer_draw_sprite_covers h)

/-- A pass of the main loop returns a valid buffer of the same dimensions when
it is given one. -/
theorem main_loop_body_valid {w w' : World} {b b' : Buffer} {clear_color : Nat}
    {inp : FrameInput} (hb : b.valid) (h : main_loop_body w b clear_color inp = .ok (w', b')) :
    b'.valid ∧ b'.width = b.width ∧ b'.height = b.height := by
  unfold main_loop_body at h
  obtain ⟨b1, hc, h⟩ := bind_eq_ok h
  obtain ⟨w1, _, h⟩ := bind_eq_ok h
  obtain ⟨b2, hd, h⟩ := bind_eq_ok h
  obtain ⟨w2, _, h⟩ := bind_eq_ok h
  cases h
  obtain ⟨bc, k1, k2, k3, k4, _⟩ := buffer_clear_pixels b clear_color hb
  rw [k1] at hc
  cases hc
  have hcov := draw_world_covers hd
  exact ⟨covers_valid hcov k2, hcov.1.trans k3, hcov.2.1.trans k4⟩

theorem passes_valid (clear_color : Nat) :
    ∀ (inputs : List FrameInput) (w0 w : World) (b0 b : Buffer), b0.valid →
      passes clear_color inputs w0 b0 = .ok (w, b) →
      b.valid ∧ b.width = b0.width ∧ b.height = b0.height := by
  intro inputs
  induction inputs with
  | nil =>
    intro w0 w b0 b hb h
    cases h
    exact ⟨hb, rfl, rfl⟩
  | cons inp rest ih =>
    intro w0 w b0 b hb h
    unfold passes at h
    obtain ⟨p, hp, h⟩ := bind_eq_ok h
    obtain ⟨w1, b1⟩ := p
    obtain ⟨v1, d1, d2⟩ := main_loop_body_valid hb hp
    obtain ⟨v2, d3, d4⟩ := ih w1 w b1 b v1 h
    exact ⟨v2, d3.trans d1, d4.trans d2⟩

theorem read_error {α : Type} {xs : List α} {i : Nat} {e : Fault} (h : read xs i = .error e) :
    e = .out_of_bounds := by
  unfold read at h
  split at h
  · cases h
  · cases h; rfl

theorem write_error {α : Type} {xs : List α} {i : Nat} {v : α} {e : Fault}
    (h : write xs i v = .error e) : e = .out_of_bounds := by
  unfold write at h
  split at h
  · cases h
  · cases h; rfl

theorem bind_eq_error {α β : Type} {x : Except Fault α} {f : α → Except Fault β} {e : Fault}
    (h : (x >>= f) = .error e) : x = .error e ∨ ∃ a, x = .ok a ∧ f a = .error e := by
  cases x with
  | error e' => cases h; exact Or.inl rfl
  | ok a => exact Or.inr ⟨a, rfl, h⟩

/-- A loop whose passes fail with an out-of-bounds access only fails with an
out-of-bounds access only. -/
theorem foldlM_error {β ι : Type} (f : β → ι → Except Fault β)
    (hstep : ∀ b i e, f b i = .error e → e = .out_of_bounds) :
    ∀ (l : List ι) (b : β) (e : Fault), l.foldlM f b = .error e → e = .out_of_bounds := by
  intro l
  induction l with
  | nil => intro b e h; cases h
  | cons a l ih =>
    intro b e h
    rw [List.foldlM_cons] at h
    rcases bind_eq_error h with h1 | ⟨b1, _, h2⟩
    · exact hstep b a e h1
    · exact ih b1 e h2

/-- A loop that reaches a pass which fails in every state fails, provided the
passes fail with an out-of-bounds access only. -/
theorem foldlM_faults {β ι : Type} (f : β → ι → Except Fault β) (i : ι)
    (hstep : ∀ b j e, f b j = .error e → e = .out_of_bounds)
    (hi : ∀ b, f b i = .error .out_of_bounds) :
    ∀ (l : List ι) (b : β), i ∈ l → l.foldlM f b = .error .out_of_bounds := by
  intro l
  induction l with
  | nil => intro b h; cases h
  | cons a l ih =>
    intro b h
    rw [List.foldlM_cons]
    cases hfa : f b a with
    | error e => rw [hstep b a e hfa]; rfl
    | ok b1 =>
      rw [ok_bind]
      rcases List.mem_cons.mp h with h1 | h1
      · rw [← h1, hi b] at hfa
        cases hfa
      · exact ih b1 h1

theorem draw_target_error {buffer : Buffer} {sprite : Sprite} {x y xi yi : Nat} {e : Fault}
    (h : draw_target buffer sprite x y xi yi = .error e) : e = .out_of_bounds := by
  unfold draw_target at h
  rcases bind_eq_error h with h1 | ⟨cell, _, h2⟩
  · exact read_error h1
  · split at h2 <;> cases h2

theorem draw_cell_error {sprite : Sprite} {x y color xi yi : Nat} {buffer : Buffer} {e : Fault}
    (h : draw_cell sprite x y color xi buffer yi = .error e) : e = .out_of_bounds := by
  unfold draw_cell at h
  rcases bind_eq_error h with h1 | ⟨t, _, h2⟩
  · exact draw_target_error h1
  · cases t with
    | none => cases h2
    | some idx =>
      rcases bind_eq_error h2 with h3 | ⟨d, _, h4⟩
      · exact write_error h3
      · cases h4

theorem draw_column_error {sprite : Sprite} {x y color xi : Nat} {buffer : Buffer} {e : Fault}
    (h : draw_column sprite x y color buffer xi = .error e) : e = .out_of_bounds :=
  foldlM_error (draw_cell sprite x y color xi) (fun _ _ _ h1 => draw_cell_error h1) _ buffer e h

/-- A mask read outside the data array makes `buffer_draw_sprite` fail, whatever
the buffer, the position and the color. -/
theorem buffer_draw_sprite_overrun (buffer : Buffer) (sprite : Sprite) (x y color xi yi : Nat)
    (hx : xi < sprite.width) (hy : yi < sprite.height)
    (hr : read sprite.data (uadd (umul yi sprite.width) xi) = .error .out_of_bounds) :
    buffer_draw_sprite buffer sprite x y color = .error .out_of_bounds := by
  have hcell : ∀ b, draw_cell sprite x y color xi b yi = .error .out_of_bounds := by
    intro b
    unfold draw_cell draw_target
    rw [hr]
    rfl
  have hcol : ∀ b, draw_column sprite x y color b xi = .error .out_of_bounds := fun b =>
    foldlM_faults (draw_cell sprite x y color xi) yi (fun _ _ _ h1 => draw_cell_error h1) hcell
      _ b (List.mem_range.mpr hy)
  exact foldlM_faults (draw_column sprite x y color) xi (fun _ _ _ h1 => draw_column_error h1)
    hcol _ buffer (List.mem_range.mpr hx)

/-! ## The sprites of `init_sprites` and the initial aliens -/

set_option maxRecDepth 100000 in
/-- C21, the code at the failing sprite.  The first alien frame of
`init_sprites` has width 20 and height 8 and a data array of 64 entries, not
`20 * 8 = 160`: the mask read `data[yi * width + xi]` for `xi = 0 < width`,
`yi = 4 < height` is the read of `data[80]`, outside the array, and
`buffer_draw_sprite` with this mask makes it, whatever the buffer, the position
and the color.  The draw loop of the first pass of `main` draws alien 55 with
this mask.  The other eight sprites have `width * height` entries. -/
theorem first_alien_frame_overrun (buffer : Buffer) (x y color : Nat) :
    init_sprites.alien_sprites[0]? = some first_alien_frame ∧
    first_alien_frame.width = 20 ∧ first_alien_frame.height = 8 ∧
    first_alien_frame.data.length = 64 ∧ ¬ first_alien_frame.valid ∧
    read first_alien_frame.data (uadd (umul 4 first_alien_frame.width) 0) =
      .error .out_of_bounds ∧
    buffer_draw_sprite buffer first_alien_frame x y color = .error .out_of_bounds ∧
    initial_world = .ok start_world ∧
    alien_mask start_world 55 = .ok (some first_alien_frame) ∧
    draw_alien start_world buffer 55 = .error .out_of_bounds ∧
    ∀ s ∈ later_sprites, s.valid := by
  have hd : ∀ x1 y1 c, buffer_draw_sprite buffer first_alien_frame x1 y1 c =
      .error .out_of_bounds := fun x1 y1 c =>
    buffer_draw_sprite_overrun buffer _ x1 y1 c 0 4 (by decide) (by decide) (by decide)
  have hm : alien_mask start_world 55 = .ok (some first_alien_frame) := by decide
  have ha : read start_world.game.aliens 55 = .ok ⟨9223372036854775814, 213, ALIEN_TYPE_A⟩ := by
    decide
  refine ⟨by decide, by decide, by decide, by decide, by decide, by decide, hd x y color, by decide,
    hm, ?_, by decide⟩
  rw [draw_alien_eq, hm, ok_bind]
  show (read start_world.game.aliens 55 >>= _) = _
  rw [ha, ok_bind]
  exact hd _ _ _

set_option maxRecDepth 100000 in
/-- C22, the code at the failing aliens.  After `prepare_game`, `init_sprites`
and `init_aliens` the 66 aliens have types A, B or C, and the 55 aliens of
rows 0 to 4 lie inside the 600x400 buffer; but the 11 aliens of row 5, of
type A, do not: the first frame of their animation has width 20, the
centering offset `(13 - 20) / 2` wraps around to `2^63 - 4`, and alien 55 is
placed at `x = 2^63 + 6`. -/
theorem type_a_row_outside :
    initial_world = .ok start_world ∧
    start_world.game.num_aliens = 66 ∧ start_world.game.aliens.length = 66 ∧
    start_world.game.width = 600 ∧ start_world.game.height = 400 ∧
    (∀ a ∈ start_world.game.aliens,
      a.type = ALIEN_TYPE_A ∨ a.type = ALIEN_TYPE_B ∨ a.type = ALIEN_TYPE_C) ∧
    (∀ a ∈ start_world.game.aliens.take 55, a.type ≠ ALIEN_TYPE_A ∧ alien_inside start_world a) ∧
    (∀ a ∈ start_world.game.aliens.drop 55,
      a.type = ALIEN_TYPE_A ∧ ¬ alien_inside start_world a ∧ 9223372036854775808 ≤ a.x) ∧
    usub init_sprites.alien_death_sprite.width 20 / 2 = 9223372036854775804 ∧
    start_world.game.aliens[55]? = some ⟨9223372036854775814, 213, ALIEN_TYPE_A⟩ := by
  decide

/-! ## The bullet count -/

/-- A loop each of whose passes returns and keeps `I`, on states that satisfy
`I`, returns and keeps `I`. -/
theorem foldlM_ok {β ι : Type} (f : β → ι → Except Fault β) (I : β → Prop) (P : ι → Prop)
    (hstep : ∀ b i, I b → P i → ∃ b', f b i = .ok b' ∧ I b') :
    ∀ (l : List ι) (b : β), I b → (∀ i ∈ l, P i) → ∃ b', l.foldlM f b = .ok b' ∧ I b' := by
  intro l
  induction l with
  | nil => intro b hb _; exact ⟨b, rfl, hb⟩
  | cons a l ih =>
    intro b hb hP
    obtain ⟨b1, h1, h2⟩ := hstep b a hb (hP a (List.mem_cons_self a l))
    obtain ⟨b2, h3, h4⟩ := ih b1 h2 (fun i hi => hP i (List.mem_cons_of_mem a hi))
    refine ⟨b2, ?_, h4⟩
    rw [List.foldlM_cons, h1]
    exact h3

theorem update_animation_eq (anims : List SpriteAnimation) (i : Nat) (a : SpriteAnimation)
    (ha : anims[i]? = some a) :
    update_animation anims i = .ok (anims.set i { a with time := next_time a }) := by
  have hlt : i < anims.length := (List.getElem?_eq_some_iff.mp ha).1
  unfold update_animation next_time
  rw [read_eq_ok ha, ok_bind]
  simp only
  split
  · rw [write_eq_ok _ hlt]
  · rw [write_eq_ok _ hlt]

/-- The "update animations" loop returns when the array has three entries or
more; it changes the clocks of the first three animations and nothing else. -/
theorem update_animations_eq (anims : List SpriteAnimation) (h3 : 3 ≤ anims.length) :
    ∃ r, update_animations anims = .ok r ∧ r.length = anims.length ∧
      ∀ j, r[j]? = if j < 3 then (anims[j]?).map (fun a => { a with time := next_time a })
                   else anims[j]? :=
  foldlM_range_set_ok update_animation (fun _ a => { a with time := next_time a }) 3
    (fun cur i a _ ha => update_animation_eq cur i a ha) 3 anims (Nat.le_refl _) h3

theorem next_time_lt (a : SpriteAnimation) (h : a.ticking) :
    next_time a < a.num_frames * a.frame_duration := by
  obtain ⟨hnf, hfd, ht, _⟩ := h
  unfold next_time
  split
  · exact Nat.mul_pos hnf hfd
  · rename_i hne
    by_cases hw : a.num_frames * a.frame_duration < WORD
    · rw [umul_eq hw] at hne
      have h1 : a.time + 1 < WORD := by omega
      rw [uadd_eq h1] at hne ⊢
      omega
    · have : uadd a.time 1 < WORD := Nat.mod_lt _ (by decide)
      omega

/-- The sprite of a ticking animation, read with any clock below
`num_frames * frame_duration`, is one of its frames. -/
theorem current_sprite_ticking (anims : List SpriteAnimation) (type : Nat)
    (a : SpriteAnimation) (ha : anims[type - 1]? = some a)
    (hfd : 0 < a.frame_duration) (ht : a.time / a.frame_duration < a.frames.length) :
    ∃ s, current_sprite anims type = .ok s ∧ s ∈ a.frames := by
  refine ⟨a.frames[a.time / a.frame_duration], ?_, List.getElem_mem _⟩
  unfold current_sprite
  rw [read_eq_ok ha, ok_bind, if_neg (by omega)]
  exact read_eq_ok (List.getElem?_eq_getElem ht)

/-- After the "update animations" loop every alien type whose animation was
ticking has a current sprite, one of the frames of its animation. -/
theorem current_sprite_after {anims r : List SpriteAnimation} {type : Nat}
    (hr : ∀ j, r[j]? = if j < 3 then (anims[j]?).map (fun a => { a with time := next_time a })
                       else anims[j]?)
    (h : type_ticking anims type) :
    ∃ s, current_sprite r type = .ok s ∧ s ∈ frames_of anims type := by
  unfold type_ticking at h
  unfold frames_of
  cases ha : anims[type - 1]? with
  | none => rw [ha] at h; exact h.elim
  | some a =>
    rw [ha] at h
    simp only
    have hdiv : ∀ t, t < a.num_frames * a.frame_duration → t / a.frame_duration < a.frames.length :=
      fun t ht => Nat.lt_of_lt_of_le ((Nat.div_lt_iff_lt_mul h.2.1).mpr ht) h.2.2.2
    have hj := hr (type - 1)
    rw [ha] at hj
    by_cases h3 : type - 1 < 3
    · rw [if_pos h3] at hj
      exact current_sprite_ticking r type { a with time := next_time a } hj h.2.1
        (hdiv _ (next_time_lt a h))
    · rw [if_neg h3] at hj
      exact current_sprite_ticking r type a hj h.2.1 (hdiv _ h.2.2.1)

/-- Two aliens that are `apart` are not both overlapped by the bullet sprite,
wherever it is. -/
theorem apart_sound (bullet : Sprite) (a b : Alien) (sa sb : Sprite) (x y : Nat)
    (h : apart bullet a b sa sb)
    (ha : sprite_overlap_check bullet x y sa a.x a.y = true)
    (hb : sprite_overlap_check bullet x y sb b.x b.y = true) : False := by
  unfold sprite_overlap_check at ha hb
  simp only [ite_eq_left_iff, Bool.false_eq_true, imp_false, not_not, gt_iff_lt] at ha hb
  unfold apart at h
  simp only [uadd, WORD] at ha hb h
  omega

theorem apart_symm (bullet : Sprite) (a b : Alien) (sa sb : Sprite)
    (h : apart bullet a b sa sb) : apart bullet b a sb sa := by
  unfold apart at h ⊢
  omega

/-- Aliens that are pairwise `apart` are `separated`. -/
theorem separated_of_spaced {sprites : Sprites} {anims : List SpriteAnimation}
    {aliens : List Alien} (h : spaced sprites anims aliens) : separated sprites anims aliens := by
  unfold spaced at h
  rw [List.pairwise_iff_getElem] at h
  intro x y i j a b sa sb hi hj hla hlb hsa hsb hoa hob
  obtain ⟨hi1, hi2⟩ := List.getElem?_eq_some_iff.mp hi
  obtain ⟨hj1, hj2⟩ := List.getElem?_eq_some_iff.mp hj
  subst hi2 hj2
  rcases Nat.lt_trichotomy i j with hlt | heq | hgt
  · exact (apart_sound _ _ _ _ _ x y (h i j hi1 hj1 hlt hla hlb sa hsa sb hsb) hoa hob).elim
  · exact heq
  · exact (apart_sound _ _ _ _ _ x y (h j i hj1 hi1 hgt hlb hla sb hsb sa hsa) hob hoa).elim

/-- With animations that tick and aliens that are separated, the check-hit
loop runs in a `calm` state after the "update animations" loop. -/
theorem calm_after {sprites : Sprites} {anims r : List SpriteAnimation} {aliens : List Alien}
    (hr : ∀ j, r[j]? = if j < 3 then (anims[j]?).map (fun a => { a with time := next_time a })
                       else anims[j]?)
    (han : animated anims aliens) (hsep : separated sprites anims aliens) :
    calm sprites r aliens := by
  have hmem : ∀ (i : Nat) (a : Alien), aliens[i]? = some a → a ∈ aliens := by
    intro i a h
    obtain ⟨_, heq⟩ := List.getElem?_eq_some_iff.mp h
    rw [← heq]
    exact List.getElem_mem _
  constructor
  · intro i a hi hl
    obtain ⟨s, hs, _⟩ := current_sprite_after hr (han a (hmem i a hi) hl)
    exact ⟨s, hs⟩
  · intro x y i j a b sa sb hi hj hla hlb hsa hsb hoa hob
    obtain ⟨s1, hs1, hm1⟩ := current_sprite_after hr (han a (hmem i a hi) hla)
    obtain ⟨s2, hs2, hm2⟩ := current_sprite_after hr (han b (hmem j b hj) hlb)
    rw [hs1] at hsa
    rw [hs2] at hsb
    cases hsa
    cases hsb
    exact hsep x y i j a b _ _ hi hj hla hlb hm1 hm2 hoa hob

/-- A `calm` state stays calm when an alien becomes DEAD. -/
theorem calm_kill {sprites : Sprites} {anims : List SpriteAnimation} {aliens : List Alien}
    (h : calm sprites anims aliens) (k : Nat) (d : Alien) (hd : d.type = ALIEN_DEAD) :
    calm sprites anims (aliens.set k d) := by
  have hget : ∀ (i : Nat) (a : Alien), (aliens.set k d)[i]? = some a → a.type ≠ ALIEN_DEAD →
      aliens[i]? = some a := by
    intro i a hi hl
    by_cases hki : k = i
    · subst hki
      by_cases hlt : k < aliens.length
      · rw [List.getElem?_set_self hlt] at hi
        cases hi
        exact (hl hd).elim
      · rw [List.getElem?_eq_none (by rw [List.length_set]; omega)] at hi
        cases hi
    · rw [List.getElem?_set_ne hki] at hi
      exact hi
  constructor
  · intro i a hi hl
    exact h.1 i a (hget i a hi hl) hl
  · intro x y i j a b sa sb hi hj hla hlb
    exact h.2 x y i j a b sa sb (hget i a hi hla) (hget j b hj hlb) hla hlb

/-- A pass of the check-hit loop returns and keeps the invariant of the
loop. -/
theorem check_hit_ok {sprites : Sprites} {anims : List SpriteAnimation} {bi n0 num : Nat}
    (hbi : bi < GAME_MAX_BULLETS) (hn0 : n0 ≤ GAME_MAX_BULLETS) (g : Game) (ai : Nat)
    (h : hit_inv sprites anims bi n0 num g) (hai : ai < num) :
    ∃ g', check_hit sprites anims bi g ai = .ok g' ∧ hit_inv sprites anims bi n0 num g' := by
  have h128 : GAME_MAX_BULLETS = 128 := rfl
  obtain ⟨⟨hpool, hal, hcalm⟩, hnum, hle, hslot⟩ := h
  have hia : ai < g.aliens.length := by omega
  have ha : g.aliens[ai]? = some g.aliens[ai] := List.getElem?_eq_getElem hia
  have hib : bi < g.bullets.length := by omega
  have hb : g.bullets[bi]? = some g.bullets[bi] := List.getElem?_eq_getElem hib
  unfold check_hit
  rw [read_eq_ok ha, ok_bind]
  by_cases hd : g.aliens[ai].type = ALIEN_DEAD
  · rw [if_pos hd]
    exact ⟨g, rfl, ⟨hpool, hal, hcalm⟩, hnum, hle, hslot⟩
  · rw [if_neg hd]
    obtain ⟨s, hs⟩ := hcalm.1 ai _ ha hd
    rw [hs, ok_bind, read_eq_ok hb, ok_bind]
    simp only
    by_cases hov : sprite_overlap_check sprites.bullet_sprite g.bullets[bi].x g.bullets[bi].y s
        g.aliens[ai].x g.aliens[ai].y = true
    · rw [if_pos hov]
      rcases hslot with hlt | ⟨_, hno⟩
      · have hpos : 0 < g.num_bullets := by omega
        have hw : g.num_bullets < WORD := by simp only [WORD]; omega
        have hu : usub g.num_bullets 1 = g.num_bullets - 1 := usub_one hpos hw
        have hil : g.num_bullets - 1 < g.bullets.length := by omega
        have hl : g.bullets[g.num_bullets - 1]? = some g.bullets[g.num_bullets - 1] :=
          List.getElem?_eq_getElem hil
        rw [write_eq_ok _ hia, ok_bind, hu, read_eq_ok hl, ok_bind, write_eq_ok _ hib, ok_bind]
        refine ⟨_, rfl, ⟨?_, ?_, ?_⟩, hnum, ?_, ?_⟩
        · show (g.bullets.set bi _).length = GAME_MAX_BULLETS
          rw [List.length_set]; exact hpool
        · show (g.aliens.set ai _).length = g.num_aliens
          rw [List.length_set]; exact hal
        · exact calm_kill hcalm ai _ rfl
        · show g.num_bullets - 1 ≤ n0
          omega
        · by_cases hlast : bi < g.num_bullets - 1
          · exact Or.inl hlast
          · refine Or.inr ⟨?_, ?_⟩
            · show g.num_bullets - 1 = bi
              omega
            · intro b j a s2 hb2 ha2 hl2 hs2
              have hbeq : g.num_bullets - 1 = bi := by omega
              have hb3 : (g.bullets.set bi g.bullets[g.num_bullets - 1])[bi]? = some b := hb2
              rw [List.getElem?_set_self hib] at hb3
              have hbb : b = g.bullets[bi] := by
                cases hb3
                simp only [hbeq]
              have ha3 : (g.aliens.set ai _)[j]? = some a := ha2
              have hji : ai ≠ j := by
                intro hji
                subst hji
                rw [List.getElem?_set_self hia] at ha3
                cases ha3
                exact hl2 rfl
              rw [List.getElem?_set_ne hji] at ha3
              cases hres : sprite_overlap_check sprites.bullet_sprite b.x b.y s2 a.x a.y with
              | false => rfl
              | true =>
                rw [hbb] at hres
                exact (hji (hcalm.2 _ _ ai j _ a s s2 ha ha3 hd hl2 hs hs2 hov hres)).elim
      · have := hno _ ai _ s hb ha hd hs
        rw [this] at hov
        cases hov
    · rw [if_neg hov]
      exact ⟨g, rfl, ⟨hpool, hal, hcalm⟩, hnum, hle, hslot⟩

/-- The check-hit loop for a live slot returns; it leaves `num_bullets`
at `bi` or above. -/
theorem check_hits_ok {sprites : Sprites} {anims : List SpriteAnimation} {bi : Nat}
    (g : Game) (h : pool_ok sprites anims g) (hbi : bi < g.num_bullets)
    (hn : g.num_bullets ≤ GAME_MAX_BULLETS) :
    ∃ g', check_hits sprites anims bi g = .ok g' ∧ pool_ok sprites anims g' ∧
      g'.num_bullets ≤ g.num_bullets := by
  unfold check_hits
  obtain ⟨g', h1, h2⟩ := foldlM_ok (check_hit sprites anims bi)
    (hit_inv sprites anims bi g.num_bullets g.num_aliens) (fun i => i < g.num_aliens)
    (fun b i hb hi => check_hit_ok (by omega) hn b i hb hi)
    (List.range g.num_aliens) g ⟨h, rfl, Nat.le_refl _, Or.inl hbi⟩
    (fun i hi => List.mem_range.mp hi)
  exact ⟨g', h1, h2.1, h2.2.2.1⟩

/-- A pass of the bullet loop for a live slot returns and does not raise
`num_bullets`. -/
theorem simulate_bullet_ok {sprites : Sprites} {anims : List SpriteAnimation} {bi : Nat}
    (g : Game) (h : pool_ok sprites anims g) (hbi : bi < g.num_bullets)
    (hn : g.num_bullets ≤ GAME_MAX_BULLETS) :
    ∃ g' bi', simulate_bullet sprites anims g bi = .ok (g', bi') ∧ pool_ok sprites anims g' ∧
      g'.num_bullets ≤ g.num_bullets := by
  have h128 : GAME_MAX_BULLETS = 128 := rfl
  obtain ⟨hpool, hal, hcalm⟩ := h
  have hib : bi < g.bullets.length := by omega
  have hb : g.bullets[bi]? = some g.bullets[bi] := List.getElem?_eq_getElem hib
  obtain ⟨g1, hadv, hlen, hal1, hcalm1, hn1⟩ : ∃ g1, advance_bullet g bi = .ok g1 ∧
      g1.bullets.length = GAME_MAX_BULLETS ∧ g1.aliens.length = g1.num_aliens ∧
      calm sprites anims g1.aliens ∧ g1.num_bullets = g.num_bullets := by
    unfold advance_bullet
    rw [read_eq_ok hb, ok_bind, write_eq_ok _ hib, ok_bind]
    refine ⟨_, rfl, ?_, hal, hcalm, rfl⟩
    show (g.bullets.set bi _).length = GAME_MAX_BULLETS
    rw [List.length_set]; exact hpool
  have hib1 : bi < g1.bullets.length := by omega
  unfold simulate_bullet
  rw [hadv, ok_bind, read_eq_ok (List.getElem?_eq_getElem hib1), ok_bind]
  split
  · have hpos : 0 < g1.num_bullets := by omega
    have hw : g1.num_bullets < WORD := by simp only [WORD]; omega
    have hu : usub g1.num_bullets 1 = g1.num_bullets - 1 := usub_one hpos hw
    have hil : g1.num_bullets - 1 < g1.bullets.length := by omega
    unfold remove_bullet
    rw [hu, read_eq_ok (List.getElem?_eq_getElem hil), ok_bind, write_eq_ok _ hib1, ok_bind]
    refine ⟨_, _, rfl, ⟨?_, hal1, hcalm1⟩, ?_⟩
    · show (g1.bullets.set bi _).length = GAME_MAX_BULLETS
      rw [List.length_set]; exact hlen
    · show g1.num_bullets - 1 ≤ g.num_bullets
      omega
  · obtain ⟨g', h1, h2, h3⟩ := @check_hits_ok sprites anims bi
      g1 ⟨hlen, hal1, hcalm1⟩ (by omega) (by omega)
    rw [h1, ok_bind]
    exact ⟨_, _, rfl, h2, by omega⟩

/-- The bullet loop returns or runs out of fuel; it does not fault. -/
theorem simulate_bullets_from_ok {sprites : Sprites} {anims : List SpriteAnimation} :
    ∀ (fuel : Nat) (g : Game) (bi : Nat), pool_ok sprites anims g →
      g.num_bullets ≤ GAME_MAX_BULLETS →
      (∃ g', simulate_bullets_from sprites anims fuel g bi = .ok g' ∧
        pool_ok sprites anims g' ∧ g'.num_bullets ≤ g.num_bullets) ∨
      simulate_bullets_from sprites anims fuel g bi = .error .out_of_fuel := by
  intro fuel
  induction fuel with
  | zero =>
    intro g bi h hn
    unfold simulate_bullets_from
    split
    · exact Or.inr rfl
    · exact Or.inl ⟨g, rfl, h, Nat.le_refl _⟩
  | succ n ih =>
    intro g bi h hn
    unfold simulate_bullets_from
    split
    · rename_i hbi
      obtain ⟨g1, bi1, h1, h2, h3⟩ := @simulate_bullet_ok sprites anims bi
        g h hbi hn
      rw [h1, ok_bind]
      rcases ih g1 bi1 h2 (by omega) with ⟨g2, k1, k2, k3⟩ | k
      · exact Or.inl ⟨g2, k1, k2, by omega⟩
      · exact Or.inr k
    · exact Or.inl ⟨g, rfl, h, Nat.le_refl _⟩

/-- The bullet loop of a tick returns, with a count that is not larger. -/
theorem simulate_bullets_ok {sprites : Sprites} {anims : List SpriteAnimation}
    (g : Game) (h : pool_ok sprites anims g) (hn : g.num_bullets ≤ GAME_MAX_BULLETS) :
    ∃ g', simulate_bullets sprites anims g = .ok g' ∧ pool_ok sprites anims g' ∧
      g'.num_bullets ≤ g.num_bullets := by
  have h128 : GAME_MAX_BULLETS = 128 := rfl
  have hne := simulate_bullets_ne_fuel sprites anims g (by simp only [WORD]; omega)
    (by rw [h.1]; decide)
  unfold simulate_bullets at hne ⊢
  rcases @simulate_bullets_from_ok sprites anims g.num_bullets g 0 h hn
    with h1 | h1
  · exact h1
  · exact (hne h1).elim

theorem simulate_player_bullets (game : Game) (sprites : Sprites) (move_dir : Int) :
    (simulate_player game sprites move_dir).bullets = game.bullets ∧
    (simulate_player game sprites move_dir).num_bullets = game.num_bullets := by
  unfold simulate_player
  simp only
  split
  · split
    · exact ⟨rfl, rfl⟩
    · split <;> exact ⟨rfl, rfl⟩
  · exact ⟨rfl, rfl⟩

/-- With a pool of 128 slots and at most 128 bullets `process_events`
returns, with at most 128 bullets and at most one more than before. -/
theorem process_events_ok (game : Game) (sprites : Sprites) (fire : Bool)
    (hl : game.bullets.length = GAME_MAX_BULLETS) (hn : game.num_bullets ≤ GAME_MAX_BULLETS) :
    ∃ g fire', process_events game sprites fire = .ok (g, fire') ∧
      g.num_bullets ≤ GAME_MAX_BULLETS ∧ g.num_bullets ≤ game.num_bullets + 1 ∧
      g.bullets.length = GAME_MAX_BULLETS := by
  have h128 : GAME_MAX_BULLETS = 128 := rfl
  unfold process_events
  split
  · rename_i hc
    have hlt : game.num_bullets < game.bullets.length := by rw [hl]; exact hc.2
    rw [write_eq_ok _ hlt, ok_bind]
    have hu : uadd game.num_bullets 1 = game.num_bullets + 1 :=
      uadd_eq (by simp only [WORD]; omega)
    refine ⟨_, _, rfl, ?_, ?_, ?_⟩
    · show uadd game.num_bullets 1 ≤ GAME_MAX_BULLETS
      rw [hu]; exact hc.2
    · show uadd game.num_bullets 1 ≤ game.num_bullets + 1
      rw [hu]
    · show (game.bullets.set _ _).length = GAME_MAX_BULLETS
      rw [List.length_set]; exact hl
  · exact ⟨_, _, rfl, hn, Nat.le_succ _, hl⟩

set_option maxRecDepth 1000000 in
/-- The grid `init_aliens` builds, with the animations and sprites of the
program: the animations tick and no bullet position overlaps two aliens. -/
theorem start_grid_separated :
    animated start_world.alien_animation start_world.game.aliens ∧
    separated start_world.sprites start_world.alien_animation start_world.game.aliens :=
  ⟨by decide, separated_of_spaced (by decide)⟩

end Invaders
